import Mathlib

/-!
# pdfsign: incremental-update writer

A shallow embedding of `sign/pdftrailer.go`, `sign/pdfxref.go` and
`sign/pdfvisualsignature_image.go`.

* Go strings and byte slices are lists of byte values, each a natural number
  (`List Nat`).
* `int64` values are integers; sums and differences computed by the code are
  wrapped to 64 bits (`add64`, `sub64`).
* A Go method on `*SignContext` returning `error` is a function
  `SignContext → Option GoError × SignContext`: the state is returned together
  with the error, because what was written before a failure stays written.
-/

namespace PdfSign

/-! ## Bytes and text -/

/-- The bytes of an ASCII string literal of the source. -/
def ascii (s : String) : List Nat := s.toList.map Char.toNat

/-! ## Machine integers -/

/-- Two's-complement wrap of an integer to the `int64` range. -/
def wrapInt64 (x : Int) : Int := (x + 2 ^ 63) % 2 ^ 64 - 2 ^ 63

/-- Go `a + b` on `int64`. -/
def add64 (a b : Int) : Int := wrapInt64 (a + b)

/-- Go `a - b` on `int64`. -/
def sub64 (a b : Int) : Int := wrapInt64 (a - b)

/-! ## Standard-library functions used by the source -/

/-- Decimal digits of `n`, most significant first (`fuel` bounds the number of digits). -/
def decDigits : Nat → Nat → List Nat
  | 0, _ => []
  | fuel + 1, n => if n < 10 then [48 + n] else decDigits fuel (n / 10) ++ [48 + n % 10]

/-- Decimal text of a natural number (`%d` on an unsigned value). -/
def formatNat (n : Nat) : List Nat := decDigits (n + 1) n

/-- Go `strconv.FormatInt(i, 10)`, also `strconv.Itoa` and `%d` on a signed value. -/
def formatInt (i : Int) : List Nat :=
  if i < 0 then 45 :: formatNat i.natAbs else formatNat i.natAbs

/-- The scan of Go `strings.Replace(s, old, new, -1)` for a non-empty `old`:
`skip` counts the bytes of the current match that are still to be passed over. -/
def replaceFrom (old new : List Nat) : Nat → List Nat → List Nat
  | _, [] => []
  | skip + 1, _ :: cs => replaceFrom old new skip cs
  | 0, c :: cs =>
    if old.isPrefixOf (c :: cs) then new ++ replaceFrom old new (old.length - 1) cs
    else c :: replaceFrom old new 0 cs

/-- Go `strings.Replace(s, old, new, -1)` for a non-empty `old`: every non-overlapping
occurrence of `old`, found from the left, is replaced by `new`. -/
def replaceAll (s old new : List Nat) : List Nat := replaceFrom old new 0 s

/-! ## Errors -/

/-- The Go `error` values that occur. -/
inductive GoError where
  | eof
  | ioFailure
  | runtimePanic
  | pageNotFound (pageNumber : Nat)
  | encodeFailure
  | message (text : List Nat)
  | wrapped (text : List Nat) (inner : GoError)
  deriving DecidableEq

/-! ## Files -/

/-- The input file, an `io.ReadSeeker`: its bytes and the current offset. -/
structure ReadSeeker where
  content : List Nat
  pos : Nat
  deriving DecidableEq

/-- The output file, an `io.Writer`: the bytes written so far and the space left. -/
structure Writer where
  written : List Nat
  free : Nat
  deriving DecidableEq

/-- `Seek(offset, 0)`. A negative offset is an error and leaves the offset where it was;
the callers in the source ignore that error. -/
def ReadSeeker.Seek (f : ReadSeeker) (offset : Int) : ReadSeeker :=
  if offset < 0 then f else { f with pos := offset.toNat }

/-- `Read(buf)` into a zeroed buffer of `len` bytes: the buffer after the call, the error,
and the file. An empty buffer reads nothing; at end of file the error is `io.EOF`;
otherwise the available bytes are copied and the rest of the buffer stays zero. -/
def ReadSeeker.Read (f : ReadSeeker) (len : Nat) : (List Nat × Option GoError) × ReadSeeker :=
  if len = 0 then (([], none), f)
  else if f.content.length ≤ f.pos then ((List.replicate len 0, some GoError.eof), f)
  else
    let chunk := (f.content.drop f.pos).take len
    ((chunk ++ List.replicate (len - chunk.length) 0, none),
      { f with pos := f.pos + chunk.length })

/-- `Write(p)`: all of `p` is appended when it fits; otherwise the part that fits is
appended and an error is returned. -/
def Writer.Write (w : Writer) (p : List Nat) : Option GoError × Writer :=
  if p.length ≤ w.free then
    (none, { written := w.written ++ p, free := w.free - p.length })
  else
    (some GoError.ioFailure, { written := w.written ++ p.take w.free, free := 0 })

/-! ## The signing context -/

/-- Xref metadata supplied by the PDF reader. -/
structure XrefInformation where
  Type_ : List Nat
  StartPos : Int
  Length : Int
  EndPos : Int
  IncludingTrailerEndPos : Int
  ItemCount : Int
  deriving DecidableEq

/-- An object pointer of the reader: `GetID()` (uint32) and `GetGen()` (uint16). -/
structure Ptr where
  id : Nat
  gen : Nat
  deriving DecidableEq

/-- What the source asks of the PDF reader: the xref metadata, the keys and the pointer
of the trailer's `Root` object, and the pages of the page tree in order. -/
structure PDFReader where
  XrefInformation : XrefInformation
  rootKeys : List (List Nat)
  rootPtr : Ptr
  pages : List Ptr
  deriving DecidableEq

/-- `CatalogData` of the context. -/
structure CatalogData where
  ObjectId : Nat
  Length : Int
  RootString : List Nat
  deriving DecidableEq

/-- `VisualSignData` of the context. -/
structure VisualSignData where
  pageObjectId : Nat
  deriving DecidableEq

/-- The appearance image: `Bounds().Dx()`, `Bounds().Dy()`, and the outcome of
`jpeg.Encode` at quality 100 (the encoded bytes, or nothing when encoding fails). -/
structure Image where
  dx : Int
  dy : Int
  jpeg : Option (List Nat)
  deriving DecidableEq

/-- `SignData` of the context: the signature object's id and `Appearance.Image`. -/
structure SignData where
  objectId : Nat
  Image : Image
  deriving DecidableEq

/-- An object written by the object appender: id, start offset in the output, length. -/
structure AppendedObject where
  id : Nat
  offset : Nat
  length : Nat
  deriving DecidableEq

/-- The `SignContext` of the source. `existingSignatures` is the length of that slice,
`clock` is what `time.Now().UnixNano()` returns, `lastObjectId`, `appended` and
`addObjectCalls` are the bookkeeping of the object appender. -/
structure SignContext where
  InputFile : ReadSeeker
  OutputFile : Writer
  PDFReader : PDFReader
  CatalogData : CatalogData
  VisualSignData : VisualSignData
  SignData : SignData
  NewXrefStart : Int
  existingSignatures : Nat
  clock : Int
  lastObjectId : Nat
  appended : List AppendedObject
  addObjectCalls : Nat
  deriving DecidableEq

/-! ## Helpers of the repository that the three files call -/

/-- Modelled from the spec: `leftPad` is not among the three files. "Each offset field is
left-padded with `'0'` to exactly 10 digits": `pLen` copies of `padStr` are put in front
of `s`, none when `pLen` is not positive. -/
def leftPad (s padStr : List Nat) (pLen : Int) : List Nat :=
  if pLen ≤ 0 then s else (List.replicate pLen.toNat padStr).flatten ++ s

/-- Modelled from the spec: `writePartFromSourceFileToTargetFile` is not among the three
files. "Copy the remainder of the original xref table verbatim": the `length` bytes of the
input that start at `offset` are appended to the output; a range that is not inside the
input is an I/O error. -/
def writePartFromSourceFileToTargetFile (input : ReadSeeker) (output : Writer)
    (offset length : Int) : Option GoError × ReadSeeker × Writer :=
  if offset < 0 ∨ length < 0 ∨ (input.content.length : Int) < offset + length then
    (some GoError.ioFailure, input, output)
  else
    let part := (input.content.drop offset.toNat).take length.toNat
    let r := output.Write part
    (r.1, { input with pos := offset.toNat + length.toNat }, r.2)

/-- Modelled from the spec: `addObject` (the object appender) is not among the three
files. It "allocates the next unused object ID", "writes `<id> 0 obj\n` + content +
`\nendobj\n` to the output stream immediately" and "records the byte length actually
written"; an I/O error is returned as it is. -/
def addObject (ctx : SignContext) (content : List Nat) : Except GoError Nat × SignContext :=
  let id := ctx.lastObjectId + 1
  let obj := formatNat id ++ ascii " 0 obj\n" ++ content ++ ascii "\nendobj\n"
  let r := ctx.OutputFile.Write obj
  match r.1 with
  | some e =>
    (.error e, { ctx with OutputFile := r.2, addObjectCalls := ctx.addObjectCalls + 1 })
  | none =>
    (.ok id,
      { ctx with
        OutputFile := r.2
        lastObjectId := id
        appended := ctx.appended ++ [⟨id, ctx.OutputFile.written.length, obj.length⟩]
        addObjectCalls := ctx.addObjectCalls + 1 })

/-- Modelled from the spec: `findPageByNumber` is not among the three files. It "locates
the target page by 1-based `pageNumber`"; a page number out of range is an error. -/
def findPageByNumber (ctx : SignContext) (pageNumber : Nat) : Except GoError Ptr :=
  if pageNumber = 0 then .error (GoError.pageNotFound pageNumber)
  else
    match ctx.PDFReader.pages.get? (pageNumber - 1) with
    | some p => .ok p
    | none => .error (GoError.pageNotFound pageNumber)

/-- Modelled from the spec: `pdfString` is not among the three files. The title is the
PDF string `"Signature N"`: the text between parentheses. -/
def pdfString (text : List Nat) : List Nat := ascii "(" ++ text ++ ascii ")"

/-- Modelled from the spec: the annotation flag *Print* (bit 3 of `/F`). -/
def AnnotationFlagPrint : Nat := 4

/-- Modelled from the spec: the annotation flag *Locked* (bit 8 of `/F`). -/
def AnnotationFlagLocked : Nat := 128

/-! ## `sign/pdftrailer.go` -/

/-- The text `root_string` that `writeTrailer` searches for. -/
def root_string (ctx : SignContext) : List Nat := ascii "Root " ++ ctx.CatalogData.RootString

/-- The text `new_root` that `writeTrailer` puts in its place. -/
def new_root (ctx : SignContext) : List Nat :=
  ascii "Root " ++ formatInt (ctx.CatalogData.ObjectId : Int) ++ ascii " 0 R"

/-- The text `size_string` that `writeTrailer` searches for. -/
def size_string (ctx : SignContext) : List Nat :=
  ascii "Size " ++ formatInt ctx.PDFReader.XrefInformation.ItemCount

/-- The text `new_size` that `writeTrailer` puts in its place. -/
def new_size (ctx : SignContext) : List Nat :=
  ascii "Size " ++ formatInt (add64 ctx.PDFReader.XrefInformation.ItemCount 2)

/-- The buffer `trailer_buf` of `writeTrailer` after the `Seek` and the `Read`, with the
error of the `Read`. -/
def trailer_buf (ctx : SignContext) : (List Nat × Option GoError) × ReadSeeker :=
  let xi := ctx.PDFReader.XrefInformation
  (ctx.InputFile.Seek (add64 xi.EndPos 1)).Read (sub64 xi.IncludingTrailerEndPos xi.EndPos).toNat

/-- The method `writeTrailer` of `SignContext`. -/
def writeTrailer (ctx : SignContext) : Option GoError × SignContext :=
  let xi := ctx.PDFReader.XrefInformation
  let trailer_length := sub64 xi.IncludingTrailerEndPos xi.EndPos
  if trailer_length < 0 then
    (some GoError.runtimePanic, { ctx with InputFile := ctx.InputFile.Seek (add64 xi.EndPos 1) })
  else
    let rd := trailer_buf ctx
    let ctx1 := { ctx with InputFile := rd.2 }
    match rd.1.2 with
    | some e => (some e, ctx1)
    | none =>
      let trailer_string := replaceAll rd.1.1 (root_string ctx) (new_root ctx)
      let trailer_string := replaceAll trailer_string (size_string ctx) (new_size ctx)
      let w1 := ctx1.OutputFile.Write trailer_string
      match w1.1 with
      | some e => (some e, { ctx1 with OutputFile := w1.2 })
      | none =>
        let w2 := w1.2.Write (formatInt ctx.NewXrefStart ++ ascii "\n")
        match w2.1 with
        | some e => (some e, { ctx1 with OutputFile := w2.2 })
        | none =>
          let w3 := w2.2.Write (ascii "%%EOF\n")
          match w3.1 with
          | some e => (some e, { ctx1 with OutputFile := w3.2 })
          | none => (none, { ctx1 with OutputFile := w3.2 })

/-! ## `sign/pdfxref.go` -/

/-- The first new xref line of `writeXrefTable`, for the catalog object. -/
def catalog_xref_line (ctx : SignContext) : List Nat :=
  let catalog_object_start_position := formatInt ctx.PDFReader.XrefInformation.StartPos
  leftPad catalog_object_start_position (ascii "0")
      (10 - (catalog_object_start_position.length : Int))
    ++ ascii " 00000 n\n"

/-- The second new xref line of `writeXrefTable`, for the signature object. -/
def signature_xref_line (ctx : SignContext) : List Nat :=
  let signature_object_start_position :=
    formatInt (add64 ctx.PDFReader.XrefInformation.StartPos ctx.CatalogData.Length)
  leftPad signature_object_start_position (ascii "0")
      (10 - (signature_object_start_position.length : Int))
    ++ ascii " 00000 n\n"

/-- The header `xref_size` of the existing table, as `writeXrefTable` computes it. -/
def xref_size (ctx : SignContext) : List Nat :=
  ascii "xref\n0 " ++ formatInt ctx.PDFReader.XrefInformation.ItemCount

/-- The header `new_xref_size` that `writeXrefTable` writes. -/
def new_xref_size (ctx : SignContext) : List Nat :=
  ascii "xref\n0 " ++ formatInt (add64 ctx.PDFReader.XrefInformation.ItemCount 2)

/-- The method `writeXrefTable` of `SignContext`. -/
def writeXrefTable (ctx : SignContext) : Option GoError × SignContext :=
  let xi := ctx.PDFReader.XrefInformation
  let w1 := ctx.OutputFile.Write (new_xref_size ctx)
  match w1.1 with
  | some e => (some e, { ctx with OutputFile := w1.2 })
  | none =>
    let cp := writePartFromSourceFileToTargetFile ctx.InputFile w1.2
      (add64 xi.StartPos ((xref_size ctx).length : Int))
      (sub64 xi.Length ((xref_size ctx).length : Int))
    let ctx1 := { ctx with InputFile := cp.2.1, OutputFile := cp.2.2 }
    match cp.1 with
    | some e => (some e, ctx1)
    | none =>
      let w2 := ctx1.OutputFile.Write (catalog_xref_line ctx)
      match w2.1 with
      | some e => (some e, { ctx1 with OutputFile := w2.2 })
      | none =>
        let w3 := w2.2.Write (signature_xref_line ctx)
        match w3.1 with
        | some e => (some e, { ctx1 with OutputFile := w3.2 })
        | none => (none, { ctx1 with OutputFile := w3.2 })

/-- The method `writeXref` of `SignContext`. -/
def writeXref (ctx : SignContext) : Option GoError × SignContext :=
  if ctx.PDFReader.XrefInformation.Type_ = ascii "table" then
    match writeXrefTable ctx with
    | (some e, ctx1) => (some e, ctx1)
    | (none, ctx1) => (none, ctx1)
  else
    (some (GoError.message (ascii "Unkwn xref type: " ++ ctx.PDFReader.XrefInformation.Type_)),
      ctx)

/-! ## `sign/pdfvisualsignature_image.go` -/

/-- The image XObject that `createAppearanceWithImage` hands to the appender. -/
def img_buffer (img : Image) (data : List Nat) : List Nat :=
  ascii "<<\n" ++ ascii "  /Type /XObject\n" ++ ascii "  /Subtype /Image\n"
    ++ (ascii "  /Width " ++ formatInt img.dx ++ ascii "\n")
    ++ (ascii "  /Height " ++ formatInt img.dy ++ ascii "\n")
    ++ ascii "  /ColorSpace /DeviceRGB\n" ++ ascii "  /BitsPerComponent 8\n"
    ++ ascii "  /Filter /DCTDecode\n"
    ++ (ascii "  /Length " ++ formatInt (data.length : Int) ++ ascii "\n")
    ++ ascii ">>\n" ++ ascii "stream\n" ++ data ++ ascii "\nendstream\n"

/-- The Form XObject that `createAppearanceWithImage` returns. -/
def appearance_buffer (img : Image) (imgIdentifier : Int) (imgBufferID : Nat) : List Nat :=
  ascii "<<\n" ++ ascii "  /Type /XObject\n" ++ ascii "  /Subtype /Form\n"
    ++ (ascii "  /BBox [0 0 " ++ formatInt img.dx ++ ascii " " ++ formatInt img.dy ++ ascii "]\n")
    ++ (ascii "  /Resources << /XObject << /Im" ++ formatInt imgIdentifier ++ ascii " "
        ++ formatNat imgBufferID ++ ascii " 0 R >> >>")
    ++ ascii "  /FormType 1\n" ++ ascii ">>\n" ++ ascii "stream\n"
    ++ (ascii "q " ++ formatInt img.dx ++ ascii " 0 0 " ++ formatInt img.dy ++ ascii " 0 0 cm\n")
    ++ (ascii "/Im" ++ formatInt imgIdentifier ++ ascii " Do\n")
    ++ ascii "Q\n" ++ ascii "endstream\n"

/-- The method `createAppearanceWithImage` of `SignContext`. -/
def createAppearanceWithImage (ctx : SignContext) : Except GoError (List Nat) × SignContext :=
  let img := ctx.SignData.Image
  match img.jpeg with
  | none => (.error GoError.encodeFailure, ctx)
  | some data =>
    let imgIdentifier := ctx.clock
    match addObject ctx (img_buffer img data) with
    | (.error e, ctx1) => (.error e, ctx1)
    | (.ok imgBufferID, ctx1) => (.ok (appearance_buffer img imgIdentifier imgBufferID), ctx1)

/-- The four coordinates of `rect`, each as `%f` prints it. -/
structure RectText where
  x0 : List Nat
  y0 : List Nat
  x1 : List Nat
  y1 : List Nat
  deriving DecidableEq

/-- The lines that `createVisualSignatureWithImage` writes after the `/Rect` and `/AP`
part, once the page reference `page_line` is known. -/
def signature_tail (ctx : SignContext) (page_line : List Nat) : List Nat :=
  let annotationFlags := AnnotationFlagPrint ||| AnnotationFlagLocked
  page_line
    ++ (ascii "  /F " ++ formatNat annotationFlags ++ ascii "\n")
    ++ ascii "  /FT /Sig\n"
    ++ (ascii "  /T "
        ++ pdfString (ascii "Signature " ++ formatInt ((ctx.existingSignatures : Int) + 1))
        ++ ascii "\n")
    ++ (ascii "  /V " ++ formatNat ctx.SignData.objectId ++ ascii " 0 R\n")
    ++ ascii ">>\n"

/-- The second half of `createVisualSignatureWithImage`, from the `Root` lookup on;
`visual_signature` is the buffer filled so far. -/
def finishVisualSignature (ctx : SignContext) (pageNumber : Nat)
    (visual_signature : List Nat) : Except GoError (List Nat) × SignContext :=
  let found_pages := ctx.PDFReader.rootKeys.any (fun key => decide (key = ascii "Pages"))
  let rootPtr := ctx.PDFReader.rootPtr
  let ctx1 :=
    { ctx with
      CatalogData :=
        { ctx.CatalogData with
          RootString :=
            formatInt (rootPtr.id : Int) ++ ascii " " ++ formatInt (rootPtr.gen : Int)
              ++ ascii " R" } }
  if found_pages then
    match findPageByNumber ctx1 pageNumber with
    | .error e => (.error e, ctx1)
    | .ok page_ptr =>
      let ctx2 := { ctx1 with VisualSignData := { pageObjectId := page_ptr.id } }
      (.ok (visual_signature
          ++ signature_tail ctx2
            (ascii "  /P " ++ formatInt (page_ptr.id : Int) ++ ascii " "
              ++ formatInt (page_ptr.gen : Int) ++ ascii " R\n")),
        ctx2)
  else
    (.ok (visual_signature ++ signature_tail ctx1 []), ctx1)

/-- The method `createVisualSignatureWithImage` of `SignContext`. -/
def createVisualSignatureWithImage (ctx : SignContext) (visible : Bool) (pageNumber : Nat)
    (rect : RectText) : Except GoError (List Nat) × SignContext :=
  let visual_signature := ascii "<<\n" ++ ascii "  /Type /Annot\n" ++ ascii "  /Subtype /Widget\n"
  if visible then
    let visual_signature := visual_signature
      ++ (ascii "  /Rect [" ++ rect.x0 ++ ascii " " ++ rect.y0 ++ ascii " " ++ rect.x1 ++ ascii " "
          ++ rect.y1 ++ ascii "]\n")
    match createAppearanceWithImage ctx with
    | (.error e, ctx1) =>
      (.error (GoError.wrapped (ascii "failed to create appearance: ") e), ctx1)
    | (.ok appearance, ctx1) =>
      match addObject ctx1 appearance with
      | (.error e, ctx2) =>
        (.error (GoError.wrapped (ascii "failed to add appearance object: ") e), ctx2)
      | (.ok appearanceObjectId, ctx2) =>
        finishVisualSignature ctx2 pageNumber
          (visual_signature
            ++ (ascii "  /AP << /N " ++ formatNat appearanceObjectId ++ ascii " 0 R >>\n"))
  else
    finishVisualSignature ctx pageNumber (visual_signature ++ ascii "  /Rect [0 0 0 0]\n")

/-! ## The order in which the new objects are appended -/

/-- Modelled from the spec: the orchestrator is not among the three files. "Output file
layout: [unchanged original body][new appended objects: catalog, (optional image XObject),
(optional appearance Form XObject), annotation dict, signature dict]", and `CatalogData`
holds "the object ID assigned to the new catalog object, and the byte length of the new
catalog object": the catalog is appended and its id and written length are kept, the
visual signature is built (appending the image and the form when visible) and appended,
then the signature dictionary is appended. -/
def appendNewObjects (ctx : SignContext) (catalog signature : List Nat) (visible : Bool)
    (pageNumber : Nat) (rect : RectText) : Option GoError × SignContext :=
  match addObject ctx catalog with
  | (.error e, c1) => (some e, c1)
  | (.ok catalogId, c1) =>
    let c1 :=
      { c1 with
        CatalogData :=
          { c1.CatalogData with
            ObjectId := catalogId
            Length :=
              ((formatNat catalogId ++ ascii " 0 obj\n" ++ catalog ++ ascii "\nendobj\n").length
                : Int) } }
    match createVisualSignatureWithImage c1 visible pageNumber rect with
    | (.error e, c2) => (some e, c2)
    | (.ok visual_signature, c2) =>
      match addObject c2 visual_signature with
      | (.error e, c3) => (some e, c3)
      | (.ok _, c3) =>
        match addObject c3 signature with
        | (.error e, c4) => (some e, c4)
        | (.ok _, c4) => (none, c4)

/-! ## Sample data -/

/-- The body of a small PDF file: the header line and one object. -/
def sampleBody : List Nat := ascii "%PDF-1.4\n1 0 obj\n<< /Type /Catalog >>\nendobj\n"

/-- Its xref table, two entries of twenty bytes, at offset 45. -/
def sampleTable : List Nat :=
  ascii "xref\n0 2\n0000000000 65535 f \n0000000009 00000 n \n"

/-- Its trailer block, at offset 94. -/
def sampleTrailer : List Nat := ascii "trailer\n<< /Size 2 /Root 1 0 R >>\nstartxref\n"

/-- A context for that file, before the xref table and the trailer are written. -/
def sampleContext : SignContext where
  InputFile := ⟨sampleBody ++ sampleTable ++ sampleTrailer ++ ascii "45\n%%EOF\n", 0⟩
  OutputFile := ⟨sampleBody, 4096⟩
  PDFReader :=
    { XrefInformation := ⟨ascii "table", 45, 49, 93, 137, 2⟩
      rootKeys := [ascii "Type", ascii "Pages"]
      rootPtr := ⟨1, 0⟩
      pages := [⟨5, 0⟩] }
  CatalogData := ⟨2, 100, ascii "1 0 R"⟩
  VisualSignData := ⟨0⟩
  SignData := ⟨3, ⟨2, 1, some [255, 216, 255, 217]⟩⟩
  NewXrefStart := 1334
  existingSignatures := 0
  clock := 1700000000000000000
  lastObjectId := 1
  appended := []
  addObjectCalls := 0

/-- A trailer block with `/Size 42` and `/Root 10 0 R` whose `/ID` string holds two
occurrences of `Root 10 0 R` that share an `R`. -/
def overlapTrailer : List Nat :=
  ascii "trailer\n<< /Size 42 /Root 10 0 R /ID [(Root 10 0 Root 10 0 R) (x)] >>\nstartxref\n"

/-- A trailer block in which `Size 42` and `Root 10 0 R` occur only inside the longer
tokens `/Size 421` and `/XRoot 10 0 R`. -/
def longTokenTrailer : List Nat :=
  ascii "trailer\n<< /Size 421 /XRoot 10 0 R >>\nstartxref\n"

/-- A context with item count 42, old root `10 0 R` and new catalog id 43, whose input
has the block `trailer` right after the body. -/
def trailerContext (trailer : List Nat) : SignContext :=
  { sampleContext with
    InputFile := ⟨sampleBody ++ trailer, 0⟩
    PDFReader :=
      { sampleContext.PDFReader with
        XrefInformation := ⟨ascii "table", 45, 0, 44, 44 + (trailer.length : Int), 42⟩ }
    CatalogData := ⟨43, 100, ascii "10 0 R"⟩ }

/-- A catalog object body for `sampleContext`. -/
def sampleCatalog : List Nat := ascii "<< /Type /Catalog >>"

/-- A signature dictionary body for `sampleContext`. -/
def sampleSignature : List Nat := ascii "<< /Type /Sig >>"

/-- The rectangle `[1 2 3 4]`, each coordinate already printed. -/
def sampleRect : RectText := ⟨ascii "1", ascii "2", ascii "3", ascii "4"⟩

/-! ## Definitions that follow the words of the specification -/

/-- The number a string of decimal digits stands for. -/
def decodeDecimal (field : List Nat) : Nat :=
  field.foldl (fun acc b => 10 * acc + (b - 48)) 0

/-- Whether every byte is a decimal digit. -/
def allDigits (field : List Nat) : Prop := ∀ b ∈ field, 48 ≤ b ∧ b ≤ 57

/-! ## Notions used to state the theorems -/

/-- No occurrence of `old` in `gap ++ rest` starts inside `gap`. -/
def NoStart (old : List Nat) : List Nat → List Nat → Prop
  | [], _ => True
  | c :: gap, rest => ¬ old <+: c :: (gap ++ rest) ∧ NoStart old gap rest

/-- Every end of `p` that could begin with `new` is a beginning of `old`. -/
def EndsAgree (old new p : List Nat) : Prop :=
  ∀ q ∈ p.tails, q ≠ [] → (q <+: new ∨ new <+: q) → q <+: old

/-- Deciding `NoStart`. -/
instance NoStart.instDecidable (old : List Nat) :
    ∀ gap rest : List Nat, Decidable (NoStart old gap rest)
  | [], _ => isTrue trivial
  | c :: gap, rest =>
    match NoStart.instDecidable old gap rest with
    | isTrue h =>
      if hp : old <+: c :: (gap ++ rest) then isFalse (fun hn => hn.1 hp) else isTrue ⟨hp, h⟩
    | isFalse h => isFalse (fun hn => h hn.2)

/-- The number of places of `s` at which an occurrence of `pat` starts. -/
def countOcc (pat : List Nat) : List Nat → Nat
  | [] => 0
  | c :: cs => (if pat <+: c :: cs then 1 else 0) + countOcc pat cs

/-- No end of `x` is a proper beginning of `pat`: an occurrence of `pat` that starts in
`x` ends in `x`, whatever follows. -/
def Closed (pat x : List Nat) : Prop :=
  ∀ u ∈ x.tails, u ≠ [] → u.length < pat.length → ¬ u <+: pat

/-- Whether every byte is a decimal digit or the minus sign. -/
def numberText (x : List Nat) : Prop := ∀ b ∈ x, b = 45 ∨ (48 ≤ b ∧ b ≤ 57)

/-- The fixed texts between the numbers in the lines that follow the `/Rect` and `/AP`
part of the signature dictionary. -/
def tailLiterals : List (List Nat) :=
  [ascii "  /P ", ascii " ", ascii " R\n", ascii "  /F ", ascii "\n", ascii "  /FT /Sig\n",
    ascii "  /T ", ascii "(", ascii "Signature ", ascii ")", ascii "  /V ", ascii " 0 R\n",
    ascii ">>\n"]

/-- The text that `createVisualSignatureWithImage` stores in `CatalogData.RootString`. -/
def rootReference (ctx : SignContext) : List Nat :=
  formatInt (ctx.PDFReader.rootPtr.id : Int) ++ ascii " " ++ formatInt (ctx.PDFReader.rootPtr.gen : Int)
    ++ ascii " R"

/-- The context after the assignment to `CatalogData.RootString`. -/
def withRootString (ctx : SignContext) : SignContext :=
  { ctx with CatalogData := { ctx.CatalogData with RootString := rootReference ctx } }

/-- The `/P` line for a page. -/
def pageLine (p : Ptr) : List Nat :=
  ascii "  /P " ++ formatInt (p.id : Int) ++ ascii " " ++ formatInt (p.gen : Int) ++ ascii " R\n"

/-- A context in which `CatalogData.RootString` has not been set yet. -/
def freshContext : SignContext :=
  { sampleContext with CatalogData := ⟨0, 0, []⟩ }

/-- The text `x` holds no occurrence of `pat` and cannot begin one that runs on after it. -/
def Inert (pat x : List Nat) : Prop := Closed pat x ∧ countOcc pat x = 0

/-- Every non-empty end of `x` differs from `fp` at some place they both have. -/
def Diverges (fp x : List Nat) : Prop :=
  ∀ u ∈ x.tails, u ≠ [] → ¬ u <+: fp ∧ ¬ fp <+: u

/-- Deciding `Closed`. -/
instance Closed.instDecidable (pat x : List Nat) : Decidable (Closed pat x) := by
  unfold Closed
  infer_instance

/-- Deciding `Inert`. -/
instance Inert.instDecidable (pat x : List Nat) : Decidable (Inert pat x) := by
  unfold Inert
  infer_instance

/-- Deciding `Diverges`. -/
instance Diverges.instDecidable (fp x : List Nat) : Decidable (Diverges fp x) := by
  unfold Diverges
  infer_instance

/-- Whether every byte is one that `%f` can print: a digit, a sign, the point, or a letter
of `Inf` and `NaN`. -/
def floatText (x : List Nat) : Prop :=
  ∀ b ∈ x, (48 ≤ b ∧ b ≤ 57) ∨ b = 43 ∨ b = 45 ∨ b = 46 ∨ b = 73 ∨ b = 78 ∨ b = 97 ∨ b = 102
    ∨ b = 110

/-- The four coordinates are texts that `%f` can print. -/
def RectText.printed (rect : RectText) : Prop :=
  floatText rect.x0 ∧ floatText rect.y0 ∧ floatText rect.x1 ∧ floatText rect.y1

/-- The part of the dictionary between the `/Subtype` line and the page line: the `/Rect`
line of an invisible signature, or the `/Rect` and `/AP` lines of a visible one. -/
def IsMiddle (rect : RectText) (middle : List Nat) : Prop :=
  middle = ascii "  /Rect [0 0 0 0]\n"
    ∨ ∃ id : Nat, middle
        = ascii "  /Rect [" ++ (rect.x0 ++ (ascii " " ++ (rect.y0 ++ (ascii " " ++ (rect.x1
          ++ (ascii " " ++ (rect.y1 ++ (ascii "]\n" ++ (ascii "  /AP << /N " ++ (formatNat id
          ++ ascii " 0 R >>\n"))))))))))

/-- The fixed texts of the `/Rect` and `/AP` lines. -/
def middleLiterals : List (List Nat) :=
  [ascii "  /Rect [0 0 0 0]\n", ascii "  /Rect [", ascii " ", ascii "]\n", ascii "  /AP << /N ",
    ascii " 0 R >>\n"]

/-- The fixed texts of the `/P` line. -/
def pageLiterals : List (List Nat) := [ascii "  /P ", ascii " ", ascii " R\n"]

/-- A trailer block with `/Size 42` and `/Root 10 0 R`, each once. -/
def scenarioTrailer : List Nat := ascii "trailer\n<< /Size 42 /Root 10 0 R >>\nstartxref\n"

/-- An xref table of 9 entries of twenty bytes, at offset 45. -/
def growTable : List Nat :=
  ascii "xref\n0 9\n" ++ ascii "0000000000 65535 f \n"
    ++ (List.replicate 8 (ascii "0000000009 00000 n \n")).flatten

/-- A context whose input has the table `growTable` of 9 entries right after the body: the
new count 11 has one digit more than the old one. -/
def growContext : SignContext :=
  { sampleContext with
    InputFile :=
      ⟨sampleBody ++ growTable ++ ascii "trailer\n<< /Size 9 /Root 1 0 R >>\nstartxref\n"
        ++ ascii "45\n%%EOF\n", 0⟩
    PDFReader :=
      { sampleContext.PDFReader with
        XrefInformation := ⟨ascii "table", 45, 189, 233, 277, 9⟩ } }

/-- A rectangle as `%f` prints its four coordinates. -/
def printedRect : RectText :=
  ⟨ascii "10.000000", ascii "20.000000", ascii "110.000000", ascii "70.000000"⟩

/-- An xref table of two entries whose header gives the largest int64 as the count. -/
def overflowTable : List Nat :=
  ascii "xref\n0 9223372036854775807\n0000000000 65535 f \n0000000009 00000 n \n"

/-- A context with item count `2^63 - 1`, whose input has `overflowTable` right after the
body. -/
def overflowContext : SignContext :=
  { sampleContext with
    InputFile := ⟨sampleBody ++ overflowTable ++ sampleTrailer ++ ascii "45\n%%EOF\n", 0⟩
    PDFReader :=
      { sampleContext.PDFReader with
        XrefInformation := ⟨ascii "table", 45, 67, 111, 155, 9223372036854775807⟩ } }

set_option maxRecDepth 100000

/-! ## Decimal text -/

theorem decodeDecimal_append (xs ys : List Nat) :
    decodeDecimal (xs ++ ys) = ys.foldl (fun acc b => 10 * acc + (b - 48)) (decodeDecimal xs) := by
  simp [decodeDecimal, List.foldl_append]

theorem decodeDecimal_snoc (xs : List Nat) (d : Nat) :
    decodeDecimal (xs ++ [d]) = 10 * decodeDecimal xs + (d - 48) := by
  simp [decodeDecimal_append]

theorem decodeDecimal_zeros (k : Nat) (xs : List Nat) :
    decodeDecimal (List.replicate k 48 ++ xs) = decodeDecimal xs := by
  induction k with
  | zero => simp
  | succ k ih =>
    have h : decodeDecimal (List.replicate (k + 1) 48 ++ xs)
        = decodeDecimal (List.replicate k 48 ++ xs) := by
      simp [decodeDecimal, List.replicate_succ, List.foldl_append]
    rw [h, ih]

theorem allDigits_append {xs ys : List Nat} (hx : allDigits xs) (hy : allDigits ys) :
    allDigits (xs ++ ys) := by
  intro b hb
  rcases List.mem_append.mp hb with h | h
  · exact hx b h
  · exact hy b h

theorem allDigits_zeros (k : Nat) : allDigits (List.replicate k 48) := by
  intro b hb
  have := List.eq_of_mem_replicate hb
  omega

/-- What `decDigits` produces when the fuel suffices. -/
theorem decDigits_spec : ∀ (fuel n : Nat), n < fuel →
    decDigits fuel n ≠ [] ∧ allDigits (decDigits fuel n) ∧ decodeDecimal (decDigits fuel n) = n
      ∧ ∀ k, 0 < k → n < 10 ^ k → (decDigits fuel n).length ≤ k := by
  intro fuel
  induction fuel with
  | zero => intro n h; omega
  | succ fuel ih =>
    intro n hn
    by_cases h10 : n < 10
    · simp only [decDigits, h10, if_true]
      refine ⟨by simp, ?_, ?_, ?_⟩
      · intro b hb
        simp at hb
        omega
      · simp [decodeDecimal]
      · intro k hk _
        simpa using hk
    · simp only [decDigits, h10, if_false]
      have hlt : n / 10 < fuel := by omega
      obtain ⟨_, hd, hv, hl⟩ := ih (n / 10) hlt
      refine ⟨by simp, ?_, ?_, ?_⟩
      · apply allDigits_append hd
        intro b hb
        simp at hb
        omega
      · rw [decodeDecimal_snoc, hv]
        omega
      · intro k hk hnk
        cases k with
        | zero => omega
        | succ k =>
          have hk0 : 0 < k := by
            rcases Nat.eq_zero_or_pos k with h | h
            · subst h
              simp at hnk
              omega
            · exact h
          have : n / 10 < 10 ^ k := by
            rw [Nat.div_lt_iff_lt_mul (by norm_num)]
            rw [pow_succ] at hnk
            exact hnk
          have := hl k hk0 this
          simp
          omega

theorem formatNat_ne_nil (n : Nat) : formatNat n ≠ [] :=
  (decDigits_spec (n + 1) n (Nat.lt_succ_self n)).1

theorem formatNat_allDigits (n : Nat) : allDigits (formatNat n) :=
  (decDigits_spec (n + 1) n (Nat.lt_succ_self n)).2.1

theorem decodeDecimal_formatNat (n : Nat) : decodeDecimal (formatNat n) = n :=
  (decDigits_spec (n + 1) n (Nat.lt_succ_self n)).2.2.1

theorem formatNat_length_le (n k : Nat) (hk : 0 < k) (h : n < 10 ^ k) :
    (formatNat n).length ≤ k :=
  (decDigits_spec (n + 1) n (Nat.lt_succ_self n)).2.2.2 k hk h

theorem formatInt_of_nonneg {i : Int} (h : 0 ≤ i) : formatInt i = formatNat i.toNat := by
  have h1 : ¬ i < 0 := by omega
  have h2 : i.natAbs = i.toNat := by omega
  simp [formatInt, h1, h2]

theorem formatInt_natCast (n : Nat) : formatInt (n : Int) = formatNat n := by
  rw [formatInt_of_nonneg (by omega)]
  simp

/-! ## Machine integers -/

theorem wrapInt64_eq {x : Int} (h1 : -2 ^ 63 ≤ x) (h2 : x < 2 ^ 63) : wrapInt64 x = x := by
  unfold wrapInt64
  norm_num at h1 h2 ⊢
  omega

/-! ## Files -/

theorem Writer.Write_fits (w : Writer) (p : List Nat) (h : p.length ≤ w.free) :
    w.Write p = (none, { written := w.written ++ p, free := w.free - p.length }) := by
  simp [Writer.Write, h]

/-! ## The xref lines -/

theorem flatten_replicate_zero (k : Nat) :
    (List.replicate k (ascii "0")).flatten = List.replicate k 48 := by
  induction k with
  | zero => rfl
  | succ k ih =>
    rw [List.replicate_succ, List.flatten_cons, ih, List.replicate_succ]
    rfl

/-- The padded offset field of an xref line, for an offset below `10 ^ 10`. -/
theorem leftPad_field (v : Int) (h0 : 0 ≤ v) (h1 : v < 10 ^ 10) :
    leftPad (formatInt v) (ascii "0") (10 - ((formatInt v).length : Int))
        = List.replicate (10 - (formatInt v).length) 48 ++ formatInt v
      ∧ (leftPad (formatInt v) (ascii "0") (10 - ((formatInt v).length : Int))).length = 10
      ∧ allDigits (leftPad (formatInt v) (ascii "0") (10 - ((formatInt v).length : Int)))
      ∧ (decodeDecimal (leftPad (formatInt v) (ascii "0") (10 - ((formatInt v).length : Int))) : Int)
          = v := by
  have hlen : (formatInt v).length ≤ 10 := by
    rw [formatInt_of_nonneg h0]
    apply formatNat_length_le _ _ (by norm_num)
    have : (v.toNat : Int) < 10 ^ 10 := by
      rw [Int.toNat_of_nonneg h0]
      exact h1
    exact_mod_cast this
  have heq : leftPad (formatInt v) (ascii "0") (10 - ((formatInt v).length : Int))
      = List.replicate (10 - (formatInt v).length) 48 ++ formatInt v := by
    unfold leftPad
    split
    · next h =>
      have : 10 - (formatInt v).length = 0 := by omega
      rw [this]
      simp
    · next h =>
      have : (10 - ((formatInt v).length : Int)).toNat = 10 - (formatInt v).length := by omega
      rw [this, flatten_replicate_zero]
  rw [heq]
  refine ⟨rfl, ?_, ?_, ?_⟩
  · simp
    omega
  · apply allDigits_append (allDigits_zeros _)
    rw [formatInt_of_nonneg h0]
    exact formatNat_allDigits _
  · rw [decodeDecimal_zeros, formatInt_of_nonneg h0, decodeDecimal_formatNat]
    exact Int.toNat_of_nonneg h0

/-! ## `writeXrefTable` -/

theorem copy_length (content : List Nat) (off len : Int) (hoff : 0 ≤ off)
    (hin : off + len ≤ (content.length : Int)) :
    ((content.drop off.toNat).take len.toNat).length = len.toNat := by
  simp
  omega

/-- What `writeXrefTable` writes when the copied range lies in the input and the output
has room. -/
theorem writeXrefTable_run (ctx : SignContext) (off len : Int)
    (hoffdef : off = add64 ctx.PDFReader.XrefInformation.StartPos ((xref_size ctx).length : Int))
    (hlendef : len = sub64 ctx.PDFReader.XrefInformation.Length ((xref_size ctx).length : Int))
    (hoff : 0 ≤ off) (hlen : 0 ≤ len)
    (hin : off + len ≤ (ctx.InputFile.content.length : Int))
    (hfree : (new_xref_size ctx).length + len.toNat + (catalog_xref_line ctx).length
        + (signature_xref_line ctx).length ≤ ctx.OutputFile.free) :
    (writeXrefTable ctx).1 = none
      ∧ (writeXrefTable ctx).2.OutputFile.written
        = ctx.OutputFile.written ++ new_xref_size ctx
          ++ (ctx.InputFile.content.drop off.toNat).take len.toNat
          ++ catalog_xref_line ctx ++ signature_xref_line ctx := by
  have hpart := copy_length ctx.InputFile.content off len hoff hin
  have hcond : ¬ (off < 0 ∨ len < 0 ∨ (ctx.InputFile.content.length : Int) < off + len) := by
    omega
  unfold writeXrefTable
  simp only [← hoffdef, ← hlendef]
  rw [Writer.Write_fits _ _ (by omega)]
  simp only [writePartFromSourceFileToTargetFile, if_neg hcond]
  rw [Writer.Write_fits _ _ (by simp only [hpart]; omega)]
  simp only []
  rw [Writer.Write_fits _ _ (by simp only [hpart]; omega)]
  simp only []
  rw [Writer.Write_fits _ _ (by simp only [hpart]; omega)]
  simp

theorem Writer.Write_none (w : Writer) (p : List Nat) (h : (w.Write p).1 = none) :
    (w.Write p).2.written = w.written ++ p := by
  unfold Writer.Write at h ⊢
  split
  · rfl
  · next hc => simp [hc] at h

/-- A successful `writeXrefTable` has written the two new lines last. -/
theorem writeXrefTable_ends (ctx : SignContext) (h : (writeXrefTable ctx).1 = none) :
    ∃ before, (writeXrefTable ctx).2.OutputFile.written
      = before ++ catalog_xref_line ctx ++ signature_xref_line ctx := by
  unfold writeXrefTable at h ⊢
  simp only [] at h ⊢
  split at h
  · simp at h
  · split at h
    · simp at h
    · split at h
      · simp at h
      · split at h
        · simp at h
        · next h1 _ h2 _ h3 _ h4 =>
          simp only [h1, h2, h3, h4]
          rw [Writer.Write_none _ _ h4, Writer.Write_none _ _ h3]
          exact ⟨_, rfl⟩

/-- C2, evaluated: in `sampleContext` (`StartPos` 45, `CatalogData.Length` 100, a table of
two twenty-byte entries) the two lines that `writeXrefTable` appends are
`0000000045 00000 n\n` and `0000000145 00000 n\n`, of 19 bytes each, so the table written
is the new header, the two old entries of 20 bytes and two entries of 19 bytes. -/
theorem xref_new_entries_have_19_bytes :
    0 ≤ sampleContext.PDFReader.XrefInformation.StartPos
      ∧ sampleContext.PDFReader.XrefInformation.StartPos + sampleContext.CatalogData.Length
          < 10 ^ 10
      ∧ catalog_xref_line sampleContext = ascii "0000000045 00000 n\n"
      ∧ signature_xref_line sampleContext = ascii "0000000145 00000 n\n"
      ∧ (catalog_xref_line sampleContext).length = 19
      ∧ (signature_xref_line sampleContext).length = 19
      ∧ (writeXrefTable sampleContext).1 = none
      ∧ (writeXrefTable sampleContext).2.OutputFile.written
          = sampleBody ++ ascii "xref\n0 4\n"
            ++ ascii "0000000000 65535 f \n" ++ ascii "0000000009 00000 n \n"
            ++ ascii "0000000045 00000 n\n" ++ ascii "0000000145 00000 n\n" := by
  decide

/-- C3, as amended: let `old_header` be `xref\n0 <ItemCount>`, `new_header` be
`xref\n0 <ItemCount+2>` (`ItemCount` and `ItemCount + 2` being int64 values) and `line1`,
`line2` the catalog and the signature entry. When the range from `StartPos + len(old_header)` up to
`StartPos + Length` lies inside the input and the output has room, `writeXrefTable`
returns no error and has appended exactly `new_header`, then the input bytes of that
range, then `line1`, then `line2`; so when the table at `StartPos` is `old_header ++ rest`,
what is appended is `new_header ++ rest ++ line1 ++ line2`: every byte of the table after
its header, unchanged and in order, whatever the number of digits of the new count. -/
theorem writeXrefTable_copies_old_entries (ctx : SignContext)
    (old_header new_header line1 line2 : List Nat)
    (hold : old_header = ascii "xref\n0 " ++ formatInt ctx.PDFReader.XrefInformation.ItemCount)
    (hnew : new_header
      = ascii "xref\n0 " ++ formatInt (ctx.PDFReader.XrefInformation.ItemCount + 2))
    (hline1 : line1
      = leftPad (formatInt ctx.PDFReader.XrefInformation.StartPos) (ascii "0")
          (10 - ((formatInt ctx.PDFReader.XrefInformation.StartPos).length : Int))
        ++ ascii " 00000 n\n")
    (hline2 : line2
      = leftPad (formatInt (add64 ctx.PDFReader.XrefInformation.StartPos ctx.CatalogData.Length))
          (ascii "0")
          (10 - ((formatInt
            (add64 ctx.PDFReader.XrefInformation.StartPos ctx.CatalogData.Length)).length : Int))
        ++ ascii " 00000 n\n")
    (hn0 : -2 ^ 63 ≤ ctx.PDFReader.XrefInformation.ItemCount)
    (hn : ctx.PDFReader.XrefInformation.ItemCount + 2 < 2 ^ 63)
    (hsize : (ctx.InputFile.content.length : Int) < 2 ^ 63)
    (hstart : 0 ≤ ctx.PDFReader.XrefInformation.StartPos + (old_header.length : Int))
    (hlen : (old_header.length : Int) ≤ ctx.PDFReader.XrefInformation.Length)
    (hend : ctx.PDFReader.XrefInformation.StartPos + ctx.PDFReader.XrefInformation.Length
      ≤ (ctx.InputFile.content.length : Int))
    (hfree : (new_header.length : Int)
        + (ctx.PDFReader.XrefInformation.Length - (old_header.length : Int))
        + (line1.length : Int) + (line2.length : Int)
      ≤ (ctx.OutputFile.free : Int)) :
    (writeXrefTable ctx).1 = none
      ∧ (writeXrefTable ctx).2.OutputFile.written
        = ctx.OutputFile.written ++ new_header
          ++ (ctx.InputFile.content.drop
                (ctx.PDFReader.XrefInformation.StartPos + (old_header.length : Int)).toNat).take
              (ctx.PDFReader.XrefInformation.Length - (old_header.length : Int)).toNat
          ++ line1 ++ line2
      ∧ ∀ rest : List Nat, 0 ≤ ctx.PDFReader.XrefInformation.StartPos →
          (ctx.InputFile.content.drop ctx.PDFReader.XrefInformation.StartPos.toNat).take
              ctx.PDFReader.XrefInformation.Length.toNat = old_header ++ rest →
          (writeXrefTable ctx).2.OutputFile.written
            = ctx.OutputFile.written ++ new_header ++ rest ++ line1 ++ line2 := by
  have hx : old_header = xref_size ctx := hold
  have hsum : add64 ctx.PDFReader.XrefInformation.ItemCount 2
      = ctx.PDFReader.XrefInformation.ItemCount + 2 := by
    apply wrapInt64_eq <;> omega
  have hnx : new_header = new_xref_size ctx := by
    rw [hnew]
    unfold new_xref_size
    rw [hsum]
  have hl1 : line1 = catalog_xref_line ctx := hline1
  have hl2 : line2 = signature_xref_line ctx := hline2
  rw [hx] at hstart hlen hfree ⊢
  rw [hnx, hl1, hl2] at hfree ⊢
  have hoff : add64 ctx.PDFReader.XrefInformation.StartPos ((xref_size ctx).length : Int)
      = ctx.PDFReader.XrefInformation.StartPos + ((xref_size ctx).length : Int) := by
    apply wrapInt64_eq <;> norm_num at hsize ⊢ <;> omega
  have hl : sub64 ctx.PDFReader.XrefInformation.Length ((xref_size ctx).length : Int)
      = ctx.PDFReader.XrefInformation.Length - ((xref_size ctx).length : Int) := by
    apply wrapInt64_eq <;> norm_num at hsize ⊢ <;> omega
  obtain ⟨h1, h2⟩ := writeXrefTable_run ctx _ _ hoff.symm hl.symm hstart (by omega) (by omega)
    (by omega)
  refine ⟨h1, h2, ?_⟩
  intro rest hs htab
  have e1 : (ctx.PDFReader.XrefInformation.StartPos + ((xref_size ctx).length : Int)).toNat
      = ctx.PDFReader.XrefInformation.StartPos.toNat + (xref_size ctx).length := by omega
  have e2 : (ctx.PDFReader.XrefInformation.Length - ((xref_size ctx).length : Int)).toNat
      = ctx.PDFReader.XrefInformation.Length.toNat - (xref_size ctx).length := by omega
  have hcopy : (ctx.InputFile.content.drop
        (ctx.PDFReader.XrefInformation.StartPos + ((xref_size ctx).length : Int)).toNat).take
      (ctx.PDFReader.XrefInformation.Length - ((xref_size ctx).length : Int)).toNat = rest := by
    rw [e1, e2, ← List.drop_drop, ← List.drop_take, htab]
    simp
  rw [h2, hcopy]

/-- C4: for `0 ≤ StartPos`, `0 ≤ CatalogData.Length` and `StartPos + Length < 10^10`, each
new xref line is an offset field of exactly ten decimal digits, the decimal text of the
offset with `'0'` in front, followed by ` 00000 n\n`; the field of the catalog line decodes
to `StartPos`, the field of the signature line to that offset plus `CatalogData.Length`;
and a successful `writeXrefTable` has written these two lines last. -/
theorem xref_offset_fields (ctx : SignContext)
    (hs : 0 ≤ ctx.PDFReader.XrefInformation.StartPos) (hl : 0 ≤ ctx.CatalogData.Length)
    (hsl : ctx.PDFReader.XrefInformation.StartPos + ctx.CatalogData.Length < 10 ^ 10) :
    ∃ f1 f2 : List Nat,
      catalog_xref_line ctx = f1 ++ ascii " 00000 n\n"
        ∧ signature_xref_line ctx = f2 ++ ascii " 00000 n\n"
        ∧ f1.length = 10 ∧ f2.length = 10 ∧ allDigits f1 ∧ allDigits f2
        ∧ f1 = List.replicate (10 - (formatInt ctx.PDFReader.XrefInformation.StartPos).length) 48
            ++ formatInt ctx.PDFReader.XrefInformation.StartPos
        ∧ f2 = List.replicate
              (10 - (formatInt
                (ctx.PDFReader.XrefInformation.StartPos + ctx.CatalogData.Length)).length) 48
            ++ formatInt (ctx.PDFReader.XrefInformation.StartPos + ctx.CatalogData.Length)
        ∧ (decodeDecimal f1 : Int) = ctx.PDFReader.XrefInformation.StartPos
        ∧ (decodeDecimal f2 : Int) = (decodeDecimal f1 : Int) + ctx.CatalogData.Length
        ∧ ((writeXrefTable ctx).1 = none →
            ∃ before, (writeXrefTable ctx).2.OutputFile.written
              = before ++ (f1 ++ ascii " 00000 n\n") ++ (f2 ++ ascii " 00000 n\n")) := by
  have hadd : add64 ctx.PDFReader.XrefInformation.StartPos ctx.CatalogData.Length
      = ctx.PDFReader.XrefInformation.StartPos + ctx.CatalogData.Length := by
    apply wrapInt64_eq <;> norm_num at hsl ⊢ <;> omega
  obtain ⟨a1, a2, a3, a4⟩ := leftPad_field ctx.PDFReader.XrefInformation.StartPos hs (by omega)
  obtain ⟨b1, b2, b3, b4⟩ := leftPad_field
    (ctx.PDFReader.XrefInformation.StartPos + ctx.CatalogData.Length) (by omega) hsl
  have hc : catalog_xref_line ctx
      = leftPad (formatInt ctx.PDFReader.XrefInformation.StartPos) (ascii "0")
          (10 - ((formatInt ctx.PDFReader.XrefInformation.StartPos).length : Int))
        ++ ascii " 00000 n\n" := rfl
  have hg : signature_xref_line ctx
      = leftPad (formatInt (ctx.PDFReader.XrefInformation.StartPos + ctx.CatalogData.Length))
          (ascii "0")
          (10 - ((formatInt
            (ctx.PDFReader.XrefInformation.StartPos + ctx.CatalogData.Length)).length : Int))
        ++ ascii " 00000 n\n" := by
    unfold signature_xref_line
    rw [hadd]
  refine ⟨_, _, hc, hg, a2, b2, a3, b3, a1, b1, a4, ?_, ?_⟩
  · rw [b4, a4]
  · intro hok
    rw [← hc, ← hg]
    exact writeXrefTable_ends ctx hok

/-- C7: provided the table path returns no error, `writeXref` returns an error exactly when
`XrefInformation.Type` is not `"table"`; and in that case the error is the unsupported-type
message and the context is returned as it was: nothing written, nothing read. -/
theorem writeXref_error_iff (ctx : SignContext)
    (htable : ctx.PDFReader.XrefInformation.Type_ = ascii "table" →
      (writeXrefTable ctx).1 = none) :
    ((writeXref ctx).1 ≠ none ↔ ctx.PDFReader.XrefInformation.Type_ ≠ ascii "table")
      ∧ (ctx.PDFReader.XrefInformation.Type_ ≠ ascii "table" →
          writeXref ctx
            = (some (GoError.message
                (ascii "Unkwn xref type: " ++ ctx.PDFReader.XrefInformation.Type_)), ctx)) := by
  by_cases ht : ctx.PDFReader.XrefInformation.Type_ = ascii "table"
  · have hok := htable ht
    have : (writeXref ctx).1 = none := by
      unfold writeXref
      rw [if_pos ht]
      split
      · next e c heq => rw [heq] at hok; simp at hok
      · rfl
    simp [this, ht]
  · have : writeXref ctx
        = (some (GoError.message
            (ascii "Unkwn xref type: " ++ ctx.PDFReader.XrefInformation.Type_)), ctx) := by
      unfold writeXref
      rw [if_neg ht]
    simp [this, ht]

/-- C3, as stated, fails: for the item count `2^63 - 1` the int64 sum `ItemCount + 2` of
the code wraps; the table at `StartPos` begins with `xref\n0 <ItemCount>`, all I/O
succeeds, and the header that `writeXrefTable` writes is `xref\n0 -9223372036854775807`,
not `xref\n0 9223372036854775809`. -/
theorem writeXrefTable_header_wraps :
    overflowContext.PDFReader.XrefInformation.ItemCount = 2 ^ 63 - 1
      ∧ formatInt (overflowContext.PDFReader.XrefInformation.ItemCount + 2)
          = ascii "9223372036854775809"
      ∧ (ascii "xref\n0 " ++ formatInt overflowContext.PDFReader.XrefInformation.ItemCount)
          <+: overflowContext.InputFile.content.drop 45
      ∧ (writeXrefTable overflowContext).1 = none
      ∧ (writeXrefTable overflowContext).2.OutputFile.written
          = sampleBody ++ ascii "xref\n0 -9223372036854775807"
            ++ ascii "\n0000000000 65535 f \n0000000009 00000 n \n"
            ++ ascii "0000000045 00000 n\n" ++ ascii "0000000145 00000 n\n"
      ∧ ¬ (sampleBody ++ ascii "xref\n0 9223372036854775809")
          <+: (writeXrefTable overflowContext).2.OutputFile.written := by
  decide

theorem writeXrefTable_copies_old_entries_witness :
    (writeXrefTable growContext).1 = none
      ∧ (writeXrefTable growContext).2.OutputFile.written
        = sampleBody ++ ascii "xref\n0 11"
          ++ (ascii "\n" ++ ascii "0000000000 65535 f \n"
            ++ (List.replicate 8 (ascii "0000000009 00000 n \n")).flatten)
          ++ ascii "0000000045 00000 n\n" ++ ascii "0000000145 00000 n\n" := by
  obtain ⟨h1, -, h3⟩ := writeXrefTable_copies_old_entries growContext (ascii "xref\n0 9")
    (ascii "xref\n0 11") (ascii "0000000045 00000 n\n") (ascii "0000000145 00000 n\n")
    (by decide) (by decide) (by decide) (by decide) (by decide) (by decide) (by decide)
    (by decide) (by decide) (by decide) (by decide)
  exact ⟨h1, h3 _ (by decide) (by decide)⟩

theorem xref_offset_fields_witness :
    ∃ f1 f2 : List Nat,
      catalog_xref_line sampleContext = f1 ++ ascii " 00000 n\n"
        ∧ signature_xref_line sampleContext = f2 ++ ascii " 00000 n\n"
        ∧ f1.length = 10 ∧ f2.length = 10
        ∧ (decodeDecimal f1 : Int) = 45 ∧ (decodeDecimal f2 : Int) = 145 := by
  obtain ⟨f1, f2, h1, h2, h3, h4, -, -, -, -, h5, h6, -⟩ :=
    xref_offset_fields sampleContext (by decide) (by decide) (by decide)
  refine ⟨f1, f2, h1, h2, h3, h4, h5, ?_⟩
  rw [h6, h5]
  rfl

theorem writeXref_error_iff_witness :
    (sampleContext.PDFReader.XrefInformation.Type_ = ascii "table" →
        (writeXrefTable sampleContext).1 = none)
      ∧ ((writeXref sampleContext).1 ≠ none
          ↔ sampleContext.PDFReader.XrefInformation.Type_ ≠ ascii "table") :=
  ⟨by decide, (writeXref_error_iff sampleContext (by decide)).1⟩

/-! ## `strings.Replace` -/

theorem replaceFrom_drop (old new : List Nat) :
    ∀ (s : List Nat) (k : Nat), replaceFrom old new k s = replaceFrom old new 0 (s.drop k) := by
  intro s
  induction s with
  | nil => intro k; cases k <;> simp [replaceFrom]
  | cons c cs ih =>
    intro k
    cases k with
    | zero => simp
    | succ k => simp only [replaceFrom, List.drop_succ_cons]; exact ih k

theorem replaceAll_nil (old new : List Nat) : replaceAll [] old new = [] := by
  simp [replaceAll, replaceFrom]

theorem replaceAll_cons_of_not_prefix {old : List Nat} (new : List Nat) {c : Nat}
    {cs : List Nat} (h : ¬ old <+: c :: cs) :
    replaceAll (c :: cs) old new = c :: replaceAll cs old new := by
  have : old.isPrefixOf (c :: cs) = false := by
    rw [Bool.eq_false_iff]
    intro hp
    exact h (List.isPrefixOf_iff_prefix.mp hp)
  simp [replaceAll, replaceFrom, this]

theorem replaceAll_old_append {old : List Nat} (new b : List Nat) (h0 : old ≠ []) :
    replaceAll (old ++ b) old new = new ++ replaceAll b old new := by
  cases old with
  | nil => exact absurd rfl h0
  | cons o os =>
    have hp : (o :: os).isPrefixOf (o :: (os ++ b)) = true :=
      List.isPrefixOf_iff_prefix.mpr ⟨b, rfl⟩
    simp only [replaceAll, List.cons_append, replaceFrom, hp, if_true]
    rw [replaceFrom_drop]
    simp

/-- A gap in which no occurrence starts is copied as it is. -/
theorem replaceAll_gap {old : List Nat} (new : List Nat) :
    ∀ (gap rest : List Nat), NoStart old gap rest →
      replaceAll (gap ++ rest) old new = gap ++ replaceAll rest old new := by
  intro gap
  induction gap with
  | nil => intro rest _; rfl
  | cons c gap ih =>
    intro rest h
    obtain ⟨h1, h2⟩ := h
    rw [List.cons_append, replaceAll_cons_of_not_prefix new h1, ih rest h2, List.cons_append]

theorem noStart_without_occurrence {old : List Nat} :
    ∀ (gap rest : List Nat), ¬ old <:+: gap ++ rest → NoStart old gap rest := by
  intro gap
  induction gap with
  | nil => intro _ _; trivial
  | cons c gap ih =>
    intro rest h
    refine ⟨fun hp => h hp.isInfix, ih rest ?_⟩
    intro hi
    exact h (List.infix_cons hi)

/-- Where `old` does not occur, `strings.Replace` returns its argument. -/
theorem replaceAll_unchanged {old : List Nat} (new s : List Nat) (h : ¬ old <:+: s) :
    replaceAll s old new = s := by
  have := replaceAll_gap new s [] (noStart_without_occurrence s [] (by simpa using h))
  simpa [replaceAll_nil] using this

/-- The leftmost occurrence of `old` splits the text. -/
theorem first_occurrence {old : List Nat} :
    ∀ s : List Nat, old <:+: s → ∃ gap rest, s = gap ++ (old ++ rest) ∧ NoStart old gap (old ++ rest) := by
  intro s
  induction s with
  | nil =>
    intro h
    have : old = [] := List.eq_nil_of_infix_nil h
    exact ⟨[], [], by simp [this], trivial⟩
  | cons c cs ih =>
    intro h
    by_cases hp : old <+: c :: cs
    · obtain ⟨rest, hr⟩ := hp
      exact ⟨[], rest, by simp [hr], trivial⟩
    · rcases List.infix_cons_iff.mp h with h1 | h1
      · exact absurd h1 hp
      · obtain ⟨gap, rest, hs, hn⟩ := ih h1
        refine ⟨c :: gap, rest, by simp [hs], ?_, hn⟩
        rw [← hs]
        exact hp

/-- The shape of the result at the leftmost occurrence. -/
theorem replaceAll_first {old : List Nat} (new : List Nat) (h0 : old ≠ []) (gap rest : List Nat)
    (h : NoStart old gap (old ++ rest)) :
    replaceAll (gap ++ (old ++ rest)) old new = gap ++ (new ++ replaceAll rest old new) := by
  rw [replaceAll_gap new gap _ h, replaceAll_old_append new rest h0]

/-- An occurrence of `old` becomes an occurrence of `new`. -/
theorem new_infix_replaceAll {old : List Nat} (new : List Nat) (h0 : old ≠ []) (s : List Nat)
    (h : old <:+: s) : new <:+: replaceAll s old new := by
  obtain ⟨gap, rest, hs, hn⟩ := first_occurrence s h
  rw [hs, replaceAll_first new h0 gap rest hn]
  exact ⟨gap, replaceAll rest old new, by simp⟩

/-! ## Occurrences across a concatenation -/

/-- An occurrence in `x ++ y` lies in `y` or starts in `x`. -/
theorem infix_append_split {w : List Nat} :
    ∀ (x y : List Nat), w <:+: x ++ y → w <:+: y ∨ ∃ u, u ≠ [] ∧ u <:+ x ∧ w <+: u ++ y := by
  intro x
  induction x with
  | nil => intro y h; exact Or.inl h
  | cons c x ih =>
    intro y h
    rcases List.infix_cons_iff.mp h with h1 | h1
    · exact Or.inr ⟨c :: x, by simp, List.suffix_refl _, h1⟩
    · rcases ih y h1 with h2 | ⟨u, hu, hs, hp⟩
      · exact Or.inl h2
      · exact Or.inr ⟨u, hu, hs.trans (List.suffix_cons c x), hp⟩

/-- A beginning of `x ++ y` lies in `x` or runs through `x` into `y`. -/
theorem prefix_append_split {q : List Nat} (x y : List Nat) (h : q <+: x ++ y) :
    q <+: x ∨ ∃ r, r ≠ [] ∧ q = x ++ r ∧ r <+: y := by
  rcases List.prefix_or_prefix_of_prefix h (List.prefix_append x y) with h1 | h1
  · exact Or.inl h1
  · obtain ⟨r, hr⟩ := h1
    by_cases hrn : r = []
    · subst hrn
      left
      rw [← hr]
      simp
    · refine Or.inr ⟨r, hrn, hr.symm, ?_⟩
      rw [← hr] at h
      exact (List.prefix_append_right_inj x).mp h

theorem prefix_head_eq {q l : List Nat} (hq : q ≠ []) (hp : q <+: l) :
    q.head? = l.head? := by
  cases q with
  | nil => exact absurd rfl hq
  | cons b q =>
    obtain ⟨t, ht⟩ := hp
    subst ht
    rfl

theorem mem_of_head {l : List Nat} {a : Nat} (h : l.head? = some a) : a ∈ l := by
  cases l with
  | nil => simp at h
  | cons b l =>
    simp at h
    simp [h]

theorem head_append_of_ne_nil {u y : List Nat} (hu : u ≠ []) : (u ++ y).head? = u.head? := by
  cases u with
  | nil => exact absurd rfl hu
  | cons b u => rfl

theorem noStart_suffix {old : List Nat} :
    ∀ (gap rest u : List Nat), NoStart old gap rest → u <:+ gap → NoStart old u rest := by
  intro gap
  induction gap with
  | nil =>
    intro rest u _ hu
    have : u = [] := List.eq_nil_of_suffix_nil hu
    subst this
    trivial
  | cons c gap ih =>
    intro rest u h hu
    rcases List.suffix_cons_iff.mp hu with h1 | h1
    · subst h1
      exact h
    · exact ih rest u h.2 h1

theorem noStart_not_prefix {old : List Nat} {u rest : List Nat} (h : NoStart old u rest)
    (hu : u ≠ []) : ¬ old <+: u ++ rest := by
  cases u with
  | nil => exact absurd rfl hu
  | cons c u => exact h.1

/-! ## What a replacement keeps, and what it cannot create -/

/-- A text `w` that shares no overlap with `old` survives the replacement of `old`. -/
theorem infix_replaceAll_of_infix (old new w : List Nat) (a o : Nat)
    (hw : w.head? = some a) (ho : old.head? = some o) (ha : a ∉ old) (hob : o ∉ w) :
    ∀ (n : Nat) (s : List Nat), s.length ≤ n → w <:+: s → w <:+: replaceAll s old new := by
  have h0 : old ≠ [] := by rintro rfl; simp at ho
  have hw0 : w ≠ [] := by rintro rfl; simp at hw
  intro n
  induction n with
  | zero =>
    intro s hs h
    have : s = [] := List.eq_nil_of_length_eq_zero (by omega)
    subst this
    exact absurd (List.eq_nil_of_infix_nil h) hw0
  | succ n ih =>
    intro s hs h
    by_cases hold : old <:+: s
    · obtain ⟨gap, rest, hsplit, hn⟩ := first_occurrence s hold
      subst hsplit
      rw [replaceAll_first new h0 gap rest hn]
      have hrest : rest.length ≤ n := by
        have : 0 < old.length := List.length_pos.mpr h0
        simp at hs
        omega
      rcases infix_append_split gap _ h with h1 | ⟨u, hu, hsu, hp⟩
      · rcases infix_append_split old rest h1 with h2 | ⟨u, hu, hsu, hp⟩
        · have := ih rest hrest h2
          exact this.trans ⟨gap ++ new, [], by simp⟩
        · exfalso
          have h1 : w.head? = u.head? := by
            rw [prefix_head_eq hw0 hp, head_append_of_ne_nil hu]
          rw [hw] at h1
          have : a ∈ u := mem_of_head h1.symm
          exact ha (hsu.subset this)
      · rcases prefix_append_split u _ hp with h2 | ⟨r, hr, hwr, hpr⟩
        · exact (h2.isInfix.trans hsu.isInfix).trans ⟨[], new ++ replaceAll rest old new, by simp⟩
        · exfalso
          have hro : r.head? = some o := by
            rw [prefix_head_eq hr hpr, head_append_of_ne_nil h0, ho]
          have : o ∈ w := by
            rw [hwr]
            exact List.mem_append_right _ (mem_of_head hro)
          exact hob this
    · rw [replaceAll_unchanged new s hold]
      exact h

/-- A text `w` that shares no overlap with `new` is not created by a replacement. -/
theorem infix_of_infix_replaceAll (old new w : List Nat) (a e : Nat)
    (h0 : old ≠ []) (hw : w.head? = some a) (hn : new.head? = some e) (ha : a ∉ new)
    (he : e ∉ w) :
    ∀ (n : Nat) (s : List Nat), s.length ≤ n → w <:+: replaceAll s old new → w <:+: s := by
  have hn0 : new ≠ [] := by rintro rfl; simp at hn
  have hw0 : w ≠ [] := by rintro rfl; simp at hw
  intro n
  induction n with
  | zero =>
    intro s hs h
    have : s = [] := List.eq_nil_of_length_eq_zero (by omega)
    subst this
    rw [replaceAll_nil] at h
    exact h
  | succ n ih =>
    intro s hs h
    by_cases hold : old <:+: s
    · obtain ⟨gap, rest, hsplit, hns⟩ := first_occurrence s hold
      subst hsplit
      rw [replaceAll_first new h0 gap rest hns] at h
      have hrest : rest.length ≤ n := by
        have : 0 < old.length := List.length_pos.mpr h0
        simp at hs
        omega
      rcases infix_append_split gap _ h with h1 | ⟨u, hu, hsu, hp⟩
      · rcases infix_append_split new _ h1 with h2 | ⟨u, hu, hsu, hp⟩
        · have := ih rest hrest h2
          exact this.trans ⟨gap ++ old, [], by simp⟩
        · exfalso
          have h1 : w.head? = u.head? := by
            rw [prefix_head_eq hw0 hp, head_append_of_ne_nil hu]
          rw [hw] at h1
          exact ha (hsu.subset (mem_of_head h1.symm))
      · rcases prefix_append_split u _ hp with h2 | ⟨r, hr, hwr, hpr⟩
        · exact (h2.isInfix.trans hsu.isInfix).trans ⟨[], old ++ rest, by simp⟩
        · exfalso
          have hre : r.head? = some e := by
            rw [prefix_head_eq hr hpr, head_append_of_ne_nil hn0, hn]
          have : e ∈ w := by
            rw [hwr]
            exact List.mem_append_right _ (mem_of_head hre)
          exact he this
    · rw [replaceAll_unchanged new s hold] at h
      exact h

/-- An end of `p` that begins the result of a replacement begins the text as well. -/
theorem prefix_of_prefix_replaceAll {old new p : List Nat} (h0 : old ≠ [])
    (hc : EndsAgree old new p) (b q : List Nat) (hq : q <:+ p)
    (h : q <+: replaceAll b old new) : q <+: b := by
  by_cases hold : old <:+: b
  · obtain ⟨gap, rest, hsplit, hns⟩ := first_occurrence b hold
    subst hsplit
    rw [replaceAll_first new h0 gap rest hns] at h
    rcases prefix_append_split gap _ h with h1 | ⟨r, hr, hqr, hpr⟩
    · exact h1.trans (List.prefix_append _ _)
    · have hrp : r ∈ p.tails := by
        rw [List.mem_tails]
        exact (List.suffix_append gap r).trans (hqr ▸ hq)
      have hro : r <+: old := by
        apply hc r hrp hr
        rcases List.prefix_or_prefix_of_prefix hpr (List.prefix_append new _) with h2 | h2
        · exact Or.inl h2
        · exact Or.inr h2
      rw [hqr]
      apply (List.prefix_append_right_inj gap).mpr
      exact hro.trans (List.prefix_append _ _)
  · rw [replaceAll_unchanged new b hold] at h
    exact h

/-- After the replacement no occurrence of `old` is left, provided `new` cannot complete an
occurrence and the text has no two occurrences of `old` that overlap. -/
theorem old_not_infix_replaceAll {old new : List Nat} (h0 : old ≠ [])
    (hc : EndsAgree old new old) (hn1 : ¬ old <:+: new)
    (hn2 : ∀ u ∈ new.tails, u ≠ [] → u <+: old → u <:+ old) :
    ∀ (n : Nat) (s : List Nat), s.length ≤ n →
      (∀ v u q : List Nat, u ≠ [] → q ≠ [] → old = v ++ u → old = u ++ q →
        ¬ (v ++ u ++ q) <:+: s) →
      ¬ old <:+: replaceAll s old new := by
  intro n
  induction n with
  | zero =>
    intro s hs _ h
    have : s = [] := List.eq_nil_of_length_eq_zero (by omega)
    subst this
    rw [replaceAll_nil] at h
    exact h0 (List.eq_nil_of_infix_nil h)
  | succ n ih =>
    intro s hs hov h
    by_cases hold : old <:+: s
    · obtain ⟨gap, rest, hsplit, hns⟩ := first_occurrence s hold
      subst hsplit
      rw [replaceAll_first new h0 gap rest hns] at h
      have hrest : rest.length ≤ n := by
        have : 0 < old.length := List.length_pos.mpr h0
        simp at hs
        omega
      rcases infix_append_split gap _ h with h1 | ⟨u, hu, hsu, hp⟩
      · rcases infix_append_split new _ h1 with h2 | ⟨u, hu, hsu, hp⟩
        · refine ih rest hrest ?_ h2
          intro v u q hu hq e1 e2 hi
          exact hov v u q hu hq e1 e2 (hi.trans ⟨gap ++ old, [], by simp⟩)
        · rcases List.prefix_or_prefix_of_prefix hp (List.prefix_append u _) with h3 | h3
          · exact hn1 (h3.isInfix.trans hsu.isInfix)
          · obtain ⟨q, hq⟩ := h3
            have hqr : q <+: replaceAll rest old new := by
              have hp2 : u ++ q <+: u ++ replaceAll rest old new := hq ▸ hp
              exact (List.prefix_append_right_inj u).mp hp2
            have hqrest : q <+: rest :=
              prefix_of_prefix_replaceAll h0 hc rest q ⟨u, hq⟩ hqr
            by_cases hqn : q = []
            · subst hqn
              simp at hq
              subst hq
              exact hn1 hsu.isInfix
            · have hus : u <:+ old := hn2 u ((List.mem_tails u new).mpr hsu) hu ⟨q, hq⟩
              obtain ⟨v, hv⟩ := hus
              obtain ⟨y, hy⟩ := hqrest
              refine hov v u q hu hqn hv.symm hq.symm ?_
              refine ⟨gap, y, ?_⟩
              rw [← hy]
              simp only [List.append_assoc]
              rw [← List.append_assoc v u, hv]
      · have hnu : NoStart old u (old ++ rest) := noStart_suffix gap _ u hns hsu
        have hr : replaceAll (u ++ (old ++ rest)) old new
            = u ++ (new ++ replaceAll rest old new) := replaceAll_first new h0 u rest hnu
        rw [← hr] at hp
        have := prefix_of_prefix_replaceAll h0 hc _ old (List.suffix_refl old) hp
        exact noStart_not_prefix hnu hu this
    · rw [replaceAll_unchanged new s hold] at h
      exact hold h

/-! ## `writeTrailer` -/

/-- What `writeTrailer` writes when the trailer span `t` has been read and the output has
room. -/
theorem writeTrailer_run (ctx : SignContext) (t : List Nat)
    (hlen : 0 ≤ sub64 ctx.PDFReader.XrefInformation.IncludingTrailerEndPos
      ctx.PDFReader.XrefInformation.EndPos)
    (hread : (trailer_buf ctx).1 = (t, none))
    (hfree : (replaceAll (replaceAll t (root_string ctx) (new_root ctx)) (size_string ctx)
        (new_size ctx)).length + (formatInt ctx.NewXrefStart).length + 7 ≤ ctx.OutputFile.free) :
    (writeTrailer ctx).1 = none
      ∧ (writeTrailer ctx).2.OutputFile.written
        = ctx.OutputFile.written
          ++ replaceAll (replaceAll t (root_string ctx) (new_root ctx)) (size_string ctx)
              (new_size ctx)
          ++ (formatInt ctx.NewXrefStart ++ ascii "\n") ++ ascii "%%EOF\n" := by
  have h1 : (trailer_buf ctx).1.1 = t := by rw [hread]
  have h2 : (trailer_buf ctx).1.2 = none := by rw [hread]
  have hl1 : (ascii "\n").length = 1 := rfl
  have hl2 : (ascii "%%EOF\n").length = 6 := rfl
  unfold writeTrailer
  simp only [if_neg (not_lt.mpr hlen), h1, h2]
  rw [Writer.Write_fits _ _ (by omega)]
  simp only []
  rw [Writer.Write_fits _ _ (by simp only [List.length_append, hl1]; omega)]
  simp only []
  rw [Writer.Write_fits _ _ (by simp only [List.length_append, hl1, hl2]; omega)]
  simp

theorem size_string_ne_nil (ctx : SignContext) : size_string ctx ≠ [] := by
  simp [size_string, ascii]

theorem root_string_ne_nil (ctx : SignContext) : root_string ctx ≠ [] := by
  simp [root_string, ascii]

/-- A text without a border has no two overlapping occurrences. -/
theorem no_overlap_of_unbordered {old : List Nat}
    (hb : ∀ u ∈ old.tails, u ≠ [] → u <+: old → u = old) (s v u q : List Nat)
    (hu : u ≠ []) (hq : q ≠ []) (e1 : old = v ++ u) (e2 : old = u ++ q) :
    ¬ (v ++ u ++ q) <:+: s := by
  intro _
  have := hb u ((List.mem_tails u old).mpr ⟨v, e1.symm⟩) hu ⟨q, e2.symm⟩
  rw [this] at e2
  have : q = [] := by simpa using e2.symm
  exact hq this

/-- The replacement of `Size 42` by `Size 44` leaves no `Size 42`. -/
theorem size42_gone (s : List Nat) :
    ¬ ascii "Size 42" <:+: replaceAll s (ascii "Size 42") (ascii "Size 44") := by
  apply old_not_infix_replaceAll (by decide) (by unfold EndsAgree; decide) (by decide)
    (by decide) s.length s (le_refl _)
  intro v u q
  exact no_overlap_of_unbordered (by decide) s v u q

/-- The replacement of `Root 10 0 R` by `Root 43 0 R` leaves no `Root 10 0 R`, unless two
occurrences share their `R`. -/
theorem root10_gone (s : List Nat) (h : ¬ ascii "Root 10 0 Root 10 0 R" <:+: s) :
    ¬ ascii "Root 10 0 R" <:+: replaceAll s (ascii "Root 10 0 R") (ascii "Root 43 0 R") := by
  apply old_not_infix_replaceAll (by decide) (by unfold EndsAgree; decide) (by decide)
    (by decide) s.length s (le_refl _)
  intro v u q hu hq e1 e2
  have hb : ∀ u ∈ (ascii "Root 10 0 R").tails, u ≠ [] → u <+: ascii "Root 10 0 R" →
      u = ascii "Root 10 0 R" ∨ u = [82] := by decide
  rcases hb u ((List.mem_tails u _).mpr ⟨v, e1.symm⟩) hu ⟨q, e2.symm⟩ with h1 | h1
  · rw [h1] at e2
    have : q = [] := by simpa using e2.symm
    exact absurd this hq
  · subst h1
    have hv : v = ascii "Root 10 0 " := by
      have e : ascii "Root 10 0 " ++ [82] = v ++ [82] := e1
      exact (List.append_cancel_right e).symm
    have hq2 : q = ascii "oot 10 0 R" := by
      have e : [82] ++ ascii "oot 10 0 R" = [82] ++ q := e2
      exact (List.append_cancel_left e).symm
    subst hv hq2
    exact h

/-- C1, as amended: when the trailer span `t` has been read and the writes succeed,
`writeTrailer` appends exactly `t` with `Root <RootString>` replaced by
`Root <ObjectId> 0 R` and then `Size <ItemCount>` replaced by `Size <ItemCount+2>` (the sum
taken in int64), then the decimal `NewXrefStart` and a newline, then `%%EOF\n`. For item
count 42, root `10 0 R`, catalog id 43 and a span containing `/Size 42` and
`/Root 10 0 R`, the patched span contains `Size 44` and `Root 43 0 R` and no `Size 42`;
it contains no `Root 10 0 R` provided no two occurrences of `Root 10 0 R` in `t` share
their `R`. -/
theorem writeTrailer_appends_patched_span (ctx : SignContext) (t : List Nat)
    (hlen : 0 ≤ sub64 ctx.PDFReader.XrefInformation.IncludingTrailerEndPos
      ctx.PDFReader.XrefInformation.EndPos)
    (hread : (trailer_buf ctx).1 = (t, none))
    (hfree : (replaceAll (replaceAll t (root_string ctx) (new_root ctx)) (size_string ctx)
        (new_size ctx)).length + (formatInt ctx.NewXrefStart).length + 7 ≤ ctx.OutputFile.free) :
    ∃ patched : List Nat,
      patched
          = replaceAll
              (replaceAll t (ascii "Root " ++ ctx.CatalogData.RootString)
                (ascii "Root " ++ formatInt (ctx.CatalogData.ObjectId : Int) ++ ascii " 0 R"))
              (ascii "Size " ++ formatInt ctx.PDFReader.XrefInformation.ItemCount)
              (ascii "Size " ++ formatInt (add64 ctx.PDFReader.XrefInformation.ItemCount 2))
        ∧ (writeTrailer ctx).1 = none
        ∧ (writeTrailer ctx).2.OutputFile.written
            = ctx.OutputFile.written ++ patched ++ (formatInt ctx.NewXrefStart ++ ascii "\n")
              ++ ascii "%%EOF\n"
        ∧ (ctx.PDFReader.XrefInformation.ItemCount = 42 →
            ctx.CatalogData.RootString = ascii "10 0 R" → ctx.CatalogData.ObjectId = 43 →
            ascii "/Size 42" <:+: t → ascii "/Root 10 0 R" <:+: t →
              ascii "Size 44" <:+: patched ∧ ascii "Root 43 0 R" <:+: patched
                ∧ ¬ ascii "Size 42" <:+: patched
                ∧ (¬ ascii "Root 10 0 Root 10 0 R" <:+: t → ¬ ascii "Root 10 0 R" <:+: patched)) := by
  obtain ⟨h1, h2⟩ := writeTrailer_run ctx t hlen hread hfree
  refine ⟨_, rfl, h1, h2, ?_⟩
  intro hn hr hc hsz hrt
  have e1 : ascii "Root " ++ ctx.CatalogData.RootString = ascii "Root 10 0 R" := by
    rw [hr]
    rfl
  have e2 : ascii "Root " ++ formatInt (ctx.CatalogData.ObjectId : Int) ++ ascii " 0 R"
      = ascii "Root 43 0 R" := by
    rw [hc]
    rfl
  have e3 : ascii "Size " ++ formatInt ctx.PDFReader.XrefInformation.ItemCount
      = ascii "Size 42" := by
    rw [hn]
    rfl
  have e4 : ascii "Size " ++ formatInt (add64 ctx.PDFReader.XrefInformation.ItemCount 2)
      = ascii "Size 44" := by
    rw [hn]
    rfl
  rw [e1, e2, e3, e4]
  have hsz2 : ascii "Size 42" <:+: t := (List.IsSuffix.isInfix ⟨[47], rfl⟩).trans hsz
  have hrt2 : ascii "Root 10 0 R" <:+: t := (List.IsSuffix.isInfix ⟨[47], rfl⟩).trans hrt
  refine ⟨?_, ?_, size42_gone _, ?_⟩
  · apply new_infix_replaceAll _ (by decide)
    exact infix_replaceAll_of_infix (ascii "Root 10 0 R") _ (ascii "Size 42") 83 82 rfl rfl
      (by decide) (by decide) t.length t (le_refl _) hsz2
  · apply infix_replaceAll_of_infix (ascii "Size 42") _ (ascii "Root 43 0 R") 82 83 rfl rfl
      (by decide) (by decide) _ _ (le_refl _)
    exact new_infix_replaceAll _ (by decide) t hrt2
  · intro hov hcontra
    have := infix_of_infix_replaceAll (ascii "Size 42") (ascii "Size 44")
      (ascii "Root 10 0 R") 82 83 (by decide) rfl rfl (by decide) (by decide) _ _ (le_refl _)
      hcontra
    exact root10_gone t hov this

/-- C1, as stated, fails: the span `overlapTrailer` contains `/Size 42` and `/Root 10 0 R`,
and the trailer that `writeTrailer` writes for it still contains `Root 10 0 R`. -/
theorem writeTrailer_keeps_overlapping_root :
    (trailer_buf (trailerContext overlapTrailer)).1 = (overlapTrailer, none)
      ∧ ascii "/Size 42" <:+: overlapTrailer ∧ ascii "/Root 10 0 R" <:+: overlapTrailer
      ∧ (writeTrailer (trailerContext overlapTrailer)).1 = none
      ∧ (writeTrailer (trailerContext overlapTrailer)).2.OutputFile.written
          = sampleBody
            ++ ascii "trailer\n<< /Size 44 /Root 43 0 R /ID [(Root 43 0 Root 10 0 R) (x)] >>\nstartxref\n"
            ++ ascii "1334\n%%EOF\n"
      ∧ ascii "Root 10 0 R"
          <:+: ascii "trailer\n<< /Size 44 /Root 43 0 R /ID [(Root 43 0 Root 10 0 R) (x)] >>\nstartxref\n" := by
  decide

theorem writeTrailer_appends_patched_span_witness :
    ∃ patched : List Nat,
      patched = ascii "trailer\n<< /Size 44 /Root 43 0 R >>\nstartxref\n"
        ∧ (trailer_buf (trailerContext scenarioTrailer)).1 = (scenarioTrailer, none)
        ∧ ascii "/Size 42" <:+: scenarioTrailer ∧ ascii "/Root 10 0 R" <:+: scenarioTrailer
        ∧ ¬ ascii "Root 10 0 Root 10 0 R" <:+: scenarioTrailer
        ∧ (writeTrailer (trailerContext scenarioTrailer)).1 = none
        ∧ (writeTrailer (trailerContext scenarioTrailer)).2.OutputFile.written
            = sampleBody ++ patched ++ (ascii "1334" ++ ascii "\n") ++ ascii "%%EOF\n"
        ∧ ascii "Size 44" <:+: patched ∧ ascii "Root 43 0 R" <:+: patched
        ∧ ¬ ascii "Size 42" <:+: patched ∧ ¬ ascii "Root 10 0 R" <:+: patched := by
  obtain ⟨p, hp, h1, h2, h3⟩ := writeTrailer_appends_patched_span
    (trailerContext scenarioTrailer) scenarioTrailer (by decide) (by decide) (by decide)
  obtain ⟨a, b, c, d⟩ := h3 rfl rfl rfl (by decide) (by decide)
  have hpe : p = ascii "trailer\n<< /Size 44 /Root 43 0 R >>\nstartxref\n" := by
    rw [hp]
    decide
  exact ⟨p, hpe, by decide, by decide, by decide, by decide, h1, h2, a, b, c, d (by decide)⟩

/-- C8: for a span `t` that contains neither `Root <RootString>` nor `Size <ItemCount>`,
`writeTrailer` (the span read, the writes succeeding) returns no error and appends `t`
unchanged, then the decimal `NewXrefStart` and a newline, then `%%EOF\n`. -/
theorem writeTrailer_without_tokens (ctx : SignContext) (t : List Nat)
    (hlen : 0 ≤ sub64 ctx.PDFReader.XrefInformation.IncludingTrailerEndPos
      ctx.PDFReader.XrefInformation.EndPos)
    (hread : (trailer_buf ctx).1 = (t, none))
    (hroot : ¬ (ascii "Root " ++ ctx.CatalogData.RootString) <:+: t)
    (hsize : ¬ (ascii "Size " ++ formatInt ctx.PDFReader.XrefInformation.ItemCount) <:+: t)
    (hfree : t.length + (formatInt ctx.NewXrefStart).length + 7 ≤ ctx.OutputFile.free) :
    (writeTrailer ctx).1 = none
      ∧ (writeTrailer ctx).2.OutputFile.written
        = ctx.OutputFile.written ++ t ++ (formatInt ctx.NewXrefStart ++ ascii "\n")
          ++ ascii "%%EOF\n" := by
  have e1 : replaceAll t (root_string ctx) (new_root ctx) = t :=
    replaceAll_unchanged _ t hroot
  have e2 : replaceAll t (size_string ctx) (new_size ctx) = t :=
    replaceAll_unchanged _ t hsize
  have := writeTrailer_run ctx t hlen hread (by rw [e1, e2]; exact hfree)
  rw [e1, e2] at this
  exact this

theorem writeTrailer_without_tokens_witness :
    (writeTrailer (trailerContext (ascii "trailer\n<< /Size 7 /Root 1 0 R >>\nstartxref\n"))).1
        = none
      ∧ (writeTrailer
            (trailerContext (ascii "trailer\n<< /Size 7 /Root 1 0 R >>\nstartxref\n"))).2.OutputFile.written
          = sampleBody ++ ascii "trailer\n<< /Size 7 /Root 1 0 R >>\nstartxref\n"
            ++ (ascii "1334" ++ ascii "\n") ++ ascii "%%EOF\n" :=
  writeTrailer_without_tokens
    (trailerContext (ascii "trailer\n<< /Size 7 /Root 1 0 R >>\nstartxref\n"))
    (ascii "trailer\n<< /Size 7 /Root 1 0 R >>\nstartxref\n")
    (by decide) (by decide) (by decide) (by decide) (by decide)

/-- C5, as stated, fails: in the span `longTokenTrailer` the texts `Size 42` and
`Root 10 0 R` occur only inside `/Size 421` and `/XRoot 10 0 R`, and `writeTrailer`
writes `/Size 441` and `/XRoot 43 0 R` in their place. -/
theorem writeTrailer_rewrites_inside_longer_tokens :
    (trailer_buf (trailerContext longTokenTrailer)).1 = (longTokenTrailer, none)
      ∧ longTokenTrailer = ascii "trailer\n<< /Size 421 /XRoot 10 0 R >>\nstartxref\n"
      ∧ (writeTrailer (trailerContext longTokenTrailer)).1 = none
      ∧ (writeTrailer (trailerContext longTokenTrailer)).2.OutputFile.written
          = sampleBody ++ ascii "trailer\n<< /Size 441 /XRoot 43 0 R >>\nstartxref\n"
            ++ ascii "1334\n%%EOF\n" := by
  decide

/-- C5, as amended: the substitution of `writeTrailer` is by literal text, whatever bytes
stand before and after an occurrence. With `mid` the span after the `Root` step and
`patched` the span written: if `before ++ Root <RootString> ++ after` is the span and that
occurrence is the leftmost, `mid` is `before ++ Root <ObjectId> 0 R` followed by the
replacement in `after`; if `before ++ Size <ItemCount> ++ after` is `mid` and that
occurrence is the leftmost, `patched` is `before ++ Size <ItemCount+2>` followed by the
replacement in `after`; a text in which the searched text does not occur is unchanged. -/
theorem writeTrailer_substitutes_literally (ctx : SignContext) (t : List Nat)
    (hlen : 0 ≤ sub64 ctx.PDFReader.XrefInformation.IncludingTrailerEndPos
      ctx.PDFReader.XrefInformation.EndPos)
    (hread : (trailer_buf ctx).1 = (t, none))
    (hfree : (replaceAll (replaceAll t (root_string ctx) (new_root ctx)) (size_string ctx)
        (new_size ctx)).length + (formatInt ctx.NewXrefStart).length + 7 ≤ ctx.OutputFile.free) :
    ∃ mid patched : List Nat,
      (writeTrailer ctx).1 = none
        ∧ (writeTrailer ctx).2.OutputFile.written
            = ctx.OutputFile.written ++ patched ++ (formatInt ctx.NewXrefStart ++ ascii "\n")
              ++ ascii "%%EOF\n"
        ∧ (∀ before after : List Nat,
            t = before ++ (ascii "Root " ++ ctx.CatalogData.RootString ++ after) →
            NoStart (ascii "Root " ++ ctx.CatalogData.RootString) before
              (ascii "Root " ++ ctx.CatalogData.RootString ++ after) →
            mid = before
              ++ (ascii "Root " ++ formatInt (ctx.CatalogData.ObjectId : Int) ++ ascii " 0 R"
                ++ replaceAll after (root_string ctx) (new_root ctx)))
        ∧ (∀ before after : List Nat,
            mid = before
              ++ (ascii "Size " ++ formatInt ctx.PDFReader.XrefInformation.ItemCount ++ after) →
            NoStart (ascii "Size " ++ formatInt ctx.PDFReader.XrefInformation.ItemCount) before
              (ascii "Size " ++ formatInt ctx.PDFReader.XrefInformation.ItemCount ++ after) →
            patched = before
              ++ (ascii "Size " ++ formatInt (add64 ctx.PDFReader.XrefInformation.ItemCount 2)
                ++ replaceAll after (size_string ctx) (new_size ctx)))
        ∧ (¬ (ascii "Root " ++ ctx.CatalogData.RootString) <:+: t → mid = t)
        ∧ (¬ (ascii "Size " ++ formatInt ctx.PDFReader.XrefInformation.ItemCount) <:+: mid →
            patched = mid) := by
  obtain ⟨h1, h2⟩ := writeTrailer_run ctx t hlen hread hfree
  refine ⟨replaceAll t (root_string ctx) (new_root ctx), _, h1, h2, ?_, ?_, ?_, ?_⟩
  · intro before after ht hn
    rw [ht]
    exact replaceAll_first (new_root ctx) (root_string_ne_nil ctx) before after hn
  · intro before after hm hn
    rw [hm]
    exact replaceAll_first (new_size ctx) (size_string_ne_nil ctx) before after hn
  · intro h
    exact replaceAll_unchanged _ t h
  · intro h
    exact replaceAll_unchanged _ _ h

theorem writeTrailer_substitutes_literally_witness :
    ∃ patched : List Nat,
      (writeTrailer (trailerContext longTokenTrailer)).2.OutputFile.written
          = sampleBody ++ patched ++ (ascii "1334" ++ ascii "\n") ++ ascii "%%EOF\n"
        ∧ patched = ascii "trailer\n<< /Size 441 /XRoot 43 0 R >>\nstartxref\n" := by
  obtain ⟨mid, patched, -, h2, h3, h4, -, -⟩ :=
    writeTrailer_substitutes_literally (trailerContext longTokenTrailer) longTokenTrailer
      (by decide) (by decide) (by decide)
  refine ⟨patched, h2, ?_⟩
  have hm := h3 (ascii "trailer\n<< /Size 421 /X") (ascii " >>\nstartxref\n") (by decide)
    (by decide)
  have hp := h4 (ascii "trailer\n<< /") (ascii "1 /XRoot 43 0 R >>\nstartxref\n")
    (by rw [hm]; decide) (by decide)
  rw [hp]
  decide

/-! ## Counting occurrences -/

theorem countOcc_append_closed {pat : List Nat} :
    ∀ (x y : List Nat), Closed pat x → countOcc pat (x ++ y) = countOcc pat x + countOcc pat y := by
  intro x
  induction x with
  | nil => intro y _; simp [countOcc]
  | cons c x ih =>
    intro y h
    have hx : Closed pat x := by
      intro u hu
      apply h u
      rw [List.mem_tails] at hu ⊢
      exact hu.trans (List.suffix_cons c x)
    have hiff : pat <+: c :: (x ++ y) ↔ pat <+: c :: x := by
      constructor
      · intro hp
        rcases prefix_append_split (c :: x) y hp with h1 | ⟨r, hr, hq, _⟩
        · exact h1
        · exfalso
          have hlen : (c :: x).length < pat.length := by
            rw [hq]
            have : 0 < r.length := List.length_pos.mpr hr
            simp
            omega
          exact h (c :: x) (by simp) (by simp) hlen ⟨r, hq.symm⟩
      · intro hp
        exact hp.trans ⟨y, rfl⟩
    show (if pat <+: c :: (x ++ y) then 1 else 0) + countOcc pat (x ++ y)
      = ((if pat <+: c :: x then 1 else 0) + countOcc pat x) + countOcc pat y
    rw [ih y hx]
    simp only [hiff]
    omega

theorem countOcc_flatten {pat : List Nat} :
    ∀ pieces : List (List Nat), (∀ x ∈ pieces, Closed pat x) →
      countOcc pat pieces.flatten = (pieces.map (countOcc pat)).sum := by
  intro pieces
  induction pieces with
  | nil => intro _; rfl
  | cons x pieces ih =>
    intro h
    rw [List.flatten_cons, countOcc_append_closed x _ (h x (by simp)),
      ih (fun z hz => h z (List.mem_cons_of_mem x hz))]
    simp

theorem infix_iff_countOcc_pos {pat : List Nat} (h0 : pat ≠ []) :
    ∀ s : List Nat, pat <:+: s ↔ 0 < countOcc pat s := by
  intro s
  induction s with
  | nil =>
    simp only [countOcc, Nat.lt_irrefl, iff_false]
    intro h
    exact h0 (List.eq_nil_of_infix_nil h)
  | cons c cs ih =>
    rw [List.infix_cons_iff, ih]
    simp only [countOcc]
    by_cases hp : pat <+: c :: cs
    · simp [hp]
    · simp [hp]

/-- Text that does not hold the first byte of `pat` holds no occurrence of `pat` and
cannot begin one. -/
theorem countOcc_without_head {pat : List Nat} {a : Nat} (hp : pat.head? = some a) :
    ∀ x : List Nat, a ∉ x → countOcc pat x = 0 ∧ Closed pat x := by
  have h0 : pat ≠ [] := by rintro rfl; simp at hp
  intro x hx
  constructor
  · by_contra hc
    have : pat <:+: x := (infix_iff_countOcc_pos h0 x).mpr (Nat.pos_of_ne_zero hc)
    exact hx (this.subset (mem_of_head hp))
  · intro u hu hun _ hpre
    have h1 : u.head? = some a := by rw [prefix_head_eq hun hpre, hp]
    exact hx (((List.mem_tails u x).mp hu).subset (mem_of_head h1))

theorem numberText_formatNat (n : Nat) : numberText (formatNat n) := by
  intro b hb
  right
  exact formatNat_allDigits n b hb

theorem numberText_formatInt (i : Int) : numberText (formatInt i) := by
  intro b hb
  unfold formatInt at hb
  split at hb
  · rcases List.mem_cons.mp hb with h | h
    · exact Or.inl h
    · exact Or.inr (formatNat_allDigits _ b h)
  · exact Or.inr (formatNat_allDigits _ b hb)

/-- A number holds no occurrence of a text that starts with `/`, and cannot begin one. -/
theorem countOcc_number {pat : List Nat} (hp : pat.head? = some 47) (x : List Nat)
    (hx : numberText x) : countOcc pat x = 0 ∧ Closed pat x := by
  apply countOcc_without_head hp
  intro h
  have := hx 47 h
  omega

/-! ## `createVisualSignatureWithImage` -/

/-- What a successful second half of `createVisualSignatureWithImage` returns and leaves
untouched. -/
theorem finishVisualSignature_ok (ctx : SignContext) (pageNumber : Nat) (vs d : List Nat)
    (ctx2 : SignContext) (h : finishVisualSignature ctx pageNumber vs = (.ok d, ctx2)) :
    ∃ page_line : List Nat,
      d = vs ++ signature_tail ctx page_line
        ∧ (page_line = [] ∨ ∃ p : Ptr, page_line
            = ascii "  /P " ++ formatInt (p.id : Int) ++ ascii " " ++ formatInt (p.gen : Int)
              ++ ascii " R\n")
        ∧ ctx2.OutputFile = ctx.OutputFile ∧ ctx2.appended = ctx.appended
        ∧ ctx2.addObjectCalls = ctx.addObjectCalls ∧ ctx2.lastObjectId = ctx.lastObjectId
        ∧ ctx2.PDFReader = ctx.PDFReader ∧ ctx2.CatalogData.Length = ctx.CatalogData.Length
        ∧ ctx2.CatalogData.ObjectId = ctx.CatalogData.ObjectId := by
  unfold finishVisualSignature at h
  simp only [] at h
  split at h
  · split at h
    · simp at h
    · next p hp =>
      simp only [Prod.mk.injEq, Except.ok.injEq] at h
      obtain ⟨hd, hc⟩ := h
      subst hc
      refine ⟨_, ?_, Or.inr ⟨p, rfl⟩, rfl, rfl, rfl, rfl, rfl, rfl, rfl⟩
      rw [← hd]
      rfl
  · simp only [Prod.mk.injEq, Except.ok.injEq] at h
    obtain ⟨hd, hc⟩ := h
    subst hc
    refine ⟨[], ?_, Or.inl rfl, rfl, rfl, rfl, rfl, rfl, rfl, rfl⟩
    rw [← hd]
    rfl

theorem countOcc_flatten_zero {pat : List Nat} (pieces : List (List Nat))
    (h : ∀ x ∈ pieces, Closed pat x ∧ countOcc pat x = 0) : countOcc pat pieces.flatten = 0 := by
  rw [countOcc_flatten pieces (fun x hx => (h x hx).1)]
  apply List.sum_eq_zero
  intro n hn
  obtain ⟨x, hx, rfl⟩ := List.mem_map.mp hn
  exact (h x hx).2

/-- A text that starts with `/` and occurs in none of the fixed texts of the tail does not
occur in the tail of the dictionary. -/
theorem countOcc_signature_tail {pat : List Nat} (hp : pat.head? = some 47)
    (hl : ∀ x ∈ tailLiterals, Closed pat x ∧ countOcc pat x = 0) (ctx : SignContext)
    (page_line : List Nat)
    (hpl : page_line = [] ∨ ∃ p : Ptr, page_line
      = ascii "  /P " ++ formatInt (p.id : Int) ++ ascii " " ++ formatInt (p.gen : Int)
        ++ ascii " R\n") :
    countOcc pat (signature_tail ctx page_line) = 0 := by
  have hnum : ∀ x, numberText x → Closed pat x ∧ countOcc pat x = 0 := fun x hx =>
    ⟨(countOcc_number hp x hx).2, (countOcc_number hp x hx).1⟩
  have hflags : formatNat (AnnotationFlagPrint ||| AnnotationFlagLocked) = ascii "132" := by
    decide
  have hrest : countOcc pat
      ([ascii "  /F ", formatNat (AnnotationFlagPrint ||| AnnotationFlagLocked), ascii "\n",
        ascii "  /FT /Sig\n", ascii "  /T ", ascii "(", ascii "Signature ",
        formatInt ((ctx.existingSignatures : Int) + 1), ascii ")", ascii "\n", ascii "  /V ",
        formatNat ctx.SignData.objectId, ascii " 0 R\n", ascii ">>\n"].flatten) = 0
      ∧ Closed pat [] := by
    constructor
    · apply countOcc_flatten_zero
      intro x hx
      simp only [List.mem_cons, List.mem_singleton, List.not_mem_nil, or_false] at hx
      rcases hx with rfl | rfl | rfl | rfl | rfl | rfl | rfl | rfl | rfl | rfl | rfl | rfl | rfl | rfl
      · exact hl _ (by decide)
      · exact hnum _ (numberText_formatNat _)
      · exact hl _ (by decide)
      · exact hl _ (by decide)
      · exact hl _ (by decide)
      · exact hl _ (by decide)
      · exact hl _ (by decide)
      · exact hnum _ (numberText_formatInt _)
      · exact hl _ (by decide)
      · exact hl _ (by decide)
      · exact hl _ (by decide)
      · exact hnum _ (numberText_formatNat _)
      · exact hl _ (by decide)
      · exact hl _ (by decide)
    · intro u hu hun
      simp at hu
      exact absurd hu hun
  have htail : ∀ pl, signature_tail ctx pl
      = pl ++ [ascii "  /F ", formatNat (AnnotationFlagPrint ||| AnnotationFlagLocked), ascii "\n",
        ascii "  /FT /Sig\n", ascii "  /T ", ascii "(", ascii "Signature ",
        formatInt ((ctx.existingSignatures : Int) + 1), ascii ")", ascii "\n", ascii "  /V ",
        formatNat ctx.SignData.objectId, ascii " 0 R\n", ascii ">>\n"].flatten := by
    intro pl
    simp [signature_tail, pdfString, List.flatten]
  rw [htail]
  rcases hpl with h | ⟨p, h⟩
  · subst h
    simpa using hrest.1
  · have hline : page_line
        = [ascii "  /P ", formatInt (p.id : Int), ascii " ", formatInt (p.gen : Int),
            ascii " R\n"].flatten := by
      rw [h]
      simp [List.flatten]
    have hc : ∀ x ∈ [ascii "  /P ", formatInt (p.id : Int), ascii " ", formatInt (p.gen : Int),
        ascii " R\n"], Closed pat x ∧ countOcc pat x = 0 := by
      intro x hx
      simp only [List.mem_cons, List.mem_singleton, List.not_mem_nil, or_false] at hx
      rcases hx with rfl | rfl | rfl | rfl | rfl
      · exact hl _ (by decide)
      · exact hnum _ (numberText_formatInt _)
      · exact hl _ (by decide)
      · exact hnum _ (numberText_formatInt _)
      · exact hl _ (by decide)
    rw [hline, ← List.flatten_append, countOcc_flatten_zero]
    intro x hx
    rcases List.mem_append.mp hx with h1 | h1
    · exact hc x h1
    · simp only [List.mem_cons, List.mem_singleton, List.not_mem_nil, or_false] at h1
      rcases h1 with rfl | rfl | rfl | rfl | rfl | rfl | rfl | rfl | rfl | rfl | rfl | rfl | rfl | rfl
      · exact hl _ (by decide)
      · exact hnum _ (numberText_formatNat _)
      · exact hl _ (by decide)
      · exact hl _ (by decide)
      · exact hl _ (by decide)
      · exact hl _ (by decide)
      · exact hl _ (by decide)
      · exact hnum _ (numberText_formatInt _)
      · exact hl _ (by decide)
      · exact hl _ (by decide)
      · exact hl _ (by decide)
      · exact hnum _ (numberText_formatNat _)
      · exact hl _ (by decide)
      · exact hl _ (by decide)

/-- C9: a successful call with `visible = false` returns a dictionary that contains the
line `  /Rect [0 0 0 0]`, holds `/Rect` exactly once whatever `rect` is, and holds no
`/AP`; the object appender is not invoked: its call count, the output, the list of
appended objects and the last object id are as before the call. -/
theorem invisible_signature_rect_and_no_appearance (ctx : SignContext) (pageNumber : Nat)
    (rect : RectText) (d : List Nat) (ctx2 : SignContext)
    (h : createVisualSignatureWithImage ctx false pageNumber rect = (.ok d, ctx2)) :
    ascii "  /Rect [0 0 0 0]\n" <:+: d
      ∧ countOcc (ascii "/Rect") d = 1
      ∧ ¬ ascii "/AP" <:+: d
      ∧ ctx2.addObjectCalls = ctx.addObjectCalls ∧ ctx2.OutputFile = ctx.OutputFile
      ∧ ctx2.appended = ctx.appended ∧ ctx2.lastObjectId = ctx.lastObjectId := by
  unfold createVisualSignatureWithImage at h
  simp only [Bool.false_eq_true, if_false] at h
  obtain ⟨pl, hd, hpl, h1, h2, h3, h4, -, -, -⟩ := finishVisualSignature_ok ctx pageNumber _ d ctx2 h
  have hvs : ascii "<<\n" ++ ascii "  /Type /Annot\n" ++ ascii "  /Subtype /Widget\n"
        ++ ascii "  /Rect [0 0 0 0]\n"
      = ascii "<<\n  /Type /Annot\n  /Subtype /Widget\n  /Rect [0 0 0 0]\n" := by decide
  rw [hvs] at hd
  refine ⟨?_, ?_, ?_, h3, h1, h2, h4⟩
  · rw [hd]
    exact ⟨ascii "<<\n  /Type /Annot\n  /Subtype /Widget\n", signature_tail ctx pl, rfl⟩
  · rw [hd, countOcc_append_closed _ _ (by unfold Closed; decide),
      countOcc_signature_tail (by decide) (by unfold Closed; decide) ctx pl hpl]
    decide
  · rw [infix_iff_countOcc_pos (by decide), hd,
      countOcc_append_closed _ _ (by unfold Closed; decide),
      countOcc_signature_tail (by decide) (by unfold Closed; decide) ctx pl hpl]
    decide

theorem invisible_signature_rect_and_no_appearance_witness :
    ∃ d ctx2, createVisualSignatureWithImage sampleContext false 1 ⟨[49], [50], [51], [52]⟩
        = (.ok d, ctx2)
      ∧ countOcc (ascii "/Rect") d = 1 ∧ ¬ ascii "/AP" <:+: d
      ∧ ctx2.addObjectCalls = sampleContext.addObjectCalls :=
  ⟨_, _, rfl,
    (invisible_signature_rect_and_no_appearance sampleContext 1 ⟨[49], [50], [51], [52]⟩ _ _
      rfl).2.1,
    (invisible_signature_rect_and_no_appearance sampleContext 1 ⟨[49], [50], [51], [52]⟩ _ _
      rfl).2.2.1,
    (invisible_signature_rect_and_no_appearance sampleContext 1 ⟨[49], [50], [51], [52]⟩ _ _
      rfl).2.2.2.1⟩

/-! ## The object appender -/

/-- What a successful `addObject` returns and does to the context. -/
theorem addObject_ok (ctx : SignContext) (content : List Nat) (id : Nat) (ctx1 : SignContext)
    (h : addObject ctx content = (.ok id, ctx1)) :
    id = ctx.lastObjectId + 1
      ∧ ctx1 =
        { ctx with
          OutputFile :=
            { written := ctx.OutputFile.written
                ++ (formatNat id ++ ascii " 0 obj\n" ++ content ++ ascii "\nendobj\n")
              free := ctx.OutputFile.free
                - (formatNat id ++ ascii " 0 obj\n" ++ content ++ ascii "\nendobj\n").length }
          lastObjectId := id
          appended := ctx.appended
            ++ [⟨id, ctx.OutputFile.written.length,
                (formatNat id ++ ascii " 0 obj\n" ++ content ++ ascii "\nendobj\n").length⟩]
          addObjectCalls := ctx.addObjectCalls + 1 } := by
  unfold addObject at h
  simp only [] at h
  split at h
  · simp at h
  · next hw =>
    simp only [Prod.mk.injEq, Except.ok.injEq] at h
    obtain ⟨hid, hc⟩ := h
    subst hid
    refine ⟨rfl, ?_⟩
    rw [← hc]
    by_cases hfit : (formatNat (ctx.lastObjectId + 1) ++ ascii " 0 obj\n" ++ content
        ++ ascii "\nendobj\n").length ≤ ctx.OutputFile.free
    · rw [Writer.Write_fits _ _ hfit]
    · rw [Writer.Write, if_neg hfit] at hw
      simp at hw

/-- What a successful `createAppearanceWithImage` returns: the image was encoded and
appended, and the Form XObject names its id. -/
theorem createAppearanceWithImage_ok (ctx : SignContext) (a : List Nat) (ctx1 : SignContext)
    (h : createAppearanceWithImage ctx = (.ok a, ctx1)) :
    ∃ data : List Nat, ctx.SignData.Image.jpeg = some data
      ∧ addObject ctx (img_buffer ctx.SignData.Image data) = (.ok (ctx.lastObjectId + 1), ctx1)
      ∧ a = appearance_buffer ctx.SignData.Image ctx.clock (ctx.lastObjectId + 1) := by
  unfold createAppearanceWithImage at h
  simp only [] at h
  split at h
  · simp at h
  · next data hj =>
    split at h
    · simp at h
    · next id c1 ha =>
      simp only [Prod.mk.injEq, Except.ok.injEq] at h
      obtain ⟨h1, h2⟩ := h
      subst h2
      have hid := (addObject_ok ctx _ id c1 ha).1
      subst hid
      exact ⟨data, hj, ha, h1.symm⟩

/-- C10: a successful call with `visible = true` has invoked the appender exactly twice,
first for the image XObject, then for the Form XObject; their ids are the next two ids,
the image's below the form's; the form's `/Resources` entry names the image's id; and
the returned dictionary holds `/AP << /N <id> 0 R >>` with the form's id. -/
theorem visible_signature_appends_image_then_form (ctx : SignContext) (pageNumber : Nat)
    (rect : RectText) (d : List Nat) (ctx2 : SignContext)
    (h : createVisualSignatureWithImage ctx true pageNumber rect = (.ok d, ctx2)) :
    ∃ (data : List Nat) (imgId formId : Nat) (imgObj formObj : List Nat),
      ctx.SignData.Image.jpeg = some data
        ∧ imgObj = formatNat imgId ++ ascii " 0 obj\n" ++ img_buffer ctx.SignData.Image data
            ++ ascii "\nendobj\n"
        ∧ formObj = formatNat formId ++ ascii " 0 obj\n"
            ++ appearance_buffer ctx.SignData.Image ctx.clock imgId ++ ascii "\nendobj\n"
        ∧ ctx2.addObjectCalls = ctx.addObjectCalls + 2
        ∧ ctx2.OutputFile.written = ctx.OutputFile.written ++ imgObj ++ formObj
        ∧ ctx2.appended = ctx.appended
            ++ [⟨imgId, ctx.OutputFile.written.length, imgObj.length⟩,
              ⟨formId, ctx.OutputFile.written.length + imgObj.length, formObj.length⟩]
        ∧ imgId = ctx.lastObjectId + 1 ∧ formId = ctx.lastObjectId + 2 ∧ imgId < formId
        ∧ (ascii "  /Resources << /XObject << /Im" ++ formatInt ctx.clock ++ ascii " "
              ++ formatNat imgId ++ ascii " 0 R >> >>")
            <:+: appearance_buffer ctx.SignData.Image ctx.clock imgId
        ∧ (ascii "  /AP << /N " ++ formatNat formId ++ ascii " 0 R >>\n") <:+: d := by
  unfold createVisualSignatureWithImage at h
  simp only [if_true] at h
  split at h
  · simp at h
  · next a c1 hca =>
    split at h
    · simp at h
    · next formId c2 hadd =>
      obtain ⟨data, hj, himg, ha⟩ := createAppearanceWithImage_ok ctx a c1 hca
      obtain ⟨-, hc1⟩ := addObject_ok ctx _ _ c1 himg
      obtain ⟨hf, hc2⟩ := addObject_ok c1 _ formId c2 hadd
      obtain ⟨pl, hd, -, ho, hap, hcalls, -, -, -, -⟩ :=
        finishVisualSignature_ok c2 pageNumber _ d ctx2 h
      have hl1 : c1.lastObjectId = ctx.lastObjectId + 1 := by rw [hc1]
      have hfid : formId = ctx.lastObjectId + 2 := by rw [hf, hl1]
      refine ⟨data, ctx.lastObjectId + 1, formId, _, _, hj, rfl, rfl, ?_, ?_, ?_, rfl, hfid,
        by omega, ?_, ?_⟩
      · rw [hcalls, hc2, hc1]
      · rw [ho, hc2, hc1, ha]
      · rw [hap, hc2, hc1, ha]
        simp
      · unfold appearance_buffer
        exact ⟨ascii "<<\n" ++ ascii "  /Type /XObject\n" ++ ascii "  /Subtype /Form\n"
          ++ (ascii "  /BBox [0 0 " ++ formatInt ctx.SignData.Image.dx ++ ascii " "
            ++ formatInt ctx.SignData.Image.dy ++ ascii "]\n"),
          ascii "  /FormType 1\n" ++ ascii ">>\n" ++ ascii "stream\n"
            ++ (ascii "q " ++ formatInt ctx.SignData.Image.dx ++ ascii " 0 0 "
              ++ formatInt ctx.SignData.Image.dy ++ ascii " 0 0 cm\n")
            ++ (ascii "/Im" ++ formatInt ctx.clock ++ ascii " Do\n")
            ++ ascii "Q\n" ++ ascii "endstream\n", by
          simp only [List.append_assoc]⟩
      · rw [hd]
        exact ⟨ascii "<<\n" ++ ascii "  /Type /Annot\n" ++ ascii "  /Subtype /Widget\n"
          ++ (ascii "  /Rect [" ++ rect.x0 ++ ascii " " ++ rect.y0 ++ ascii " " ++ rect.x1
            ++ ascii " " ++ rect.y1 ++ ascii "]\n"), signature_tail c2 pl, by
          simp only [List.append_assoc]⟩

theorem visible_signature_appends_image_then_form_witness :
    ∃ d ctx2, createVisualSignatureWithImage sampleContext true 1 ⟨[49], [50], [51], [52]⟩
        = (.ok d, ctx2)
      ∧ ctx2.addObjectCalls = 2
      ∧ (ascii "  /AP << /N 3 0 R >>\n") <:+: d := by
  obtain ⟨data, imgId, formId, imgObj, formObj, -, -, -, h1, -, -, -, h2, -, -, h3⟩ :=
    visible_signature_appends_image_then_form sampleContext 1 ⟨[49], [50], [51], [52]⟩ _ _ rfl
  refine ⟨_, _, rfl, h1, ?_⟩
  rw [h2] at h3
  exact h3

/-! ## The new xref lines against the layout of the new objects -/

/-- The offset field of an xref line decodes to the offset, whatever its size. -/
theorem leftPad_decode (v : Int) (h0 : 0 ≤ v) :
    (decodeDecimal (leftPad (formatInt v) (ascii "0") (10 - ((formatInt v).length : Int))) : Int)
      = v := by
  have heq : leftPad (formatInt v) (ascii "0") (10 - ((formatInt v).length : Int))
      = List.replicate (10 - (formatInt v).length) 48 ++ formatInt v := by
    unfold leftPad
    split
    · next h =>
      have : 10 - (formatInt v).length = 0 := by omega
      rw [this]
      simp
    · next h =>
      have : (10 - ((formatInt v).length : Int)).toNat = 10 - (formatInt v).length := by omega
      rw [this, flatten_replicate_zero]
  rw [heq, decodeDecimal_zeros, formatInt_of_nonneg h0, decodeDecimal_formatNat]
  exact Int.toNat_of_nonneg h0

/-- What a successful `createVisualSignatureWithImage` has appended: nothing when the
signature is invisible, two objects starting at the end of the output when it is visible. -/
theorem createVisualSignatureWithImage_frame (ctx : SignContext) (visible : Bool)
    (pageNumber : Nat) (rect : RectText) (d : List Nat) (ctx2 : SignContext)
    (h : createVisualSignatureWithImage ctx visible pageNumber rect = (.ok d, ctx2)) :
    ∃ (objs : List AppendedObject) (bytes : List Nat),
      ctx2.appended = ctx.appended ++ objs
        ∧ ctx2.OutputFile.written = ctx.OutputFile.written ++ bytes
        ∧ ctx2.PDFReader = ctx.PDFReader ∧ ctx2.CatalogData.Length = ctx.CatalogData.Length
        ∧ objs.length = (if visible then 2 else 0)
        ∧ (objs = [] → bytes = [])
        ∧ (∀ o rest, objs = o :: rest →
            o.offset = ctx.OutputFile.written.length
              ∧ (formatNat o.id ++ ascii " 0 obj\n") <+: bytes) := by
  cases visible with
  | false =>
    unfold createVisualSignatureWithImage at h
    simp only [Bool.false_eq_true, if_false] at h
    obtain ⟨pl, -, -, h1, h2, -, -, h5, h6, -⟩ := finishVisualSignature_ok ctx pageNumber _ d ctx2 h
    refine ⟨[], [], by simp [h2], by simp [h1], h5, h6, by simp, fun _ => rfl, ?_⟩
    intro o rest ho
    simp at ho
  | true =>
    unfold createVisualSignatureWithImage at h
    simp only [if_true] at h
    split at h
    · simp at h
    · next a c1 hca =>
      split at h
      · simp at h
      · next fid c2 hadd =>
        obtain ⟨data, -, himg, -⟩ := createAppearanceWithImage_ok ctx a c1 hca
        obtain ⟨-, hc1⟩ := addObject_ok ctx _ _ c1 himg
        obtain ⟨-, hc2⟩ := addObject_ok c1 _ fid c2 hadd
        obtain ⟨pl, -, -, h1, h2, -, -, h5, h6, -⟩ :=
          finishVisualSignature_ok c2 pageNumber _ d ctx2 h
        refine ⟨[⟨ctx.lastObjectId + 1, ctx.OutputFile.written.length,
              (formatNat (ctx.lastObjectId + 1) ++ ascii " 0 obj\n"
                ++ img_buffer ctx.SignData.Image data ++ ascii "\nendobj\n").length⟩,
            ⟨fid, c1.OutputFile.written.length,
              (formatNat fid ++ ascii " 0 obj\n" ++ a ++ ascii "\nendobj\n").length⟩],
          (formatNat (ctx.lastObjectId + 1) ++ ascii " 0 obj\n"
              ++ img_buffer ctx.SignData.Image data ++ ascii "\nendobj\n")
            ++ (formatNat fid ++ ascii " 0 obj\n" ++ a ++ ascii "\nendobj\n"),
          ?_, ?_, ?_, ?_, rfl, by simp, ?_⟩
        · rw [h2, hc2, hc1]
          simp
        · rw [h1, hc2, hc1]
          simp only [List.append_assoc]
        · rw [h5, hc2, hc1]
        · rw [h6, hc2, hc1]
        · intro o rest ho
          simp only [List.cons.injEq] at ho
          obtain ⟨ho, -⟩ := ho
          subst ho
          exact ⟨rfl, ⟨img_buffer ctx.SignData.Image data ++ ascii "\nendobj\n"
            ++ (formatNat fid ++ ascii " 0 obj\n" ++ a ++ ascii "\nendobj\n"), by
            simp only [List.append_assoc]⟩⟩

/-- What a successful `appendNewObjects` leaves: the catalog object at the old end of the
output, then whatever `createVisualSignatureWithImage` appended, then the annotation
dictionary, then the signature dictionary. -/
theorem appendNewObjects_ok (ctx : SignContext) (catalog signature : List Nat) (visible : Bool)
    (pageNumber : Nat) (rect : RectText) (ctx4 : SignContext)
    (h : appendNewObjects ctx catalog signature visible pageNumber rect = (none, ctx4)) :
    ∃ (catId annId sigId : Nat) (objs : List AppendedObject) (bytes annot : List Nat),
      ctx4.OutputFile.written
          = ctx.OutputFile.written
            ++ (formatNat catId ++ ascii " 0 obj\n" ++ catalog ++ ascii "\nendobj\n")
            ++ bytes
            ++ (formatNat annId ++ ascii " 0 obj\n" ++ annot ++ ascii "\nendobj\n")
            ++ (formatNat sigId ++ ascii " 0 obj\n" ++ signature ++ ascii "\nendobj\n")
        ∧ ctx4.appended
          = ctx.appended
            ++ [⟨catId, ctx.OutputFile.written.length,
                (formatNat catId ++ ascii " 0 obj\n" ++ catalog ++ ascii "\nendobj\n").length⟩]
            ++ objs
            ++ [⟨annId,
                (ctx.OutputFile.written
                  ++ (formatNat catId ++ ascii " 0 obj\n" ++ catalog ++ ascii "\nendobj\n")
                  ++ bytes).length,
                (formatNat annId ++ ascii " 0 obj\n" ++ annot ++ ascii "\nendobj\n").length⟩]
            ++ [⟨sigId,
                (ctx.OutputFile.written
                  ++ (formatNat catId ++ ascii " 0 obj\n" ++ catalog ++ ascii "\nendobj\n")
                  ++ bytes
                  ++ (formatNat annId ++ ascii " 0 obj\n" ++ annot ++ ascii "\nendobj\n")).length,
                (formatNat sigId ++ ascii " 0 obj\n" ++ signature ++ ascii "\nendobj\n").length⟩]
        ∧ ctx4.PDFReader = ctx.PDFReader
        ∧ ctx4.CatalogData.Length
          = ((formatNat catId ++ ascii " 0 obj\n" ++ catalog ++ ascii "\nendobj\n").length : Int)
        ∧ objs.length = (if visible then 2 else 0)
        ∧ (objs = [] → bytes = [])
        ∧ (∀ o rest, objs = o :: rest →
            o.offset = (ctx.OutputFile.written
                ++ (formatNat catId ++ ascii " 0 obj\n" ++ catalog ++ ascii "\nendobj\n")).length
              ∧ (formatNat o.id ++ ascii " 0 obj\n") <+: bytes) := by
  unfold appendNewObjects at h
  split at h
  · simp at h
  · next catId c1 hcat =>
    simp only [] at h
    split at h
    · simp at h
    · next vs c2 hvis =>
      split at h
      · simp at h
      · next annId c3 hann =>
        split at h
        · simp at h
        · next sigId c4 hsig =>
          simp only [Prod.mk.injEq, true_and] at h
          subst h
          obtain ⟨-, hc1⟩ := addObject_ok ctx catalog catId c1 hcat
          obtain ⟨objs, bytes, f1, f2, f3, f4, f5, f6, f7⟩ :=
            createVisualSignatureWithImage_frame _ visible pageNumber rect vs c2 hvis
          obtain ⟨-, hc3⟩ := addObject_ok c2 vs annId c3 hann
          obtain ⟨-, hc4⟩ := addObject_ok c3 signature sigId c4 hsig
          subst hc1
          simp only [] at f1 f2 f3 f4 f7
          refine ⟨catId, annId, sigId, objs, bytes, vs, ?_, ?_, ?_, ?_, f5, f6, ?_⟩
          · rw [hc4, hc3]
            simp only [f2]
          · rw [hc4, hc3]
            simp only [f1, f2]
          · rw [hc4, hc3]
            exact f3
          · rw [hc4, hc3]
            exact f4
          · intro o rest ho
            exact f7 o rest ho

/-- C6 does not hold of the code: with the new objects of `sampleContext` appended from
`StartPos` (45) on in the order catalog, (image, form,) annotation, signature, the catalog
line of the xref table says 45, where the catalog object starts, but the signature line
says 81, where the annotation dictionary (invisible) or the image XObject (visible)
starts, while the signature dictionary starts at 216 (invisible) or 664 (visible). -/
theorem signature_xref_line_misses_signature_object :
    (appendNewObjects sampleContext sampleCatalog sampleSignature false 1 printedRect).1 = none
      ∧ (appendNewObjects sampleContext sampleCatalog sampleSignature false 1 printedRect).2.appended
          = [⟨2, 45, 36⟩, ⟨3, 81, 135⟩, ⟨4, 216, 32⟩]
      ∧ catalog_xref_line
            (appendNewObjects sampleContext sampleCatalog sampleSignature false 1 printedRect).2
          = ascii "0000000045 00000 n\n"
      ∧ signature_xref_line
            (appendNewObjects sampleContext sampleCatalog sampleSignature false 1 printedRect).2
          = ascii "0000000081 00000 n\n"
      ∧ ascii "2 0 obj\n<< /Type /Catalog >>"
          <+: (appendNewObjects sampleContext sampleCatalog sampleSignature false 1
                printedRect).2.OutputFile.written.drop 45
      ∧ ascii "3 0 obj\n<<\n  /Type /Annot\n"
          <+: (appendNewObjects sampleContext sampleCatalog sampleSignature false 1
                printedRect).2.OutputFile.written.drop 81
      ∧ ascii "4 0 obj\n<< /Type /Sig >>"
          <+: (appendNewObjects sampleContext sampleCatalog sampleSignature false 1
                printedRect).2.OutputFile.written.drop 216
      ∧ (appendNewObjects sampleContext sampleCatalog sampleSignature true 1 printedRect).1 = none
      ∧ (appendNewObjects sampleContext sampleCatalog sampleSignature true 1 printedRect).2.appended
          = [⟨2, 45, 36⟩, ⟨3, 81, 182⟩, ⟨4, 263, 212⟩, ⟨5, 475, 189⟩, ⟨6, 664, 32⟩]
      ∧ signature_xref_line
            (appendNewObjects sampleContext sampleCatalog sampleSignature true 1 printedRect).2
          = ascii "0000000081 00000 n\n"
      ∧ ascii "3 0 obj\n<<\n  /Type /XObject\n  /Subtype /Image\n"
          <+: (appendNewObjects sampleContext sampleCatalog sampleSignature true 1
                printedRect).2.OutputFile.written.drop 81
      ∧ ascii "6 0 obj\n<< /Type /Sig >>"
          <+: (appendNewObjects sampleContext sampleCatalog sampleSignature true 1
                printedRect).2.OutputFile.written.drop 664 := by
  decide

/-- The two new xref lines against the layout, for every run: let the new objects be
appended from output position `StartPos` on in the order catalog, (image XObject, Form
XObject when visible,) annotation dictionary, signature dictionary. Then the offset of the
catalog line is the start of the catalog object, where `<id> 0 obj` stands; the offset of
the signature line is the catalog's start plus its length, the start of the object
appended right after the catalog (`next`: the image XObject when visible, the annotation
dictionary when not); the signature dictionary (`sg`) starts strictly after that, so the
signature line never points at it. -/
theorem new_xref_lines_against_layout (ctx : SignContext) (catalog signature : List Nat)
    (visible : Bool) (pageNumber : Nat) (rect : RectText) (ctx4 : SignContext)
    (hstart : ctx.PDFReader.XrefInformation.StartPos = (ctx.OutputFile.written.length : Int))
    (hsize : (ctx4.OutputFile.written.length : Int) < 2 ^ 63)
    (h : appendNewObjects ctx catalog signature visible pageNumber rect = (none, ctx4)) :
    ∃ (cat next sg : AppendedObject) (mid : List AppendedObject) (f1 f2 : List Nat),
      ctx4.appended = ctx.appended ++ ([cat, next] ++ mid ++ [sg])
        ∧ mid.length = (if visible then 2 else 0)
        ∧ catalog_xref_line ctx4 = f1 ++ ascii " 00000 n\n"
        ∧ decodeDecimal f1 = cat.offset
        ∧ (formatNat cat.id ++ ascii " 0 obj\n") <+: ctx4.OutputFile.written.drop cat.offset
        ∧ signature_xref_line ctx4 = f2 ++ ascii " 00000 n\n"
        ∧ decodeDecimal f2 = next.offset
        ∧ next.offset = cat.offset + cat.length
        ∧ (formatNat next.id ++ ascii " 0 obj\n") <+: ctx4.OutputFile.written.drop next.offset
        ∧ next.offset < sg.offset
        ∧ (formatNat sg.id ++ ascii " 0 obj\n") <+: ctx4.OutputFile.written.drop sg.offset := by
  obtain ⟨catId, annId, sigId, objs, bytes, annot, hw, ha, hp, hl, hn, hnil, hcons⟩ :=
    appendNewObjects_ok ctx catalog signature visible pageNumber rect ctx4 h
  have pc : (formatNat catId ++ ascii " 0 obj\n")
      <+: formatNat catId ++ ascii " 0 obj\n" ++ catalog ++ ascii "\nendobj\n" :=
    ⟨catalog ++ ascii "\nendobj\n", by simp only [List.append_assoc]⟩
  have pa : (formatNat annId ++ ascii " 0 obj\n")
      <+: formatNat annId ++ ascii " 0 obj\n" ++ annot ++ ascii "\nendobj\n" :=
    ⟨annot ++ ascii "\nendobj\n", by simp only [List.append_assoc]⟩
  have ps : (formatNat sigId ++ ascii " 0 obj\n")
      <+: formatNat sigId ++ ascii " 0 obj\n" ++ signature ++ ascii "\nendobj\n" :=
    ⟨signature ++ ascii "\nendobj\n", by simp only [List.append_assoc]⟩
  have hann : 0 < (formatNat annId ++ ascii " 0 obj\n" ++ annot ++ ascii "\nendobj\n").length := by
    have : (ascii "\nendobj\n").length = 8 := rfl
    simp only [List.length_append, this]
    omega
  generalize formatNat catId ++ ascii " 0 obj\n" ++ catalog ++ ascii "\nendobj\n" = catObj
    at hw ha hl hcons pc
  generalize formatNat annId ++ ascii " 0 obj\n" ++ annot ++ ascii "\nendobj\n" = annObj
    at hw ha pa hann
  generalize formatNat sigId ++ ascii " 0 obj\n" ++ signature ++ ascii "\nendobj\n" = sigObj
    at hw ha ps
  generalize ctx.OutputFile.written = w0 at hw ha hcons hstart
  have hs4 : ctx4.PDFReader.XrefInformation.StartPos = (w0.length : Int) := by
    rw [hp, hstart]
  have hlenw : ctx4.OutputFile.written.length
      = w0.length + catObj.length + bytes.length + annObj.length + sigObj.length := by
    rw [hw]
    simp only [List.length_append]
  have hadd : add64 ctx4.PDFReader.XrefInformation.StartPos ctx4.CatalogData.Length
      = ((w0.length + catObj.length : Nat) : Int) := by
    rw [hs4, hl]
    unfold add64
    rw [wrapInt64_eq]
    · push_cast
      rfl
    · norm_num
      omega
    · rw [hlenw] at hsize
      norm_num at hsize ⊢
      omega
  have hd1 : decodeDecimal (leftPad (formatInt ctx4.PDFReader.XrefInformation.StartPos) (ascii "0")
      (10 - ((formatInt ctx4.PDFReader.XrefInformation.StartPos).length : Int)))
      = w0.length := by
    have := leftPad_decode ctx4.PDFReader.XrefInformation.StartPos (by rw [hs4]; omega)
    rw [hs4] at this ⊢
    exact_mod_cast this
  have hd2 : decodeDecimal (leftPad
      (formatInt (add64 ctx4.PDFReader.XrefInformation.StartPos ctx4.CatalogData.Length)) (ascii "0")
      (10 - ((formatInt
        (add64 ctx4.PDFReader.XrefInformation.StartPos ctx4.CatalogData.Length)).length : Int)))
      = w0.length + catObj.length := by
    have := leftPad_decode
      (add64 ctx4.PDFReader.XrefInformation.StartPos ctx4.CatalogData.Length)
      (by rw [hadd]; omega)
    rw [hadd] at this ⊢
    exact_mod_cast this
  have hcatdrop : ctx4.OutputFile.written.drop w0.length
      = catObj ++ (bytes ++ annObj ++ sigObj) := by
    have e : ctx4.OutputFile.written = w0 ++ (catObj ++ (bytes ++ annObj ++ sigObj)) := by
      rw [hw]
      simp only [List.append_assoc]
    rw [e, List.drop_left]
  have hnextdrop : ctx4.OutputFile.written.drop (w0.length + catObj.length)
      = bytes ++ (annObj ++ sigObj) := by
    have e : ctx4.OutputFile.written = (w0 ++ catObj) ++ (bytes ++ (annObj ++ sigObj)) := by
      rw [hw]
      simp only [List.append_assoc]
    rw [e, ← List.length_append, List.drop_left]
  have hsigdrop : ctx4.OutputFile.written.drop (w0 ++ catObj ++ bytes ++ annObj).length
      = sigObj := by
    rw [hw, List.drop_left]
  have hcatpre : (formatNat catId ++ ascii " 0 obj\n") <+: ctx4.OutputFile.written.drop w0.length := by
    rw [hcatdrop]
    exact pc.trans (List.prefix_append _ _)
  have hsigpre : (formatNat sigId ++ ascii " 0 obj\n")
      <+: ctx4.OutputFile.written.drop (w0 ++ catObj ++ bytes ++ annObj).length := by
    rw [hsigdrop]
    exact ps
  cases objs with
  | nil =>
    have hb : bytes = [] := hnil rfl
    subst hb
    refine ⟨⟨catId, w0.length, catObj.length⟩, ⟨annId, (w0 ++ catObj ++ []).length, annObj.length⟩,
      ⟨sigId, (w0 ++ catObj ++ [] ++ annObj).length, sigObj.length⟩, [], _, _, ?_, ?_, rfl, hd1,
      hcatpre, rfl, ?_, ?_, ?_, ?_, hsigpre⟩
    · rw [ha]
      simp
    · rw [← hn]
    · rw [hd2]
      simp
    · simp
    · simp only [List.append_nil, List.length_append] at hnextdrop ⊢
      rw [hnextdrop]
      exact pa.trans (List.prefix_append _ _)
    · simp only [List.append_nil, List.length_append]
      omega
  | cons o rest =>
    obtain ⟨ho, hpre⟩ := hcons o rest rfl
    refine ⟨⟨catId, w0.length, catObj.length⟩, o,
      ⟨sigId, (w0 ++ catObj ++ bytes ++ annObj).length, sigObj.length⟩,
      rest ++ [⟨annId, (w0 ++ catObj ++ bytes).length, annObj.length⟩], _, _, ?_, ?_, rfl, hd1,
      hcatpre, rfl, ?_, ?_, ?_, ?_, hsigpre⟩
    · rw [ha]
      simp
    · rw [← hn]
      simp
    · rw [hd2, ho]
      simp
    · rw [ho]
      simp
    · rw [ho]
      simp only [List.length_append]
      rw [hnextdrop]
      exact hpre.trans (List.prefix_append _ _)
    · rw [ho]
      simp only [List.length_append]
      omega

theorem new_xref_lines_against_layout_witness :
    ∃ (cat next sg : AppendedObject) (mid : List AppendedObject) (f2 : List Nat),
      (appendNewObjects sampleContext sampleCatalog sampleSignature true 1 printedRect).2.appended
          = sampleContext.appended ++ ([cat, next] ++ mid ++ [sg])
        ∧ signature_xref_line
              (appendNewObjects sampleContext sampleCatalog sampleSignature true 1 printedRect).2
            = f2 ++ ascii " 00000 n\n"
        ∧ decodeDecimal f2 = next.offset ∧ next.offset < sg.offset := by
  obtain ⟨cat, next, sg, mid, f1, f2, h1, -, -, -, -, h2, h3, -, -, h4, -⟩ :=
    new_xref_lines_against_layout sampleContext sampleCatalog sampleSignature true 1 printedRect
      (appendNewObjects sampleContext sampleCatalog sampleSignature true 1 printedRect).2
      (by decide) (by decide) (by decide)
  exact ⟨cat, next, sg, mid, f2, h1, h2, h3, h4⟩

/-! ## The page lookup and the root reference -/

theorem findPageByNumber_congr (c ctx : SignContext) (pageNumber : Nat)
    (h : c.PDFReader = ctx.PDFReader) :
    findPageByNumber c pageNumber = findPageByNumber ctx pageNumber := by
  unfold findPageByNumber
  rw [h]

theorem found_pages_iff (ctx : SignContext) :
    ctx.PDFReader.rootKeys.any (fun key => decide (key = ascii "Pages")) = true
      ↔ ascii "Pages" ∈ ctx.PDFReader.rootKeys := by
  simp [List.any_eq_true]

/-- The three ways through the second half of `createVisualSignatureWithImage`. -/
theorem finishVisualSignature_cases (ctx : SignContext) (pageNumber : Nat) (vs : List Nat) :
    (ascii "Pages" ∈ ctx.PDFReader.rootKeys →
        (∀ e, findPageByNumber ctx pageNumber = .error e →
          finishVisualSignature ctx pageNumber vs = (.error e, withRootString ctx))
        ∧ (∀ p, findPageByNumber ctx pageNumber = .ok p →
          finishVisualSignature ctx pageNumber vs
            = (.ok (vs ++ signature_tail ctx (pageLine p)),
                { withRootString ctx with VisualSignData := { pageObjectId := p.id } })))
      ∧ (ascii "Pages" ∉ ctx.PDFReader.rootKeys →
          finishVisualSignature ctx pageNumber vs
            = (.ok (vs ++ signature_tail ctx []), withRootString ctx)) := by
  have hf : findPageByNumber (withRootString ctx) pageNumber = findPageByNumber ctx pageNumber :=
    findPageByNumber_congr _ ctx pageNumber rfl
  unfold withRootString rootReference at hf
  refine ⟨fun hp => ⟨?_, ?_⟩, fun hp => ?_⟩
  · intro e he
    unfold finishVisualSignature
    simp only []
    rw [if_pos ((found_pages_iff ctx).mpr hp), hf, he]
    rfl
  · intro p he
    unfold finishVisualSignature
    simp only []
    rw [if_pos ((found_pages_iff ctx).mpr hp), hf, he]
    rfl
  · unfold finishVisualSignature
    simp only []
    rw [if_neg (fun h => hp ((found_pages_iff ctx).mp h))]
    rfl

/-- The visible branch of `createVisualSignatureWithImage` once both appends succeeded. -/
theorem createVisualSignatureWithImage_visible_run (ctx : SignContext) (pageNumber : Nat)
    (rect : RectText) (a : List Nat) (c1 : SignContext) (id : Nat) (c2 : SignContext)
    (hca : createAppearanceWithImage ctx = (.ok a, c1)) (hadd : addObject c1 a = (.ok id, c2)) :
    createVisualSignatureWithImage ctx true pageNumber rect
        = finishVisualSignature c2 pageNumber
            (ascii "<<\n" ++ ascii "  /Type /Annot\n" ++ ascii "  /Subtype /Widget\n"
              ++ (ascii "  /Rect [" ++ rect.x0 ++ ascii " " ++ rect.y0 ++ ascii " " ++ rect.x1
                ++ ascii " " ++ rect.y1 ++ ascii "]\n")
              ++ (ascii "  /AP << /N " ++ formatNat id ++ ascii " 0 R >>\n"))
      ∧ c2.PDFReader = ctx.PDFReader ∧ c2.existingSignatures = ctx.existingSignatures
      ∧ c2.SignData = ctx.SignData ∧ c2.VisualSignData = ctx.VisualSignData
      ∧ id = ctx.lastObjectId + 2 := by
  obtain ⟨data, -, himg, -⟩ := createAppearanceWithImage_ok ctx a c1 hca
  obtain ⟨-, hc1⟩ := addObject_ok ctx _ _ c1 himg
  obtain ⟨hid, hc2⟩ := addObject_ok c1 _ id c2 hadd
  refine ⟨?_, ?_, ?_, ?_, ?_, ?_⟩
  · unfold createVisualSignatureWithImage
    simp only [if_true, hca, hadd]
  · rw [hc2, hc1]
  · rw [hc2, hc1]
  · rw [hc2, hc1]
  · rw [hc2, hc1]
  · rw [hid, hc1]

/-- The invisible branch of `createVisualSignatureWithImage`. -/
theorem createVisualSignatureWithImage_invisible_run (ctx : SignContext) (pageNumber : Nat)
    (rect : RectText) :
    createVisualSignatureWithImage ctx false pageNumber rect
      = finishVisualSignature ctx pageNumber
          (ascii "<<\n" ++ ascii "  /Type /Annot\n" ++ ascii "  /Subtype /Widget\n"
            ++ ascii "  /Rect [0 0 0 0]\n") := by
  unfold createVisualSignatureWithImage
  simp only [Bool.false_eq_true, if_false]

/-- An error of the visible branch before the lookup is one of the two wrapped errors. -/
theorem createVisualSignatureWithImage_early_error (ctx : SignContext) (pageNumber : Nat)
    (rect : RectText) :
    (∃ a c1 id c2, createAppearanceWithImage ctx = (.ok a, c1) ∧ addObject c1 a = (.ok id, c2))
      ∨ ∃ e c, createVisualSignatureWithImage ctx true pageNumber rect
          = (.error (GoError.wrapped (ascii "failed to create appearance: ") e), c)
        ∨ createVisualSignatureWithImage ctx true pageNumber rect
          = (.error (GoError.wrapped (ascii "failed to add appearance object: ") e), c) := by
  rcases hca : createAppearanceWithImage ctx with ⟨r, c1⟩
  cases r with
  | error e =>
    right
    refine ⟨e, c1, Or.inl ?_⟩
    unfold createVisualSignatureWithImage
    simp only [if_true, hca]
  | ok a =>
    rcases hadd : addObject c1 a with ⟨r2, c2⟩
    cases r2 with
    | error e =>
      right
      refine ⟨e, c2, Or.inr ?_⟩
      unfold createVisualSignatureWithImage
      simp only [if_true, hca, hadd]
    | ok id =>
      left
      exact ⟨a, c1, id, c2, rfl, hadd⟩

/-- C11: when the Root object has a `Pages` key and the lookup of `pageNumber` fails with
`e`, the call returns `e` itself and no dictionary; the context returned is the one at the
lookup with only `CatalogData.RootString` set (for a visible signature: the context after
the two appends), so nothing is appended after the lookup. When the Root object has no
`Pages` key the result is the same for every page number, contains no page line, and an
error can only be one of the two wrapped errors of the appearance. -/
theorem page_lookup_error_is_returned (ctx : SignContext) (visible : Bool) (pageNumber : Nat)
    (rect : RectText) :
    (ascii "Pages" ∈ ctx.PDFReader.rootKeys →
        ∀ e, findPageByNumber ctx pageNumber = .error e →
          createVisualSignatureWithImage ctx false pageNumber rect = (.error e, withRootString ctx)
            ∧ ∀ a c1 id c2, createAppearanceWithImage ctx = (.ok a, c1) →
                addObject c1 a = (.ok id, c2) →
                createVisualSignatureWithImage ctx true pageNumber rect
                  = (.error e, withRootString c2))
      ∧ (ascii "Pages" ∉ ctx.PDFReader.rootKeys →
          (∀ other : Nat, createVisualSignatureWithImage ctx visible pageNumber rect
              = createVisualSignatureWithImage ctx visible other rect)
            ∧ createVisualSignatureWithImage ctx false pageNumber rect
                = (.ok (ascii "<<\n" ++ ascii "  /Type /Annot\n" ++ ascii "  /Subtype /Widget\n"
                    ++ ascii "  /Rect [0 0 0 0]\n" ++ signature_tail ctx []), withRootString ctx)
            ∧ ∀ e, (createVisualSignatureWithImage ctx true pageNumber rect).1 = .error e →
                ∃ inner, e = GoError.wrapped (ascii "failed to create appearance: ") inner
                  ∨ e = GoError.wrapped (ascii "failed to add appearance object: ") inner) := by
  refine ⟨fun hp e he => ⟨?_, ?_⟩, fun hp => ⟨?_, ?_, ?_⟩⟩
  · rw [createVisualSignatureWithImage_invisible_run]
    exact ((finishVisualSignature_cases ctx pageNumber _).1 hp).1 e he
  · intro a c1 id c2 hca hadd
    obtain ⟨hrun, hpdf, -, -, -, -⟩ :=
      createVisualSignatureWithImage_visible_run ctx pageNumber rect a c1 id c2 hca hadd
    rw [hrun]
    exact ((finishVisualSignature_cases c2 pageNumber _).1 (by rw [hpdf]; exact hp)).1 e
      (by rw [findPageByNumber_congr c2 ctx pageNumber hpdf]; exact he)
  · intro other
    cases visible with
    | false =>
      rw [createVisualSignatureWithImage_invisible_run, createVisualSignatureWithImage_invisible_run,
        (finishVisualSignature_cases ctx pageNumber _).2 hp,
        (finishVisualSignature_cases ctx other _).2 hp]
    | true =>
      rcases createVisualSignatureWithImage_early_error ctx pageNumber rect with
        ⟨a, c1, id, c2, hca, hadd⟩ | h
      · obtain ⟨hrun, hpdf, -, -, -, -⟩ :=
          createVisualSignatureWithImage_visible_run ctx pageNumber rect a c1 id c2 hca hadd
        obtain ⟨hrun2, -, -, -, -, -⟩ :=
          createVisualSignatureWithImage_visible_run ctx other rect a c1 id c2 hca hadd
        rw [hrun, hrun2, (finishVisualSignature_cases c2 pageNumber _).2 (by rw [hpdf]; exact hp),
          (finishVisualSignature_cases c2 other _).2 (by rw [hpdf]; exact hp)]
      · unfold createVisualSignatureWithImage
        simp only [if_true]
        rcases hca : createAppearanceWithImage ctx with ⟨r, c1⟩
        cases r with
        | error e => rfl
        | ok a =>
          rcases hadd : addObject c1 a with ⟨r2, c2⟩
          cases r2 with
          | error e => simp only [hadd]
          | ok id =>
            exfalso
            obtain ⟨hrun, hpdf, -, -, -, -⟩ :=
              createVisualSignatureWithImage_visible_run ctx pageNumber rect a c1 id c2 hca hadd
            rw [hrun, (finishVisualSignature_cases c2 pageNumber _).2 (by rw [hpdf]; exact hp)] at h
            obtain ⟨e, c, h | h⟩ := h <;> simp at h
  · rw [createVisualSignatureWithImage_invisible_run]
    exact (finishVisualSignature_cases ctx pageNumber _).2 hp
  · intro e he
    rcases createVisualSignatureWithImage_early_error ctx pageNumber rect with
      ⟨a, c1, id, c2, hca, hadd⟩ | ⟨inner, c, h | h⟩
    · obtain ⟨hrun, hpdf, -, -, -, -⟩ :=
        createVisualSignatureWithImage_visible_run ctx pageNumber rect a c1 id c2 hca hadd
      rw [hrun, (finishVisualSignature_cases c2 pageNumber _).2 (by rw [hpdf]; exact hp)] at he
      simp at he
    · rw [h] at he
      simp only [Except.error.injEq] at he
      exact ⟨inner, Or.inl he.symm⟩
    · rw [h] at he
      simp only [Except.error.injEq] at he
      exact ⟨inner, Or.inr he.symm⟩

/-- C17: with `visible = true`, a Root object that has a `Pages` key and page number 2 of a
one-page document, the call on `freshContext` returns the lookup error after the image
XObject and the Form XObject have been appended (objects 2 and 3, two appender calls, the
output grown) and after `CatalogData.RootString` has been set to `1 0 R`, while
`VisualSignData.pageObjectId` is what it was. -/
theorem visible_call_is_not_atomic :
    ascii "Pages" ∈ freshContext.PDFReader.rootKeys
      ∧ (createVisualSignatureWithImage freshContext true 2 sampleRect).1
          = .error (GoError.pageNotFound 2)
      ∧ freshContext.appended = []
      ∧ (createVisualSignatureWithImage freshContext true 2 sampleRect).2.appended
          = [⟨2, 45, 182⟩, ⟨3, 227, 212⟩]
      ∧ (createVisualSignatureWithImage freshContext true 2 sampleRect).2.addObjectCalls
          = freshContext.addObjectCalls + 2
      ∧ freshContext.OutputFile.written.length = 45
      ∧ (createVisualSignatureWithImage freshContext true 2 sampleRect).2.OutputFile.written.length
          = 439
      ∧ sampleBody ++ ascii "2 0 obj\n<<\n  /Type /XObject\n  /Subtype /Image\n"
          <+: (createVisualSignatureWithImage freshContext true 2 sampleRect).2.OutputFile.written
      ∧ ascii "3 0 obj\n<<\n  /Type /XObject\n  /Subtype /Form\n"
          <+: (createVisualSignatureWithImage freshContext true 2
                sampleRect).2.OutputFile.written.drop 227
      ∧ freshContext.CatalogData.RootString = []
      ∧ (createVisualSignatureWithImage freshContext true 2 sampleRect).2.CatalogData.RootString
          = ascii "1 0 R"
      ∧ (createVisualSignatureWithImage freshContext true 2
            sampleRect).2.VisualSignData.pageObjectId
          = freshContext.VisualSignData.pageObjectId := by
  refine ⟨by decide, rfl, ?_⟩
  decide

/-! ## The span that `writeTrailer` reads -/

/-- C15: when the positions lie inside the input (`0 ≤ EndPos ≤ IncludingTrailerEndPos`,
the latter below the size of the input), `writeTrailer` reads without error exactly the
`IncludingTrailerEndPos - EndPos` bytes at the input offsets `EndPos + 1` up to
`IncludingTrailerEndPos`, each byte of the span being the input byte at that offset, and
leaves the input at offset `IncludingTrailerEndPos + 1`; this span is what it patches and
writes. -/
theorem writeTrailer_reads_trailer_span (ctx : SignContext)
    (h0 : 0 ≤ ctx.PDFReader.XrefInformation.EndPos)
    (h1 : ctx.PDFReader.XrefInformation.EndPos
      ≤ ctx.PDFReader.XrefInformation.IncludingTrailerEndPos)
    (h2 : ctx.PDFReader.XrefInformation.IncludingTrailerEndPos
      < (ctx.InputFile.content.length : Int))
    (h3 : (ctx.InputFile.content.length : Int) < 2 ^ 63) :
    ∃ span : List Nat,
      span = (ctx.InputFile.content.drop (ctx.PDFReader.XrefInformation.EndPos + 1).toNat).take
          (ctx.PDFReader.XrefInformation.IncludingTrailerEndPos
            - ctx.PDFReader.XrefInformation.EndPos).toNat
        ∧ trailer_buf ctx
          = ((span, none),
              { ctx.InputFile with
                pos := (ctx.PDFReader.XrefInformation.IncludingTrailerEndPos + 1).toNat })
        ∧ (span.length : Int)
          = ctx.PDFReader.XrefInformation.IncludingTrailerEndPos
            - ctx.PDFReader.XrefInformation.EndPos
        ∧ (∀ i : Nat, i < span.length →
            span.get? i
              = ctx.InputFile.content.get? ((ctx.PDFReader.XrefInformation.EndPos + 1).toNat + i))
        ∧ ((replaceAll (replaceAll span (root_string ctx) (new_root ctx)) (size_string ctx)
              (new_size ctx)).length + (formatInt ctx.NewXrefStart).length + 7
              ≤ ctx.OutputFile.free →
            (writeTrailer ctx).1 = none
              ∧ (writeTrailer ctx).2.OutputFile.written
                = ctx.OutputFile.written
                  ++ replaceAll (replaceAll span (root_string ctx) (new_root ctx))
                      (size_string ctx) (new_size ctx)
                  ++ (formatInt ctx.NewXrefStart ++ ascii "\n") ++ ascii "%%EOF\n") := by
  have ha : add64 ctx.PDFReader.XrefInformation.EndPos 1
      = ctx.PDFReader.XrefInformation.EndPos + 1 := by
    apply wrapInt64_eq <;> norm_num at h3 ⊢ <;> omega
  have hs : sub64 ctx.PDFReader.XrefInformation.IncludingTrailerEndPos
      ctx.PDFReader.XrefInformation.EndPos
      = ctx.PDFReader.XrefInformation.IncludingTrailerEndPos
        - ctx.PDFReader.XrefInformation.EndPos := by
    apply wrapInt64_eq <;> norm_num at h3 ⊢ <;> omega
  have hlen : ((ctx.InputFile.content.drop (ctx.PDFReader.XrefInformation.EndPos + 1).toNat).take
      (ctx.PDFReader.XrefInformation.IncludingTrailerEndPos
        - ctx.PDFReader.XrefInformation.EndPos).toNat).length
      = (ctx.PDFReader.XrefInformation.IncludingTrailerEndPos
        - ctx.PDFReader.XrefInformation.EndPos).toNat := by
    simp
    omega
  have hbuf : trailer_buf ctx
      = (((ctx.InputFile.content.drop (ctx.PDFReader.XrefInformation.EndPos + 1).toNat).take
            (ctx.PDFReader.XrefInformation.IncludingTrailerEndPos
              - ctx.PDFReader.XrefInformation.EndPos).toNat, none),
          { ctx.InputFile with
            pos := (ctx.PDFReader.XrefInformation.IncludingTrailerEndPos + 1).toNat }) := by
    unfold trailer_buf
    simp only [ha, hs]
    unfold ReadSeeker.Seek
    rw [if_neg (by omega)]
    unfold ReadSeeker.Read
    by_cases hz : (ctx.PDFReader.XrefInformation.IncludingTrailerEndPos
        - ctx.PDFReader.XrefInformation.EndPos).toNat = 0
    · rw [if_pos hz, hz]
      have : (ctx.PDFReader.XrefInformation.EndPos + 1).toNat
          = (ctx.PDFReader.XrefInformation.IncludingTrailerEndPos + 1).toNat := by omega
      simp [this]
    · rw [if_neg hz, if_neg (by simp only []; omega)]
      simp only []
      rw [hlen]
      have : (ctx.PDFReader.XrefInformation.EndPos + 1).toNat
          + (ctx.PDFReader.XrefInformation.IncludingTrailerEndPos
            - ctx.PDFReader.XrefInformation.EndPos).toNat
          = (ctx.PDFReader.XrefInformation.IncludingTrailerEndPos + 1).toNat := by omega
      simp [this]
  refine ⟨_, rfl, hbuf, ?_, ?_, ?_⟩
  · rw [hlen]
    omega
  · intro i hi
    rw [List.get?_eq_getElem?, List.get?_eq_getElem?, List.getElem?_take_of_lt (by rw [hlen] at hi; exact hi),
      List.getElem?_drop]
  · intro hfree
    exact writeTrailer_run ctx _ (by rw [hs]; omega) (by rw [hbuf]) hfree

theorem writeTrailer_reads_trailer_span_witness :
    ∃ span : List Nat,
      trailer_buf sampleContext = ((span, none), { sampleContext.InputFile with pos := 138 })
        ∧ span = sampleTrailer := by
  obtain ⟨span, h1, h2, -, -, -⟩ := writeTrailer_reads_trailer_span sampleContext (by decide)
    (by decide) (by decide) (by decide)
  refine ⟨span, h2, ?_⟩
  rw [h1]
  decide

/-! ## Texts that hold no occurrence -/

theorem closed_tail {pat x : List Nat} {c : Nat} (h : Closed pat (c :: x)) : Closed pat x := by
  intro u hu
  apply h u
  rw [List.mem_tails] at hu ⊢
  exact hu.trans (List.suffix_cons c x)

theorem closed_append {pat : List Nat} :
    ∀ {x y : List Nat}, Closed pat x → Closed pat y → Closed pat (x ++ y) := by
  intro x
  induction x with
  | nil => intro y _ hy; exact hy
  | cons c x ih =>
    intro y hx hy u hu hun hlen hpre
    rw [List.mem_tails] at hu
    rcases List.suffix_cons_iff.mp hu with h1 | h1
    · subst h1
      have hp1 : (c :: x) <+: pat := (List.prefix_append (c :: x) y).trans hpre
      have hl1 : (c :: x).length < pat.length := by
        refine Nat.lt_of_le_of_lt ?_ hlen
        show (c :: x).length ≤ (c :: (x ++ y)).length
        simp
      exact hx (c :: x) (by simp) (by simp) hl1 hp1
    · exact ih (closed_tail hx) hy u ((List.mem_tails u _).mpr h1) hun hlen hpre

theorem inert_append {pat x y : List Nat} (hx : Inert pat x) (hy : Inert pat y) :
    Inert pat (x ++ y) := by
  refine ⟨closed_append hx.1 hy.1, ?_⟩
  rw [countOcc_append_closed x y hx.1, hx.2, hy.2]

theorem inert_number {pat : List Nat} (hp : pat.head? = some 47) (x : List Nat)
    (hx : numberText x) : Inert pat x :=
  ⟨(countOcc_number hp x hx).2, (countOcc_number hp x hx).1⟩

theorem inert_float {pat : List Nat} (hp : pat.head? = some 47) (x : List Nat)
    (hx : floatText x) : Inert pat x := by
  have h := countOcc_without_head hp x (by
    intro hm
    have := hx 47 hm
    omega)
  exact ⟨h.2, h.1⟩

theorem inert_diverges (fp rest x : List Nat) (h0 : fp ≠ []) (h : Diverges fp x) :
    Inert (fp ++ rest) x := by
  constructor
  · intro u hu hun _ hpre
    rcases List.prefix_or_prefix_of_prefix hpre (List.prefix_append fp rest) with h1 | h1
    · exact (h u hu hun).1 h1
    · exact (h u hu hun).2 h1
  · by_contra hc
    have hne : fp ++ rest ≠ [] := by simp [h0]
    have hi : fp ++ rest <:+: x := (infix_iff_countOcc_pos hne x).mpr (Nat.pos_of_ne_zero hc)
    obtain ⟨t, hp, hs⟩ := List.infix_iff_prefix_suffix.mp hi
    have htn : t ≠ [] := by
      rintro rfl
      exact hne (List.eq_nil_of_prefix_nil hp)
    exact (h t ((List.mem_tails t x).mpr hs) htn).2 ((List.prefix_append fp rest).trans hp)

theorem countOcc_inert_append {pat x : List Nat} (y : List Nat) (hx : Inert pat x) :
    countOcc pat (x ++ y) = countOcc pat y := by
  rw [countOcc_append_closed x y hx.1, hx.2, Nat.zero_add]

/-- A text whose only `/` is its first byte occurs once in itself and has no border. -/
theorem slash_text_self (r : List Nat) (h : 47 ∉ r) :
    Closed (47 :: r) (47 :: r) ∧ countOcc (47 :: r) (47 :: r) = 1 := by
  have hz := @countOcc_without_head (47 :: r) 47 rfl r h
  constructor
  · intro u hu hun hlen hpre
    rw [List.mem_tails] at hu
    rcases List.suffix_cons_iff.mp hu with h1 | h1
    · rw [h1] at hlen
      exact Nat.lt_irrefl _ hlen
    · have hh : u.head? = some 47 := by rw [prefix_head_eq hun hpre]; rfl
      exact h (h1.subset (mem_of_head hh))
  · show (if (47 :: r) <+: 47 :: r then 1 else 0) + countOcc (47 :: r) r = 1
    rw [hz.1, if_pos (List.prefix_refl _)]

/-- One occurrence: the text itself between two texts that hold none. -/
theorem countOcc_between {pat before after : List Nat} (hb : Inert pat before)
    (hs : Closed pat pat ∧ countOcc pat pat = 1) (ha : countOcc pat after = 0) :
    countOcc pat (before ++ (pat ++ after)) = 1 := by
  rw [countOcc_inert_append _ hb, countOcc_append_closed pat after hs.1, hs.2, ha]

/-! ## The two XObjects of the appearance -/

/-- What `createAppearanceWithImage` does once the image is encoded: it hands the image
XObject to the appender. -/
theorem createAppearanceWithImage_encoded (ctx : SignContext) (data : List Nat)
    (hj : ctx.SignData.Image.jpeg = some data) :
    (createAppearanceWithImage ctx).2 = (addObject ctx (img_buffer ctx.SignData.Image data)).2
      ∧ (∀ id c1, addObject ctx (img_buffer ctx.SignData.Image data) = (.ok id, c1) →
          createAppearanceWithImage ctx
            = (.ok (appearance_buffer ctx.SignData.Image ctx.clock id), c1))
      ∧ (∀ e c1, addObject ctx (img_buffer ctx.SignData.Image data) = (.error e, c1) →
          createAppearanceWithImage ctx = (.error e, c1)) := by
  unfold createAppearanceWithImage
  simp only [hj]
  rcases h : addObject ctx (img_buffer ctx.SignData.Image data) with ⟨r, c1⟩
  cases r with
  | error e => simp
  | ok id => simp

/-- C18: for every encoded data block `d`, the object that `createAppearanceWithImage`
hands to the appender is a dictionary followed by `stream\n`, `d` itself and
`\nendstream\n`; the dictionary declares `/Width` and `/Height` as the bounds of the
image, `/ColorSpace /DeviceRGB`, `/BitsPerComponent 8`, `/Filter /DCTDecode` and `/Length`
as the decimal text of `len(d)`, and holds no `stream\n` of its own. -/
theorem image_xobject_declares_its_stream (ctx : SignContext) (d : List Nat)
    (hj : ctx.SignData.Image.jpeg = some d) :
    ∃ dict object : List Nat,
      dict = ascii "<<\n  /Type /XObject\n  /Subtype /Image\n  /Width "
          ++ formatInt ctx.SignData.Image.dx ++ ascii "\n  /Height "
          ++ formatInt ctx.SignData.Image.dy
          ++ ascii "\n  /ColorSpace /DeviceRGB\n  /BitsPerComponent 8\n  /Filter /DCTDecode\n  /Length "
          ++ formatNat d.length ++ ascii "\n>>\n"
        ∧ object = dict ++ ascii "stream\n" ++ d ++ ascii "\nendstream\n"
        ∧ decodeDecimal (formatNat d.length) = d.length
        ∧ countOcc (ascii "stream\n") dict = 0
        ∧ (createAppearanceWithImage ctx).2 = (addObject ctx object).2
        ∧ (∀ id c1, addObject ctx object = (.ok id, c1) →
            createAppearanceWithImage ctx
                = (.ok (appearance_buffer ctx.SignData.Image ctx.clock id), c1)
              ∧ c1.OutputFile.written
                = ctx.OutputFile.written
                  ++ (formatNat id ++ ascii " 0 obj\n" ++ object ++ ascii "\nendobj\n"))
        ∧ (∀ e c1, addObject ctx object = (.error e, c1) →
            createAppearanceWithImage ctx = (.error e, c1)) := by
  have hobj : img_buffer ctx.SignData.Image d
      = ascii "<<\n  /Type /XObject\n  /Subtype /Image\n  /Width "
          ++ formatInt ctx.SignData.Image.dx ++ ascii "\n  /Height "
          ++ formatInt ctx.SignData.Image.dy
          ++ ascii "\n  /ColorSpace /DeviceRGB\n  /BitsPerComponent 8\n  /Filter /DCTDecode\n  /Length "
          ++ formatNat d.length ++ ascii "\n>>\n" ++ ascii "stream\n" ++ d
          ++ ascii "\nendstream\n" := by
    unfold img_buffer
    rw [formatInt_natCast]
    have e1 : ascii "<<\n" ++ ascii "  /Type /XObject\n" ++ ascii "  /Subtype /Image\n"
        ++ ascii "  /Width " = ascii "<<\n  /Type /XObject\n  /Subtype /Image\n  /Width " := by
      decide
    have e2 : ascii "\n" ++ ascii "  /Height " = ascii "\n  /Height " := by decide
    have e3 : ascii "\n" ++ ascii "  /ColorSpace /DeviceRGB\n" ++ ascii "  /BitsPerComponent 8\n"
        ++ ascii "  /Filter /DCTDecode\n" ++ ascii "  /Length "
        = ascii "\n  /ColorSpace /DeviceRGB\n  /BitsPerComponent 8\n  /Filter /DCTDecode\n  /Length " := by
      decide
    have e4 : ascii "\n" ++ ascii ">>\n" = ascii "\n>>\n" := by decide
    rw [← e1, ← e2, ← e3, ← e4]
    simp only [List.append_assoc]
  obtain ⟨r1, r2, r3⟩ := createAppearanceWithImage_encoded ctx d hj
  have hp : (ascii "stream\n").head? = some 115 := rfl
  have hnum : ∀ x, numberText x → Inert (ascii "stream\n") x := by
    intro x hx
    have h := countOcc_without_head hp x (by
      intro hm
      have := hx 115 hm
      omega)
    exact ⟨h.2, h.1⟩
  refine ⟨_, _, rfl, rfl, decodeDecimal_formatNat _, ?_, ?_, ?_, ?_⟩
  · have hin : Inert (ascii "stream\n")
        (ascii "<<\n  /Type /XObject\n  /Subtype /Image\n  /Width "
          ++ formatInt ctx.SignData.Image.dx ++ ascii "\n  /Height "
          ++ formatInt ctx.SignData.Image.dy
          ++ ascii "\n  /ColorSpace /DeviceRGB\n  /BitsPerComponent 8\n  /Filter /DCTDecode\n  /Length "
          ++ formatNat d.length ++ ascii "\n>>\n") := by
      repeat' (first
        | exact hnum _ (numberText_formatInt _)
        | exact hnum _ (numberText_formatNat _)
        | decide
        | apply inert_append)
    exact hin.2
  · rw [← hobj]
    exact r1
  · intro id c1 h
    rw [← hobj] at h
    refine ⟨r2 id c1 h, ?_⟩
    rw [(addObject_ok ctx _ id c1 h).2, hobj]
  · intro e c1 h
    rw [← hobj] at h
    exact r3 e c1 h

theorem image_xobject_declares_its_stream_witness :
    ∃ dict object : List Nat,
      dict = ascii "<<\n  /Type /XObject\n  /Subtype /Image\n  /Width 2\n  /Height 1\n  /ColorSpace /DeviceRGB\n  /BitsPerComponent 8\n  /Filter /DCTDecode\n  /Length 4\n>>\n"
        ∧ object = dict ++ ascii "stream\n" ++ [255, 216, 255, 217] ++ ascii "\nendstream\n"
        ∧ (createAppearanceWithImage sampleContext).2 = (addObject sampleContext object).2 := by
  obtain ⟨dict, object, h1, h2, -, -, h3, -, -⟩ :=
    image_xobject_declares_its_stream sampleContext [255, 216, 255, 217] rfl
  refine ⟨dict, object, ?_, h2, h3⟩
  rw [h1]
  decide

/-- C14: the Form XObject that a successful `createAppearanceWithImage` returns has
`/BBox [0 0 w h]` for the bounds `w`, `h` of the image; its stream is
`q w 0 0 h 0 0 cm`, `/Im<N> Do`, `Q` with the same `w`, `h`; the name `/Im<N>` (`N` the
time token) of the `Do` line is the one key of the `/XObject` dictionary of `/Resources`,
where it stands for the id that the appender returned for the image object; `/Im` occurs
at these two places only. -/
theorem form_xobject_draws_the_image (ctx : SignContext) (a : List Nat) (c1 : SignContext)
    (h : createAppearanceWithImage ctx = (.ok a, c1)) :
    ∃ (data : List Nat) (imgId : Nat) (name content : List Nat),
      ctx.SignData.Image.jpeg = some data
        ∧ addObject ctx (img_buffer ctx.SignData.Image data) = (.ok imgId, c1)
        ∧ name = ascii "/Im" ++ formatInt ctx.clock
        ∧ content = ascii "q " ++ formatInt ctx.SignData.Image.dx ++ ascii " 0 0 "
            ++ formatInt ctx.SignData.Image.dy ++ ascii " 0 0 cm\n" ++ name ++ ascii " Do\n"
            ++ ascii "Q\n"
        ∧ a = ascii "<<\n  /Type /XObject\n  /Subtype /Form\n  /BBox [0 0 "
            ++ formatInt ctx.SignData.Image.dx ++ ascii " " ++ formatInt ctx.SignData.Image.dy
            ++ ascii "]\n  /Resources << /XObject << " ++ name ++ ascii " " ++ formatNat imgId
            ++ ascii " 0 R >> >>  /FormType 1\n>>\n" ++ ascii "stream\n" ++ content
            ++ ascii "endstream\n"
        ∧ countOcc (ascii "/Im") a = 2 := by
  obtain ⟨data, hj, himg, ha⟩ := createAppearanceWithImage_ok ctx a c1 h
  have hp : (ascii "/Im").head? = some 47 := rfl
  have hshape : a
      = (ascii "<<\n  /Type /XObject\n  /Subtype /Form\n  /BBox [0 0 "
          ++ (formatInt ctx.SignData.Image.dx ++ (ascii " " ++ (formatInt ctx.SignData.Image.dy
          ++ ascii "]\n  /Resources << /XObject << "))))
        ++ (ascii "/Im"
          ++ ((formatInt ctx.clock ++ (ascii " " ++ (formatNat (ctx.lastObjectId + 1)
              ++ (ascii " 0 R >> >>  /FormType 1\n>>\nstream\nq "
              ++ (formatInt ctx.SignData.Image.dx ++ (ascii " 0 0 "
              ++ (formatInt ctx.SignData.Image.dy ++ ascii " 0 0 cm\n")))))))
            ++ (ascii "/Im" ++ (formatInt ctx.clock ++ ascii " Do\nQ\nendstream\n")))) := by
    rw [ha]
    unfold appearance_buffer
    have e1 : ascii "<<\n  /Type /XObject\n  /Subtype /Form\n  /BBox [0 0 "
        = ascii "<<\n" ++ (ascii "  /Type /XObject\n" ++ (ascii "  /Subtype /Form\n"
          ++ ascii "  /BBox [0 0 ")) := by decide
    have e2 : ascii "]\n  /Resources << /XObject << " ++ ascii "/Im"
        = ascii "]\n" ++ ascii "  /Resources << /XObject << /Im" := by decide
    have e3 : ascii " 0 R >> >>  /FormType 1\n>>\nstream\nq "
        = ascii " 0 R >> >>" ++ (ascii "  /FormType 1\n" ++ (ascii ">>\n" ++ (ascii "stream\n"
          ++ ascii "q "))) := by decide
    have e4 : ascii " Do\nQ\nendstream\n"
        = ascii " Do\n" ++ (ascii "Q\n" ++ ascii "endstream\n") := by decide
    rw [e1, e3, e4]
    simp only [List.append_assoc]
    rw [← List.append_assoc (ascii "]\n  /Resources << /XObject << ") (ascii "/Im"), e2]
    simp only [List.append_assoc]
  refine ⟨data, ctx.lastObjectId + 1, _, _, hj, himg, rfl, rfl, ?_, ?_⟩
  · rw [hshape]
    have e3 : ascii " 0 R >> >>  /FormType 1\n>>\nstream\nq "
        = ascii " 0 R >> >>  /FormType 1\n>>\n" ++ (ascii "stream\n" ++ ascii "q ") := by decide
    have e4 : ascii " Do\nQ\nendstream\n"
        = ascii " Do\n" ++ (ascii "Q\n" ++ ascii "endstream\n") := by decide
    rw [e3, e4]
    simp only [List.append_assoc]
  · have hself : Closed (ascii "/Im") (ascii "/Im") ∧ countOcc (ascii "/Im") (ascii "/Im") = 1 := by
      decide
    have hB : Inert (ascii "/Im")
        (ascii "<<\n  /Type /XObject\n  /Subtype /Form\n  /BBox [0 0 "
          ++ (formatInt ctx.SignData.Image.dx ++ (ascii " " ++ (formatInt ctx.SignData.Image.dy
          ++ ascii "]\n  /Resources << /XObject << ")))) := by
      repeat' (first
        | exact inert_number hp _ (numberText_formatInt _)
        | exact inert_number hp _ (numberText_formatNat _)
        | decide
        | apply inert_append)
    have hC : Inert (ascii "/Im")
        (formatInt ctx.clock ++ (ascii " " ++ (formatNat (ctx.lastObjectId + 1)
          ++ (ascii " 0 R >> >>  /FormType 1\n>>\nstream\nq "
          ++ (formatInt ctx.SignData.Image.dx ++ (ascii " 0 0 "
          ++ (formatInt ctx.SignData.Image.dy ++ ascii " 0 0 cm\n"))))))) := by
      repeat' (first
        | exact inert_number hp _ (numberText_formatInt _)
        | exact inert_number hp _ (numberText_formatNat _)
        | decide
        | apply inert_append)
    have hD : Inert (ascii "/Im") (formatInt ctx.clock ++ ascii " Do\nQ\nendstream\n") := by
      repeat' (first
        | exact inert_number hp _ (numberText_formatInt _)
        | exact inert_number hp _ (numberText_formatNat _)
        | decide
        | apply inert_append)
    rw [hshape, countOcc_inert_append _ hB, countOcc_append_closed _ _ hself.1, hself.2,
      countOcc_inert_append _ hC, countOcc_append_closed _ _ hself.1, hself.2, hD.2]

theorem form_xobject_draws_the_image_witness :
    ∃ (a : List Nat) (c1 : SignContext),
      createAppearanceWithImage sampleContext = (.ok a, c1)
        ∧ a = ascii "<<\n  /Type /XObject\n  /Subtype /Form\n  /BBox [0 0 2 1]\n  /Resources << /XObject << /Im1700000000000000000 2 0 R >> >>  /FormType 1\n>>\nstream\nq 2 0 0 1 0 0 cm\n/Im1700000000000000000 Do\nQ\nendstream\n"
        ∧ countOcc (ascii "/Im") a = 2 := by
  obtain ⟨data, imgId, name, content, -, -, -, -, h1, h2⟩ :=
    form_xobject_draws_the_image sampleContext _ _ rfl
  refine ⟨_, _, rfl, ?_, h2⟩
  decide

/-! ## The shape of the signature dictionary -/

/-- The dictionary of a successful call, piece by piece, with what the call did to the
page id and the root reference. -/
theorem dictionary_shape (ctx : SignContext) (visible : Bool) (pageNumber : Nat)
    (rect : RectText) (d : List Nat) (ctx2 : SignContext)
    (h : createVisualSignatureWithImage ctx visible pageNumber rect = (.ok d, ctx2)) :
    ∃ middle pl : List Nat,
      d = ascii "<<\n" ++ (ascii "  /Type /Annot\n" ++ (ascii "  /Subtype /Widget\n" ++ (middle
          ++ (pl ++ (ascii "  /F " ++ (formatNat (AnnotationFlagPrint ||| AnnotationFlagLocked)
          ++ (ascii "\n" ++ (ascii "  /FT /Sig\n" ++ (ascii "  /T " ++ (ascii "(" ++ (ascii "Signature "
          ++ (formatNat (ctx.existingSignatures + 1) ++ (ascii ")" ++ (ascii "\n" ++ (ascii "  /V "
          ++ (formatNat ctx.SignData.objectId ++ (ascii " 0 R\n" ++ ascii ">>\n")))))))))))))))))
        ∧ IsMiddle rect middle ∧ (visible = false → middle = ascii "  /Rect [0 0 0 0]\n")
        ∧ ((ascii "Pages" ∈ ctx.PDFReader.rootKeys
              ∧ ∃ p, findPageByNumber ctx pageNumber = .ok p ∧ pl = pageLine p
                ∧ ctx2.VisualSignData.pageObjectId = p.id)
            ∨ (ascii "Pages" ∉ ctx.PDFReader.rootKeys ∧ pl = []
                ∧ ctx2.VisualSignData = ctx.VisualSignData))
        ∧ ctx2.CatalogData.RootString = rootReference ctx := by
  have key : ∀ (c : SignContext) (vs : List Nat), c.PDFReader = ctx.PDFReader →
      c.existingSignatures = ctx.existingSignatures → c.SignData = ctx.SignData →
      c.VisualSignData = ctx.VisualSignData →
      finishVisualSignature c pageNumber vs = (.ok d, ctx2) →
      ∃ pl : List Nat, d = vs ++ (pl ++ signature_tail ctx [])
        ∧ ((ascii "Pages" ∈ ctx.PDFReader.rootKeys
              ∧ ∃ p, findPageByNumber ctx pageNumber = .ok p ∧ pl = pageLine p
                ∧ ctx2.VisualSignData.pageObjectId = p.id)
            ∨ (ascii "Pages" ∉ ctx.PDFReader.rootKeys ∧ pl = []
                ∧ ctx2.VisualSignData = ctx.VisualSignData))
        ∧ ctx2.CatalogData.RootString = rootReference ctx := by
    intro c vs hpdf hex hsd hvd hfin
    have htail : ∀ pl, signature_tail c pl = pl ++ signature_tail ctx [] := by
      intro pl
      unfold signature_tail
      rw [hex, hsd]
      simp only [List.append_assoc, List.nil_append]
    have hroot : (withRootString c).CatalogData.RootString = rootReference ctx := by
      show rootReference c = rootReference ctx
      unfold rootReference
      rw [hpdf]
    by_cases hp : ascii "Pages" ∈ ctx.PDFReader.rootKeys
    · have hpc : ascii "Pages" ∈ c.PDFReader.rootKeys := by rw [hpdf]; exact hp
      obtain ⟨he, hok⟩ := (finishVisualSignature_cases c pageNumber vs).1 hpc
      cases hf : findPageByNumber c pageNumber with
      | error e =>
        rw [he e hf] at hfin
        simp at hfin
      | ok p =>
        rw [hok p hf] at hfin
        simp only [Prod.mk.injEq, Except.ok.injEq] at hfin
        obtain ⟨hd, hc⟩ := hfin
        refine ⟨pageLine p, ?_, Or.inl ⟨hp, p, ?_, rfl, ?_⟩, ?_⟩
        · rw [← hd, htail]
        · rw [← findPageByNumber_congr c ctx pageNumber hpdf]
          exact hf
        · rw [← hc]
        · rw [← hc]
          exact hroot
    · have hpc : ascii "Pages" ∉ c.PDFReader.rootKeys := by rw [hpdf]; exact hp
      rw [(finishVisualSignature_cases c pageNumber vs).2 hpc] at hfin
      simp only [Prod.mk.injEq, Except.ok.injEq] at hfin
      obtain ⟨hd, hc⟩ := hfin
      refine ⟨[], ?_, Or.inr ⟨hp, rfl, ?_⟩, ?_⟩
      · rw [← hd, htail]
      · rw [← hc]
        exact hvd
      · rw [← hc]
        exact hroot
  have htail0 : signature_tail ctx []
      = ascii "  /F " ++ (formatNat (AnnotationFlagPrint ||| AnnotationFlagLocked)
          ++ (ascii "\n" ++ (ascii "  /FT /Sig\n" ++ (ascii "  /T " ++ (ascii "(" ++ (ascii "Signature "
          ++ (formatNat (ctx.existingSignatures + 1) ++ (ascii ")" ++ (ascii "\n" ++ (ascii "  /V "
          ++ (formatNat ctx.SignData.objectId ++ (ascii " 0 R\n" ++ ascii ">>\n")))))))))))) := by
    have hn : formatInt ((ctx.existingSignatures : Int) + 1)
        = formatNat (ctx.existingSignatures + 1) := by
      rw [← formatInt_natCast]
      push_cast
      rfl
    unfold signature_tail pdfString
    rw [hn]
    simp only [List.append_assoc, List.nil_append]
  cases visible with
  | false =>
    rw [createVisualSignatureWithImage_invisible_run] at h
    obtain ⟨pl, hd, hpg, hroot⟩ := key ctx _ rfl rfl rfl rfl h
    refine ⟨ascii "  /Rect [0 0 0 0]\n", pl, ?_, Or.inl rfl, fun _ => rfl, hpg, hroot⟩
    rw [hd, htail0]
    simp only [List.append_assoc]
  | true =>
    rcases createVisualSignatureWithImage_early_error ctx pageNumber rect with
      ⟨a, c1, id, c2, hca, hadd⟩ | ⟨e, c, he | he⟩
    · obtain ⟨hrun, h1, h2, h3, h4, -⟩ :=
        createVisualSignatureWithImage_visible_run ctx pageNumber rect a c1 id c2 hca hadd
      rw [hrun] at h
      obtain ⟨pl, hd, hpg, hroot⟩ := key c2 _ h1 h2 h3 h4 h
      refine ⟨_, pl, ?_, Or.inr ⟨id, rfl⟩, fun hv => by simp at hv, hpg, hroot⟩
      rw [hd, htail0]
      simp only [List.append_assoc]
    · rw [he] at h
      simp at h
    · rw [he] at h
      simp at h

/-! ## Counting the entries of the signature dictionary -/

/-- The empty text holds nothing. -/
theorem inert_nil (pat : List Nat) : Inert pat [] := by
  refine ⟨?_, rfl⟩
  intro u hu hne
  simp only [List.tails, List.mem_singleton] at hu
  exact absurd hu hne

/-- A text between two parts that hold no occurrence and no beginning of it occurs once. -/
theorem countOcc_between_inert {pat before after : List Nat} (hb : Inert pat before)
    (hs : Closed pat pat ∧ countOcc pat pat = 1) (ha : Inert pat after) :
    countOcc pat (before ++ (pat ++ after)) = 1 :=
  countOcc_between hb hs ha.2

/-- The `/Rect` and `/AP` lines hold no occurrence of a name that their fixed texts do not
hold, when the coordinates are printed numbers. -/
theorem inert_middle {pat : List Nat} (hp : pat.head? = some 47) (rect : RectText)
    (visible : Bool) (middle : List Nat) (hm : IsMiddle rect middle)
    (hv : visible = false → middle = ascii "  /Rect [0 0 0 0]\n")
    (hrect : visible = true → rect.printed)
    (hl : ∀ x ∈ middleLiterals, Inert pat x) : Inert pat middle := by
  cases visible with
  | false =>
    rw [hv rfl]
    exact hl _ (by decide)
  | true =>
    obtain ⟨f0, f1, f2, f3⟩ := hrect rfl
    rcases hm with rfl | ⟨id, rfl⟩
    · exact hl _ (by decide)
    · repeat' (first
        | exact inert_float hp _ f0
        | exact inert_float hp _ f1
        | exact inert_float hp _ f2
        | exact inert_float hp _ f3
        | exact inert_number hp _ (numberText_formatNat _)
        | exact hl _ (by decide)
        | apply inert_append)

/-- The `/P` line holds no occurrence of a name that its fixed texts do not hold. -/
theorem inert_pageLine {pat : List Nat} (hp : pat.head? = some 47) (p : Ptr)
    (hl : ∀ x ∈ pageLiterals, Inert pat x) : Inert pat (pageLine p) := by
  unfold pageLine
  repeat' (first
    | exact inert_number hp _ (numberText_formatInt _)
    | exact hl _ (by decide)
    | apply inert_append)

/-- A name followed by texts without a slash starts with a slash and holds no other. -/
theorem no_slash_in_number (x : List Nat) (hx : numberText x) : 47 ∉ x := by
  intro h
  have := hx 47 h
  omega

/-- The coordinates of the sample rectangle are printed numbers. -/
theorem sampleRect_printed : sampleRect.printed := by
  unfold RectText.printed floatText
  decide

/-- C12: every dictionary that a successful `createVisualSignatureWithImage` returns holds
exactly once each of `/Type /Annot`, `/Subtype /Widget`, `/FT /Sig`, `/F` with the flags
`AnnotationFlagPrint ||| AnnotationFlagLocked`, which are 132, `/T` with the PDF string
`Signature N` for `N` one more than the number of existing signatures (so at least 1, and 1
for an unsigned document), and `/V <SignData.objectId> 0 R`. The coordinates of a visible
signature are taken as printed numbers. -/
theorem signature_dictionary_entries_once (ctx : SignContext) (visible : Bool)
    (pageNumber : Nat) (rect : RectText) (d : List Nat) (ctx2 : SignContext)
    (hrect : visible = true → rect.printed)
    (h : createVisualSignatureWithImage ctx visible pageNumber rect = (.ok d, ctx2)) :
    countOcc (ascii "/Type /Annot") d = 1
      ∧ countOcc (ascii "/Subtype /Widget") d = 1
      ∧ countOcc (ascii "/FT /Sig") d = 1
      ∧ countOcc (ascii "/F " ++ formatNat (AnnotationFlagPrint ||| AnnotationFlagLocked)) d = 1
      ∧ (AnnotationFlagPrint ||| AnnotationFlagLocked) = 132
      ∧ countOcc
          (ascii "/T " ++ pdfString (ascii "Signature " ++ formatNat (ctx.existingSignatures + 1)))
          d = 1
      ∧ 1 ≤ ctx.existingSignatures + 1
      ∧ (ctx.existingSignatures = 0 → countOcc (ascii "/T (Signature 1)") d = 1)
      ∧ countOcc (ascii "/V " ++ formatNat ctx.SignData.objectId ++ ascii " 0 R") d = 1 := by
  obtain ⟨middle, pl, hd, hm, hv, hpg, -⟩ := dictionary_shape ctx visible pageNumber rect d ctx2 h
  have hM : ∀ pat : List Nat, pat.head? = some 47 → (∀ x ∈ middleLiterals, Inert pat x) →
      Inert pat middle := fun pat hp hl => inert_middle hp rect visible middle hm hv hrect hl
  have hP : ∀ pat : List Nat, pat.head? = some 47 → (∀ x ∈ pageLiterals, Inert pat x) →
      Inert pat pl := by
    intro pat hp hl
    rcases hpg with ⟨-, p, -, hpl, -⟩ | ⟨-, hpl, -⟩
    · rw [hpl]
      exact inert_pageLine hp p hl
    · rw [hpl]
      exact inert_nil pat
  have hflags : formatNat (AnnotationFlagPrint ||| AnnotationFlagLocked) = ascii "132" := by
    decide
  have hone : ctx.existingSignatures = 0 →
      ascii "/T " ++ pdfString (ascii "Signature " ++ formatNat (ctx.existingSignatures + 1))
        = ascii "/T (Signature 1)" := by
    intro h0
    rw [h0]
    decide
  have hT : ascii "/T " ++ pdfString (ascii "Signature " ++ formatNat (ctx.existingSignatures + 1))
      = ascii "/T " ++ (ascii "(" ++ (ascii "Signature "
          ++ (formatNat (ctx.existingSignatures + 1) ++ ascii ")"))) := by
    unfold pdfString
    simp only [List.append_assoc]
  have hV : ascii "/V " ++ formatNat ctx.SignData.objectId ++ ascii " 0 R"
      = ascii "/V " ++ (formatNat ctx.SignData.objectId ++ ascii " 0 R") := by
    simp only [List.append_assoc]
  have hF : ascii "/F " ++ formatNat (AnnotationFlagPrint ||| AnnotationFlagLocked)
      = ascii "/F 132" := by decide
  rw [hflags] at hd
  have hN : numberText (formatNat (ctx.existingSignatures + 1)) := numberText_formatNat _
  have hI : numberText (formatNat ctx.SignData.objectId) := numberText_formatNat _
  suffices hall : countOcc (ascii "/Type /Annot") d = 1
      ∧ countOcc (ascii "/Subtype /Widget") d = 1
      ∧ countOcc (ascii "/FT /Sig") d = 1
      ∧ countOcc (ascii "/F 132") d = 1
      ∧ countOcc (ascii "/T " ++ (ascii "(" ++ (ascii "Signature "
          ++ (formatNat (ctx.existingSignatures + 1) ++ ascii ")")))) d = 1
      ∧ countOcc (ascii "/V " ++ (formatNat ctx.SignData.objectId ++ ascii " 0 R")) d = 1 by
    obtain ⟨a1, a2, a3, a4, a5, a6⟩ := hall
    refine ⟨a1, a2, a3, ?_, by decide, ?_, Nat.le_add_left _ _, ?_, ?_⟩
    · rw [hF]
      exact a4
    · rw [hT]
      exact a5
    · intro h0
      rw [← hone h0, hT]
      exact a5
    · rw [hV]
      exact a6
  generalize formatNat (ctx.existingSignatures + 1) = N at hd hN ⊢
  generalize formatNat ctx.SignData.objectId = I at hd hI ⊢
  have hs5 : Closed (ascii "/T " ++ (ascii "(" ++ (ascii "Signature " ++ (N ++ ascii ")"))))
        (ascii "/T " ++ (ascii "(" ++ (ascii "Signature " ++ (N ++ ascii ")"))))
      ∧ countOcc (ascii "/T " ++ (ascii "(" ++ (ascii "Signature " ++ (N ++ ascii ")"))))
        (ascii "/T " ++ (ascii "(" ++ (ascii "Signature " ++ (N ++ ascii ")")))) = 1 := by
    refine slash_text_self (ascii "T " ++ (ascii "(" ++ (ascii "Signature " ++ (N ++ ascii ")")))) ?_
    intro hin
    simp only [List.mem_append] at hin
    rcases hin with hin | hin | hin | hin | hin
    · revert hin; decide
    · revert hin; decide
    · revert hin; decide
    · exact no_slash_in_number N hN hin
    · revert hin; decide
  have hs6 : Closed (ascii "/V " ++ (I ++ ascii " 0 R")) (ascii "/V " ++ (I ++ ascii " 0 R"))
      ∧ countOcc (ascii "/V " ++ (I ++ ascii " 0 R")) (ascii "/V " ++ (I ++ ascii " 0 R")) = 1 := by
    refine slash_text_self (ascii "V " ++ (I ++ ascii " 0 R")) ?_
    intro hin
    simp only [List.mem_append] at hin
    rcases hin with hin | hin | hin
    · revert hin; decide
    · exact no_slash_in_number I hI hin
    · revert hin; decide
  have h1 : countOcc (ascii "/Type /Annot") d = 1 := by
    have hp : (ascii "/Type /Annot").head? = some 47 := rfl
    have hmid : Inert (ascii "/Type /Annot") middle := hM _ hp (by decide)
    have hpl : Inert (ascii "/Type /Annot") pl := hP _ hp (by decide)
    have e0 : ascii "  /Type /Annot\n" = ascii "  " ++ (ascii "/Type /Annot" ++ (ascii "\n")) := by decide
    have hshape : d = (ascii "<<\n" ++ (ascii "  "))
        ++ ((ascii "/Type /Annot") ++ (ascii "\n" ++ (ascii "  /Subtype /Widget\n" ++ (middle ++ (pl ++ (ascii "  /F "
          ++ (ascii "132" ++ (ascii "\n" ++ (ascii "  /FT /Sig\n" ++ (ascii "  /T "
          ++ (ascii "(" ++ (ascii "Signature " ++ (N ++ (ascii ")" ++ (ascii "\n"
          ++ (ascii "  /V " ++ (I ++ (ascii " 0 R\n" ++ (ascii ">>\n"))))))))))))))))))) := by
      rw [hd, e0]
      simp only [List.append_assoc]
    rw [hshape]
    refine countOcc_between_inert ?_ (by decide) ?_
    · decide
    · repeat' (first
        | exact hmid
        | exact hpl
        | exact inert_number hp _ hN
        | exact inert_number hp _ hI
        | decide
        | apply inert_append)
  have h2 : countOcc (ascii "/Subtype /Widget") d = 1 := by
    have hp : (ascii "/Subtype /Widget").head? = some 47 := rfl
    have hmid : Inert (ascii "/Subtype /Widget") middle := hM _ hp (by decide)
    have hpl : Inert (ascii "/Subtype /Widget") pl := hP _ hp (by decide)
    have e0 : ascii "  /Subtype /Widget\n" = ascii "  " ++ (ascii "/Subtype /Widget" ++ (ascii "\n")) := by decide
    have hshape : d = (ascii "<<\n" ++ (ascii "  /Type /Annot\n" ++ (ascii "  ")))
        ++ ((ascii "/Subtype /Widget") ++ (ascii "\n" ++ (middle ++ (pl ++ (ascii "  /F " ++ (ascii "132" ++ (ascii "\n"
          ++ (ascii "  /FT /Sig\n" ++ (ascii "  /T " ++ (ascii "(" ++ (ascii "Signature " ++ (N
          ++ (ascii ")" ++ (ascii "\n" ++ (ascii "  /V " ++ (I ++ (ascii " 0 R\n"
          ++ (ascii ">>\n")))))))))))))))))) := by
      rw [hd, e0]
      simp only [List.append_assoc]
    rw [hshape]
    refine countOcc_between_inert ?_ (by decide) ?_
    · decide
    · repeat' (first
        | exact hmid
        | exact hpl
        | exact inert_number hp _ hN
        | exact inert_number hp _ hI
        | decide
        | apply inert_append)
  have h3 : countOcc (ascii "/FT /Sig") d = 1 := by
    have hp : (ascii "/FT /Sig").head? = some 47 := rfl
    have hmid : Inert (ascii "/FT /Sig") middle := hM _ hp (by decide)
    have hpl : Inert (ascii "/FT /Sig") pl := hP _ hp (by decide)
    have e0 : ascii "  /FT /Sig\n" = ascii "  " ++ (ascii "/FT /Sig" ++ (ascii "\n")) := by decide
    have hshape : d = (ascii "<<\n" ++ (ascii "  /Type /Annot\n" ++ (ascii "  /Subtype /Widget\n" ++ (middle
          ++ (pl ++ (ascii "  /F " ++ (ascii "132" ++ (ascii "\n" ++ (ascii "  ")))))))))
        ++ ((ascii "/FT /Sig") ++ (ascii "\n" ++ (ascii "  /T " ++ (ascii "(" ++ (ascii "Signature " ++ (N ++ (ascii ")"
          ++ (ascii "\n" ++ (ascii "  /V " ++ (I ++ (ascii " 0 R\n" ++ (ascii ">>\n")))))))))))) := by
      rw [hd, e0]
      simp only [List.append_assoc]
    rw [hshape]
    refine countOcc_between_inert ?_ (by decide) ?_
    · repeat' (first
        | exact hmid
        | exact hpl
        | exact inert_number hp _ hN
        | exact inert_number hp _ hI
        | decide
        | apply inert_append)
    · repeat' (first
        | exact hmid
        | exact hpl
        | exact inert_number hp _ hN
        | exact inert_number hp _ hI
        | decide
        | apply inert_append)
  have h4 : countOcc (ascii "/F 132") d = 1 := by
    have hp : (ascii "/F 132").head? = some 47 := rfl
    have hmid : Inert (ascii "/F 132") middle := hM _ hp (by decide)
    have hpl : Inert (ascii "/F 132") pl := hP _ hp (by decide)
    have e0 : ascii "  /F " = ascii "  " ++ (ascii "/F ") := by decide
    have e1 : ascii "/F 132" = ascii "/F " ++ (ascii "132") := by decide
    have hshape : d = (ascii "<<\n" ++ (ascii "  /Type /Annot\n" ++ (ascii "  /Subtype /Widget\n" ++ (middle
          ++ (pl ++ (ascii "  "))))))
        ++ ((ascii "/F 132") ++ (ascii "\n" ++ (ascii "  /FT /Sig\n" ++ (ascii "  /T " ++ (ascii "("
          ++ (ascii "Signature " ++ (N ++ (ascii ")" ++ (ascii "\n" ++ (ascii "  /V " ++ (I
          ++ (ascii " 0 R\n" ++ (ascii ">>\n"))))))))))))) := by
      rw [hd, e0, e1]
      simp only [List.append_assoc]
    rw [hshape]
    refine countOcc_between_inert ?_ (by decide) ?_
    · repeat' (first
        | exact hmid
        | exact hpl
        | exact inert_number hp _ hN
        | exact inert_number hp _ hI
        | decide
        | apply inert_append)
    · repeat' (first
        | exact hmid
        | exact hpl
        | exact inert_number hp _ hN
        | exact inert_number hp _ hI
        | decide
        | apply inert_append)
  have h5 : countOcc (ascii "/T " ++ (ascii "(" ++ (ascii "Signature " ++ (N ++ (ascii ")"))))) d = 1 := by
    have hp : (ascii "/T " ++ (ascii "(" ++ (ascii "Signature " ++ (N ++ (ascii ")"))))).head? = some 47 := rfl
    have hmid : Inert (ascii "/T " ++ (ascii "(" ++ (ascii "Signature " ++ (N ++ (ascii ")"))))) middle :=
      hM _ hp (fun x hx => inert_diverges (ascii "/T ") _ x (by decide)
        ((by decide : ∀ x ∈ middleLiterals, Diverges (ascii "/T ") x) x hx))
    have hpl : Inert (ascii "/T " ++ (ascii "(" ++ (ascii "Signature " ++ (N ++ (ascii ")"))))) pl :=
      hP _ hp (fun x hx => inert_diverges (ascii "/T ") _ x (by decide)
        ((by decide : ∀ x ∈ pageLiterals, Diverges (ascii "/T ") x) x hx))
    have e0 : ascii "  /T " = ascii "  " ++ (ascii "/T ") := by decide
    have hshape : d = (ascii "<<\n" ++ (ascii "  /Type /Annot\n" ++ (ascii "  /Subtype /Widget\n" ++ (middle
          ++ (pl ++ (ascii "  /F " ++ (ascii "132" ++ (ascii "\n" ++ (ascii "  /FT /Sig\n"
          ++ (ascii "  "))))))))))
        ++ ((ascii "/T " ++ (ascii "(" ++ (ascii "Signature " ++ (N ++ (ascii ")"))))) ++ (ascii "\n" ++ (ascii "  /V " ++ (I ++ (ascii " 0 R\n" ++ (ascii ">>\n")))))) := by
      rw [hd, e0]
      simp only [List.append_assoc]
    rw [hshape]
    refine countOcc_between_inert ?_ hs5 ?_
    · repeat' (first
        | exact hmid
        | exact hpl
        | exact inert_number hp _ hN
        | exact inert_number hp _ hI
        | exact inert_diverges _ _ _ (by decide) (by decide)
        | apply inert_append)
    · repeat' (first
        | exact hmid
        | exact hpl
        | exact inert_number hp _ hN
        | exact inert_number hp _ hI
        | exact inert_diverges _ _ _ (by decide) (by decide)
        | apply inert_append)
  have h6 : countOcc (ascii "/V " ++ (I ++ (ascii " 0 R"))) d = 1 := by
    have hp : (ascii "/V " ++ (I ++ (ascii " 0 R"))).head? = some 47 := rfl
    have hmid : Inert (ascii "/V " ++ (I ++ (ascii " 0 R"))) middle :=
      hM _ hp (fun x hx => inert_diverges (ascii "/V ") _ x (by decide)
        ((by decide : ∀ x ∈ middleLiterals, Diverges (ascii "/V ") x) x hx))
    have hpl : Inert (ascii "/V " ++ (I ++ (ascii " 0 R"))) pl :=
      hP _ hp (fun x hx => inert_diverges (ascii "/V ") _ x (by decide)
        ((by decide : ∀ x ∈ pageLiterals, Diverges (ascii "/V ") x) x hx))
    have e0 : ascii "  /V " = ascii "  " ++ (ascii "/V ") := by decide
    have e1 : ascii " 0 R\n" = ascii " 0 R" ++ (ascii "\n") := by decide
    have hshape : d = (ascii "<<\n" ++ (ascii "  /Type /Annot\n" ++ (ascii "  /Subtype /Widget\n" ++ (middle
          ++ (pl ++ (ascii "  /F " ++ (ascii "132" ++ (ascii "\n" ++ (ascii "  /FT /Sig\n"
          ++ (ascii "  /T " ++ (ascii "(" ++ (ascii "Signature " ++ (N ++ (ascii ")"
          ++ (ascii "\n" ++ (ascii "  "))))))))))))))))
        ++ ((ascii "/V " ++ (I ++ (ascii " 0 R"))) ++ (ascii "\n" ++ (ascii ">>\n"))) := by
      rw [hd, e0, e1]
      simp only [List.append_assoc]
    rw [hshape]
    refine countOcc_between_inert ?_ hs6 ?_
    · repeat' (first
        | exact hmid
        | exact hpl
        | exact inert_number hp _ hN
        | exact inert_number hp _ hI
        | exact inert_diverges _ _ _ (by decide) (by decide)
        | apply inert_append)
    · exact inert_diverges _ _ _ (by decide) (by decide)
  exact ⟨h1, h2, h3, h4, h5, h6⟩

theorem signature_dictionary_entries_once_witness :
    ∃ d ctx2, createVisualSignatureWithImage sampleContext true 1 sampleRect = (.ok d, ctx2)
      ∧ countOcc (ascii "/Type /Annot") d = 1
      ∧ countOcc (ascii "/T (Signature 1)") d = 1
      ∧ countOcc (ascii "/V " ++ formatNat sampleContext.SignData.objectId ++ ascii " 0 R") d = 1 :=
  ⟨_, _, rfl,
    (signature_dictionary_entries_once sampleContext true 1 sampleRect _ _ (fun _ => sampleRect_printed)
      rfl).1,
    (signature_dictionary_entries_once sampleContext true 1 sampleRect _ _ (fun _ => sampleRect_printed)
      rfl).2.2.2.2.2.2.2.1 rfl,
    (signature_dictionary_entries_once sampleContext true 1 sampleRect _ _ (fun _ => sampleRect_printed)
      rfl).2.2.2.2.2.2.2.2⟩

/-! ## The page entry and the root reference -/

/-- C13: after a successful `createVisualSignatureWithImage`, when the Root object has a
`Pages` key the dictionary holds the entry `/P <id> <gen> R` of the page that
`findPageByNumber` finds for the 1-based `pageNumber`, it holds `/P ` once, and
`VisualSignData.pageObjectId` is that id; without a `Pages` key the dictionary holds no
`/P ` and `VisualSignData` is unchanged. In both cases `CatalogData.RootString` is
`<rootID> <rootGen> R`, so that the text `root_string` that `writeTrailer` searches for is
`Root <rootID> <rootGen> R`. The coordinates of a visible signature are taken as printed
numbers. -/
theorem page_entry_iff_pages_key (ctx : SignContext) (visible : Bool) (pageNumber : Nat)
    (rect : RectText) (d : List Nat) (ctx2 : SignContext)
    (hrect : visible = true → rect.printed)
    (h : createVisualSignatureWithImage ctx visible pageNumber rect = (.ok d, ctx2)) :
    (ascii "Pages" ∈ ctx.PDFReader.rootKeys →
        ∃ p : Ptr, findPageByNumber ctx pageNumber = .ok p
          ∧ 1 ≤ pageNumber ∧ ctx.PDFReader.pages.get? (pageNumber - 1) = some p
          ∧ (ascii "/P " ++ (formatInt (p.id : Int) ++ (ascii " " ++ (formatInt (p.gen : Int)
              ++ ascii " R")))) <:+: d
          ∧ countOcc (ascii "/P ") d = 1
          ∧ ctx2.VisualSignData.pageObjectId = p.id)
      ∧ (ascii "Pages" ∉ ctx.PDFReader.rootKeys →
          countOcc (ascii "/P ") d = 0 ∧ ctx2.VisualSignData = ctx.VisualSignData)
      ∧ ctx2.CatalogData.RootString
          = formatInt (ctx.PDFReader.rootPtr.id : Int) ++ ascii " "
            ++ formatInt (ctx.PDFReader.rootPtr.gen : Int) ++ ascii " R"
      ∧ root_string ctx2
          = ascii "Root " ++ (formatInt (ctx.PDFReader.rootPtr.id : Int) ++ ascii " "
            ++ formatInt (ctx.PDFReader.rootPtr.gen : Int) ++ ascii " R") := by
  obtain ⟨middle, pl, hd, hm, hv, hpg, hroot⟩ :=
    dictionary_shape ctx visible pageNumber rect d ctx2 h
  have hp : (ascii "/P ").head? = some 47 := rfl
  have hmid : Inert (ascii "/P ") middle :=
    inert_middle hp rect visible middle hm hv hrect (by decide)
  obtain ⟨X, hXdef⟩ : ∃ X, X = ascii "<<\n" ++ (ascii "  /Type /Annot\n"
      ++ (ascii "  /Subtype /Widget\n" ++ middle)) := ⟨_, rfl⟩
  obtain ⟨Y, hYdef⟩ : ∃ Y, Y = ascii "  /F "
      ++ (formatNat (AnnotationFlagPrint ||| AnnotationFlagLocked)
      ++ (ascii "\n" ++ (ascii "  /FT /Sig\n" ++ (ascii "  /T " ++ (ascii "(" ++ (ascii "Signature "
      ++ (formatNat (ctx.existingSignatures + 1) ++ (ascii ")" ++ (ascii "\n" ++ (ascii "  /V "
      ++ (formatNat ctx.SignData.objectId ++ (ascii " 0 R\n" ++ ascii ">>\n")))))))))))) :=
    ⟨_, rfl⟩
  have hX : Inert (ascii "/P ") X := by
    rw [hXdef]
    repeat' (first
      | exact hmid
      | decide
      | apply inert_append)
  have hY : Inert (ascii "/P ") Y := by
    rw [hYdef]
    repeat' (first
      | exact inert_number hp _ (numberText_formatNat _)
      | decide
      | apply inert_append)
  have hd1 : d = X ++ (pl ++ Y) := by
    rw [hd, hXdef, hYdef]
    simp only [List.append_assoc]
  have hrs : root_string ctx2 = ascii "Root " ++ ctx2.CatalogData.RootString := rfl
  refine ⟨?_, ?_, hroot, by rw [hrs, hroot]; rfl⟩
  · intro _
    rcases hpg with ⟨-, p, hfind, hpl, hpid⟩ | ⟨hnin, -, -⟩
    · have e0 : ascii "  /P " = ascii "  " ++ ascii "/P " := by decide
      have e1 : ascii " R\n" = ascii " R" ++ ascii "\n" := by decide
      have hget : 1 ≤ pageNumber ∧ ctx.PDFReader.pages.get? (pageNumber - 1) = some p := by
        unfold findPageByNumber at hfind
        split at hfind
        · simp at hfind
        · next hne =>
          refine ⟨Nat.one_le_iff_ne_zero.mpr hne, ?_⟩
          split at hfind
          · next q hq =>
            simp only [Except.ok.injEq] at hfind
            rw [hq, hfind]
          · simp at hfind
      refine ⟨p, hfind, hget.1, hget.2, ?_, ?_, hpid⟩
      · refine ⟨X ++ ascii "  ", ascii "\n" ++ Y, ?_⟩
        rw [hd1, hpl]
        unfold pageLine
        rw [e0, e1]
        simp only [List.append_assoc]
      · have hshape : d = (X ++ ascii "  ") ++ (ascii "/P " ++ ((formatInt (p.id : Int)
            ++ (ascii " " ++ (formatInt (p.gen : Int) ++ ascii " R\n"))) ++ Y)) := by
          rw [hd1, hpl]
          unfold pageLine
          rw [e0]
          simp only [List.append_assoc]
        rw [hshape]
        refine countOcc_between_inert (inert_append hX (by decide)) (by decide)
          (inert_append ?_ hY)
        repeat' (first
          | exact inert_number hp _ (numberText_formatInt _)
          | decide
          | apply inert_append)
    · contradiction
  · intro _
    rcases hpg with ⟨hin, -⟩ | ⟨-, hpl, hvs⟩
    · contradiction
    · refine ⟨?_, hvs⟩
      rw [hd1, hpl]
      exact (inert_append hX (inert_append (inert_nil _) hY)).2

theorem page_entry_iff_pages_key_witness :
    ∃ d ctx2, createVisualSignatureWithImage sampleContext true 1 sampleRect = (.ok d, ctx2)
      ∧ ascii "/P 5 0 R" <:+: d
      ∧ ctx2.VisualSignData.pageObjectId = 5
      ∧ root_string ctx2 = ascii "Root 1 0 R" := by
  obtain ⟨h1, -, -, h4⟩ :=
    page_entry_iff_pages_key sampleContext true 1 sampleRect _ _ (fun _ => sampleRect_printed) rfl
  obtain ⟨p, hf, -, -, hin, -, hid⟩ := h1 (by decide)
  have hp : p = ⟨5, 0⟩ := by
    have : findPageByNumber sampleContext 1 = .ok ⟨5, 0⟩ := rfl
    rw [this] at hf
    simp only [Except.ok.injEq] at hf
    exact hf.symm
  subst hp
  exact ⟨_, _, rfl, hin, hid, h4⟩

/-! ## The two substitutions of `writeTrailer` do not meet -/

/-- No occurrence of `old` starts in a text that lacks the first byte of `old`. -/
theorem noStart_of_head_not_mem {old : List Nat} {o : Nat} (ho : old.head? = some o) :
    ∀ (gap rest : List Nat), o ∉ gap → NoStart old gap rest := by
  have h0 : old ≠ [] := by rintro rfl; simp at ho
  intro gap
  induction gap with
  | nil => intro _ _; trivial
  | cons c gap ih =>
    intro rest h
    refine ⟨?_, ih rest (fun hm => h (List.mem_cons_of_mem _ hm))⟩
    intro hp
    have := prefix_head_eq h0 hp
    rw [ho] at this
    simp only [List.head?_cons, Option.some.injEq] at this
    exact h (by rw [this]; exact List.mem_cons_self _ _)

/-- A text that lacks the first byte of `old` is copied as it is. -/
theorem replaceAll_append_of_head_not_mem {old : List Nat} {o : Nat} (new : List Nat)
    (ho : old.head? = some o) (x y : List Nat) (hx : o ∉ x) :
    replaceAll (x ++ y) old new = x ++ replaceAll y old new :=
  replaceAll_gap new x y (noStart_of_head_not_mem ho x y hx)

theorem endsAgree_of_head_not_mem (old : List Nat) {new p : List Nat} {a : Nat}
    (hn : new.head? = some a) (hp : a ∉ p) : EndsAgree old new p := by
  have hn0 : new ≠ [] := by rintro rfl; simp at hn
  intro q hq hq0 hor
  exfalso
  have hsuf : q <:+ p := (List.mem_tails _ _).mp hq
  have hhead : q.head? = some a := by
    rcases hor with h | h
    · rw [prefix_head_eq hq0 h, hn]
    · rw [← prefix_head_eq hn0 h, hn]
  exact hp (hsuf.subset (mem_of_head hhead))

/-- Replacing `old` by `new` neither makes nor unmakes a beginning `w` of the text, when
`w` shares no first byte with them. -/
theorem prefix_replaceAll_iff {old new w : List Nat} {a : Nat}
    (ho : old.head? = some a) (hn : new.head? = some a) (ha : a ∉ w) (s : List Nat) :
    w <+: replaceAll s old new ↔ w <+: s := by
  have h0 : old ≠ [] := by rintro rfl; simp at ho
  constructor
  · intro h
    exact prefix_of_prefix_replaceAll h0 (endsAgree_of_head_not_mem old hn ha) s w
      (List.suffix_refl w) h
  · rintro ⟨r, rfl⟩
    rw [replaceAll_append_of_head_not_mem new ho w r ha]
    exact ⟨_, rfl⟩

/-- A text that lacks the first byte of `pat` adds no occurrence in front. -/
theorem countOcc_append_of_head_not_mem {pat : List Nat} {b : Nat} (hp : pat.head? = some b)
    (x y : List Nat) (hx : b ∉ x) : countOcc pat (x ++ y) = countOcc pat y := by
  obtain ⟨h0, hc⟩ := countOcc_without_head hp x hx
  rw [countOcc_append_closed x y hc, h0, Nat.zero_add]

/-- Replacing `oldA` by `newA` keeps the number of occurrences of `oldB`, when the first
byte of the one pair is in no text of the other. -/
theorem countOcc_replaceAll_of_disjoint_heads {oldA newA oldB : List Nat} {a b : Nat}
    (hoA : oldA.head? = some a) (hnA : newA.head? = some a) (hoB : oldB.head? = some b)
    (haB : a ∉ oldB) (hbA : b ∉ oldA) (hbA2 : b ∉ newA) :
    ∀ (n : Nat) (t : List Nat), t.length ≤ n →
      countOcc oldB (replaceAll t oldA newA) = countOcc oldB t := by
  have hA0 : oldA ≠ [] := by rintro rfl; simp at hoA
  intro n
  induction n with
  | zero =>
    intro t ht
    have : t = [] := List.eq_nil_of_length_eq_zero (by omega)
    subst this
    rw [replaceAll_nil]
  | succ n ih =>
    intro t ht
    by_cases hA : oldA <+: t
    · obtain ⟨r, rfl⟩ := hA
      have hlen : 0 < oldA.length := List.length_pos.mpr hA0
      rw [List.length_append] at ht
      rw [replaceAll_old_append newA r hA0, countOcc_append_of_head_not_mem hoB newA _ hbA2,
        countOcc_append_of_head_not_mem hoB oldA r hbA, ih r (by omega)]
    · cases t with
      | nil => rw [replaceAll_nil]
      | cons c cs =>
        have hiff := prefix_replaceAll_iff hoA hnA haB (w := oldB) (c :: cs)
        have hcA := replaceAll_cons_of_not_prefix newA hA
        rw [hcA] at hiff ⊢
        simp only [List.length_cons] at ht
        simp only [countOcc, hiff, ih cs (by omega)]

/-- Two substitutions commute when the first byte of each pair is in no text of the other
pair. -/
theorem replaceAll_comm_of_disjoint_heads {oldA newA oldB newB : List Nat} {a b : Nat}
    (hoA : oldA.head? = some a) (hnA : newA.head? = some a) (hoB : oldB.head? = some b)
    (hnB : newB.head? = some b) (haB : a ∉ oldB) (haB2 : a ∉ newB) (hbA : b ∉ oldA)
    (hbA2 : b ∉ newA) :
    ∀ (n : Nat) (t : List Nat), t.length ≤ n →
      replaceAll (replaceAll t oldA newA) oldB newB
        = replaceAll (replaceAll t oldB newB) oldA newA := by
  have hA0 : oldA ≠ [] := by rintro rfl; simp at hoA
  have hB0 : oldB ≠ [] := by rintro rfl; simp at hoB
  intro n
  induction n with
  | zero =>
    intro t ht
    have : t = [] := List.eq_nil_of_length_eq_zero (by omega)
    subst this
    simp only [replaceAll_nil]
  | succ n ih =>
    intro t ht
    by_cases hA : oldA <+: t
    · obtain ⟨r, rfl⟩ := hA
      have hlen : 0 < oldA.length := List.length_pos.mpr hA0
      rw [List.length_append] at ht
      rw [replaceAll_old_append newA r hA0,
        replaceAll_append_of_head_not_mem newB hoB newA _ hbA2,
        replaceAll_append_of_head_not_mem newB hoB oldA r hbA,
        replaceAll_old_append newA _ hA0, ih r (by omega)]
    · by_cases hB : oldB <+: t
      · obtain ⟨r, rfl⟩ := hB
        have hlen : 0 < oldB.length := List.length_pos.mpr hB0
        rw [List.length_append] at ht
        rw [replaceAll_old_append newB r hB0,
          replaceAll_append_of_head_not_mem newA hoA newB _ haB2,
          replaceAll_append_of_head_not_mem newA hoA oldB r haB,
          replaceAll_old_append newB _ hB0, ih r (by omega)]
      · cases t with
        | nil => simp only [replaceAll_nil]
        | cons c cs =>
          have hiffB := prefix_replaceAll_iff hoA hnA haB (w := oldB) (c :: cs)
          have hiffA := prefix_replaceAll_iff hoB hnB hbA (w := oldA) (c :: cs)
          have hcA := replaceAll_cons_of_not_prefix newA hA
          have hcB := replaceAll_cons_of_not_prefix newB hB
          rw [hcA] at hiffB ⊢
          rw [hcB] at hiffA ⊢
          simp only [List.length_cons] at ht
          have hcB2 := replaceAll_cons_of_not_prefix newB (fun h => hB (hiffB.mp h))
          have hcA2 := replaceAll_cons_of_not_prefix newA (fun h => hA (hiffA.mp h))
          rw [hcB2, hcA2, ih cs (by omega)]

/-- A decimal number holds neither `R` nor `S`. -/
theorem no_letter_in_number (x : List Nat) (hx : numberText x) : 82 ∉ x ∧ 83 ∉ x := by
  constructor <;> intro h <;> have := hx _ h <;> omega

/-- C16: the two substitutions of `writeTrailer` are independent. For every text `t`, every
`RootString` of the form `<digits> <digits> R`, every catalog id and every item count,
replacing `root_string` by `new_root` keeps the number of occurrences of `size_string`
(so it makes none and unmakes none), and the Root substitution followed by the Size
substitution gives the same bytes as the Size substitution followed by the Root
substitution. -/
theorem root_and_size_substitutions_commute (ctx : SignContext) (t d1 d2 : List Nat)
    (h1 : allDigits d1) (h2 : allDigits d2)
    (hr : ctx.CatalogData.RootString = d1 ++ ascii " " ++ d2 ++ ascii " R") :
    countOcc (size_string ctx) (replaceAll t (root_string ctx) (new_root ctx))
        = countOcc (size_string ctx) t
      ∧ (size_string ctx <:+: replaceAll t (root_string ctx) (new_root ctx)
          ↔ size_string ctx <:+: t)
      ∧ replaceAll (replaceAll t (root_string ctx) (new_root ctx)) (size_string ctx)
            (new_size ctx)
          = replaceAll (replaceAll t (size_string ctx) (new_size ctx)) (root_string ctx)
            (new_root ctx) := by
  have hoA : (root_string ctx).head? = some 82 := rfl
  have hnA : (new_root ctx).head? = some 82 := rfl
  have hoB : (size_string ctx).head? = some 83 := rfl
  have hnB : (new_size ctx).head? = some 83 := rfl
  have haB : 82 ∉ size_string ctx := by
    unfold size_string
    simp only [List.mem_append]
    rintro (h | h)
    · revert h; decide
    · exact (no_letter_in_number _ (numberText_formatInt _)).1 h
  have haB2 : 82 ∉ new_size ctx := by
    unfold new_size
    simp only [List.mem_append]
    rintro (h | h)
    · revert h; decide
    · exact (no_letter_in_number _ (numberText_formatInt _)).1 h
  have hbA : 83 ∉ root_string ctx := by
    unfold root_string
    rw [hr]
    simp only [List.mem_append]
    rintro (h | ((h | h) | h) | h)
    · revert h; decide
    · have := h1 _ h
      omega
    · revert h; decide
    · have := h2 _ h
      omega
    · revert h; decide
  have hbA2 : 83 ∉ new_root ctx := by
    unfold new_root
    simp only [List.mem_append]
    rintro ((h | h) | h)
    · revert h; decide
    · exact (no_letter_in_number _ (numberText_formatInt _)).2 h
    · revert h; decide
  have hS0 : size_string ctx ≠ [] := by
    intro h
    rw [h] at hoB
    simp at hoB
  have hcount := countOcc_replaceAll_of_disjoint_heads hoA hnA hoB haB hbA hbA2 t.length t
    (Nat.le_refl _)
  refine ⟨hcount, ?_, replaceAll_comm_of_disjoint_heads hoA hnA hoB hnB haB haB2 hbA hbA2
    t.length t (Nat.le_refl _)⟩
  rw [infix_iff_countOcc_pos hS0, infix_iff_countOcc_pos hS0, hcount]

theorem root_and_size_substitutions_commute_witness :
    replaceAll
        (replaceAll overlapTrailer (root_string (trailerContext overlapTrailer))
          (new_root (trailerContext overlapTrailer)))
        (size_string (trailerContext overlapTrailer)) (new_size (trailerContext overlapTrailer))
      = replaceAll
        (replaceAll overlapTrailer (size_string (trailerContext overlapTrailer))
          (new_size (trailerContext overlapTrailer)))
        (root_string (trailerContext overlapTrailer))
        (new_root (trailerContext overlapTrailer)) :=
  (root_and_size_substitutions_commute (trailerContext overlapTrailer) overlapTrailer
    (ascii "10") (ascii "0") (by unfold allDigits; decide) (by unfold allDigits; decide)
    (by decide)).2.2

theorem page_lookup_error_is_returned_witness :
    ascii "Pages" ∈ sampleContext.PDFReader.rootKeys
      ∧ findPageByNumber sampleContext 2 = .error (GoError.pageNotFound 2)
      ∧ createVisualSignatureWithImage sampleContext false 2 sampleRect
        = (.error (GoError.pageNotFound 2), withRootString sampleContext) :=
  ⟨by decide, rfl,
    ((page_lookup_error_is_returned sampleContext false 2 sampleRect).1 (by decide) _ rfl).1⟩

end PdfSign
